import Mathlib

/-!
# cloud-gaming-operator: instance lifecycle workflows over the compute API

A shallow embedding of `main.go`.  The compute service and the host clock are
an environment `Env σ` acting on an arbitrary state `σ`; each workflow is a
function from a start state to a `Run`: its result, the final state, the list
of provider requests it issued (with the answers it got) and what it printed.
The two polling loops have no iteration cap in the source; here they take a
budget of polls and report `Outcome.running` when the budget is used up.
-/

namespace CloudGamingOperator

/-! ## Data model -/

/-- The fields of `compute.Instance` that the program reads or writes. -/
structure Instance where
  Name : String
  LastStartTimestamp : String
  SourceMachineImage : String
deriving DecidableEq, Repr

/-- The fields of `compute.MachineImage` that the program reads or writes. -/
structure MachineImage where
  Name : String
  Description : String
  SatisfiesPzs : Bool
  SourceInstance : String
  StorageLocations : List String
deriving DecidableEq, Repr

/-- The fields of `compute.Operation` that the program reads, and its error
payload `Error`, which the program never reads. -/
structure Operation where
  Name : String
  Status : String
  Progress : Int
  Error : Option String
deriving DecidableEq, Repr

/-- Go `error` values the workflows can return. -/
inductive Err where
  /-- an error returned by a `Do()` call of the compute client -/
  | api (e : String)
  /-- the value of `errors.New(msg)` -/
  | new (msg : String)
  /-- the `*time.ParseError` of `time.Parse(layout, value)` -/
  | parse (layout value : String)
deriving DecidableEq, Repr

/-- A request to the compute API, with the arguments the program passes. -/
inductive Request where
  | instancesList (project zone : String)
  | instancesInsert (project zone : String) (inst : Instance)
  | instancesStop (project zone name : String)
  | instancesDelete (project zone name : String)
  | machineImagesList (project : String)
  | machineImagesInsert (project : String) (image : MachineImage)
  | machineImagesDelete (project name : String)
  | zoneOperationsGet (project zone name : String)
  | globalOperationsGet (project name : String)
deriving DecidableEq, Repr

/-- What a `Do()` call gave back. -/
inductive Response where
  | instances (items : List Instance)
  | machineImages (items : List MachineImage)
  | operation (op : Operation)
  | failure (e : String)
deriving DecidableEq, Repr

/-- One provider call of a run: the request and its answer. -/
structure Event where
  req : Request
  resp : Response
deriving DecidableEq, Repr

/-- What the program writes to standard output: text, or the indented JSON
encoding of an operation pointer (`printToJSON`; `none` is a nil pointer). -/
inductive Output where
  | text (s : String)
  | json (v : Option Operation)
deriving DecidableEq, Repr

/-! ## Go `time`, as far as the program uses it

The standard library is not part of the repository. What follows models the
documented behaviour of `time.FixedZone`, `Time.In`, `Time.Format`,
`Time.String` and `time.Parse` for the layouts the program names. -/

/-- A `*time.Location`: the zone abbreviation and the offset (seconds east of
UTC) in force at a Unix instant. -/
structure Location where
  lookup : Int → String × Int

/-- Go `time.FixedZone(name, offset)`. -/
def FixedZone (name : String) (offset : Int) : Location :=
  ⟨fun _ => (name, offset)⟩

/-- Go `time.UTC`. -/
def UTC : Location := ⟨fun _ => ("UTC", 0)⟩

/-- A `time.Time` without monotonic reading: Unix seconds, nanoseconds within
the second, and the location used for display. -/
structure Time where
  sec : Int
  nsec : Nat
  loc : Location

/-- Go `Time.In(loc)`: same instant, other location. -/
def Time.In (t : Time) (loc : Location) : Time := ⟨t.sec, t.nsec, loc⟩

/-- A calendar date and clock time. -/
structure Civil where
  year : Int
  month : Int
  day : Int
  hour : Int
  minute : Int
  second : Int
deriving DecidableEq, Repr

/-- Days from 1970-01-01 to the given proleptic Gregorian date. -/
def daysFromCivil (y m d : Int) : Int :=
  let y1 := if m ≤ 2 then y - 1 else y
  let era := y1 / 400
  let yoe := y1 - era * 400
  let mp := if m > 2 then m - 3 else m + 9
  let doy := (153 * mp + 2) / 5 + d - 1
  let doe := yoe * 365 + yoe / 4 - yoe / 100 + doy
  era * 146097 + doe - 719468

/-- The proleptic Gregorian date (year, month, day) of a day count from
1970-01-01. -/
def civilFromDays (z : Int) : Int × Int × Int :=
  let z1 := z + 719468
  let era := z1 / 146097
  let doe := z1 - era * 146097
  let yoe := (doe - doe / 1460 + doe / 36524 - doe / 146096) / 365
  let doy := doe - (365 * yoe + yoe / 4 - yoe / 100)
  let mp := (5 * doy + 2) / 153
  let d := doy - (153 * mp + 2) / 5 + 1
  let m := if mp < 10 then mp + 3 else mp - 9
  let y := yoe + era * 400
  (if m ≤ 2 then y + 1 else y, m, d)

/-- Seconds from the Unix epoch to a calendar time read at offset 0. -/
def Civil.unix (c : Civil) : Int :=
  daysFromCivil c.year c.month c.day * 86400 + c.hour * 3600 + c.minute * 60 + c.second

/-- The calendar time of a count of seconds from the Unix epoch, at offset 0. -/
def civilOfUnix (s : Int) : Civil :=
  let days := s / 86400
  let rem := s % 86400
  let ymd := civilFromDays days
  ⟨ymd.1, ymd.2.1, ymd.2.2, rem / 3600, rem % 3600 / 60, rem % 60⟩

/-- The wall clock a `Time` shows in its location. -/
def Time.civil (t : Time) : Civil := civilOfUnix (t.sec + (t.loc.lookup t.sec).2)

/-- The decimal digit character of `n % 10`. -/
def digitChar (n : Nat) : Char := Char.ofNat (48 + n % 10)

/-- The decimal digits of `n`, most significant first, at least one. The
first argument bounds the number of digits. -/
def natDigits : Nat → Nat → List Char → List Char
  | 0, _, acc => acc
  | fuel + 1, n, acc =>
    if n < 10 then digitChar n :: acc else natDigits fuel (n / 10) (digitChar n :: acc)

/-- Go `appendInt(b, x, width)`: decimal, zero-padded to `width` digits, with
a leading minus sign for a negative number. -/
def appendInt (x : Int) (width : Nat) : List Char :=
  let ds := natDigits (x.natAbs + 1) x.natAbs []
  let padded := List.replicate (width - ds.length) '0' ++ ds
  if x < 0 then '-' :: padded else padded

/-- Drop the trailing zeros of a digit list. -/
def trimZeros (ds : List Char) : List Char :=
  (ds.reverse.dropWhile (fun c => c == '0')).reverse

/-- Go `appendNano` for the layout chunk `.999999999`: nothing for a whole
second, else a dot and the nine-digit nanoseconds without trailing zeros. -/
def appendNano (nsec : Nat) : List Char :=
  if nsec = 0 then [] else '.' :: trimZeros (appendInt nsec 9)

/-- Go's rendering of the layout chunk `-0700` for an offset in seconds. -/
def appendNumTZ (offset : Int) : List Char :=
  let zone := Int.tdiv offset 60
  if zone < 0 then
    '-' :: (appendInt (Int.tdiv (-zone) 60) 2 ++ appendInt (Int.tmod (-zone) 60) 2)
  else
    '+' :: (appendInt (Int.tdiv zone 60) 2 ++ appendInt (Int.tmod zone 60) 2)

/-- A layout chunk, where the layout starts with one of those that the
layouts of this program use, and the rest of the layout. -/
def nextChunk : List Char → Option (List Char × List Char)
  | '2' :: '0' :: '0' :: '6' :: r => some (['2', '0', '0', '6'], r)
  | '0' :: '1' :: r => some (['0', '1'], r)
  | '0' :: '2' :: r => some (['0', '2'], r)
  | '1' :: '5' :: r => some (['1', '5'], r)
  | '0' :: '4' :: r => some (['0', '4'], r)
  | '0' :: '5' :: r => some (['0', '5'], r)
  | '.' :: '9' :: '9' :: '9' :: '9' :: '9' :: '9' :: '9' :: '9' :: '9' :: r =>
    some (['.', '9'], r)
  | '-' :: '0' :: '7' :: '0' :: '0' :: r => some (['-', '0', '7'], r)
  | 'M' :: 'S' :: 'T' :: r => some (['M', 'S', 'T'], r)
  | _ => none

/-- The text Go's `Format` writes for a chunk found by `nextChunk`. -/
def formatChunk (c : Civil) (nsec : Nat) (zone : String × Int) (chunk : List Char) :
    List Char :=
  if chunk = ['2', '0', '0', '6'] then appendInt c.year 4
  else if chunk = ['0', '1'] then appendInt c.month 2
  else if chunk = ['0', '2'] then appendInt c.day 2
  else if chunk = ['1', '5'] then appendInt c.hour 2
  else if chunk = ['0', '4'] then appendInt c.minute 2
  else if chunk = ['0', '5'] then appendInt c.second 2
  else if chunk = ['.', '9'] then appendNano nsec
  else if chunk = ['-', '0', '7'] then appendNumTZ zone.2
  else if zone.1 ≠ "" then zone.1.data
  else appendNumTZ zone.2

/-- Go `Time.Format` over a layout: chunks are replaced, every other character
is copied. The first argument bounds the length of the layout. -/
def formatLayout (c : Civil) (nsec : Nat) (zone : String × Int) :
    Nat → List Char → List Char
  | 0, _ => []
  | _ + 1, [] => []
  | fuel + 1, ch :: rest =>
    match nextChunk (ch :: rest) with
    | some (chunk, r) => formatChunk c nsec zone chunk ++ formatLayout c nsec zone fuel r
    | none => ch :: formatLayout c nsec zone fuel rest

/-- Go `Time.Format(layout)`, for layouts made of the chunks `2006`, `01`,
`02`, `15`, `04`, `05`, `.999999999`, `-0700`, `MST` and literal text. -/
def Time.Format (t : Time) (layout : String) : String :=
  ⟨formatLayout t.civil t.nsec (t.loc.lookup t.sec) layout.data.length layout.data⟩

/-- Go `Time.String()` of a time without monotonic clock reading. -/
def Time.String (t : Time) : String :=
  t.Format "2006-01-02 15:04:05.999999999 -0700 MST"

/-- Go `time.RFC3339`. -/
def RFC3339 : String := "2006-01-02T15:04:05Z07:00"

/-- The value of a decimal digit character. -/
def digitVal (c : Char) : Nat := c.toNat - 48

/-- Go `getnum(s, fixed)`: a number of one or two digits, of exactly two when
`fixed`, and the rest of the text. -/
def getnum (s : List Char) (fixed : Bool) : Option (Nat × List Char) :=
  match s with
  | [] => none
  | [a] => if a.isDigit && !fixed then some (digitVal a, []) else none
  | a :: b :: r =>
    if !a.isDigit then none
    else if b.isDigit then some (digitVal a * 10 + digitVal b, r)
    else if fixed then none
    else some (digitVal a, b :: r)

/-- The layout chunk `2006` when parsing: exactly four digits. -/
def getYear : List Char → Option (Nat × List Char)
  | a :: b :: c :: d :: r =>
    if a.isDigit && b.isDigit && c.isDigit && d.isDigit then
      some (((digitVal a * 10 + digitVal b) * 10 + digitVal c) * 10 + digitVal d, r)
    else none
  | _ => none

/-- A literal character of the layout. -/
def expectChar (c : Char) : List Char → Option (List Char)
  | a :: r => if a = c then some r else none
  | [] => none

/-- The number a digit list denotes. -/
def digitsVal (ds : List Char) : Nat := ds.foldl (fun n c => n * 10 + digitVal c) 0

/-- Go's handling of a fractional second that the layout does not name: after
the seconds, a period or comma followed by digits is read as nanoseconds (the
first nine digits count), anything else is left in place. -/
def getFraction (value : List Char) : Nat × List Char :=
  match value with
  | sep :: d :: r =>
    if (sep = '.' || sep = ',') && d.isDigit then
      let ds := (d :: r).takeWhile Char.isDigit
      let used := ds.take 9
      (digitsVal used * 10 ^ (9 - used.length), (d :: r).dropWhile Char.isDigit)
    else (0, value)
  | _ => (0, value)

/-- The layout chunk `Z07:00` when parsing: `Z`, or a sign, two digits, a
colon and two digits, with the hours at most 24 and the minutes at most 60.
Gives the offset in seconds east of UTC. -/
def getZone : List Char → Option (Int × List Char)
  | 'Z' :: r => some (0, r)
  | sign :: h1 :: h2 :: c :: m1 :: m2 :: r =>
    if c ≠ ':' then none
    else
      match getnum [h1, h2] true, getnum [m1, m2] true with
      | some (hr, _), some (mm, _) =>
        if hr > 24 || mm > 60 then none
        else if sign = '+' then some (((hr * 60 + mm) * 60 : Nat), r)
        else if sign = '-' then some (-(((hr * 60 + mm) * 60 : Nat) : Int), r)
        else none
      | _, _ => none
  | _ => none

/-- Go `isLeap`. -/
def isLeap (year : Nat) : Bool := year % 4 = 0 && (year % 100 ≠ 0 || year % 400 = 0)

/-- Go `daysIn(month, year)`. -/
def daysIn (month year : Nat) : Nat :=
  if month = 2 then (if isLeap year then 29 else 28)
  else if month = 4 || month = 6 || month = 9 || month = 11 then 30
  else 31

/-- A number read by `getnum` after a literal character of the layout. -/
def getField (lit : Char) (fixed : Bool) (v : List Char) : Option (Nat × List Char) :=
  (expectChar lit v).bind fun v1 => getnum v1 fixed

/-- The part `2006-01-02` of the layout: year, month (1 to 12) and day (two
digits, checked against the month at the end). -/
def scanDate (value : List Char) : Option ((Nat × Nat × Nat) × List Char) :=
  (getYear value).bind fun yv =>
  (getField '-' true yv.2).bind fun mv =>
  if mv.1 = 0 || 12 < mv.1 then none
  else (getField '-' true mv.2).bind fun dv =>
  some ((yv.1, mv.1, dv.1), dv.2)

/-- The part `T15:04:05` of the layout: hour (one or two digits, below 24),
minute and second (two digits, below 60). -/
def scanClock (value : List Char) : Option ((Nat × Nat × Nat) × List Char) :=
  (getField 'T' false value).bind fun hv =>
  if 24 ≤ hv.1 then none
  else (getField ':' true hv.2).bind fun mv =>
  if 60 ≤ mv.1 then none
  else (getField ':' true mv.2).bind fun sv =>
  if 60 ≤ sv.1 then none
  else some ((hv.1, mv.1, sv.1), sv.2)

/-- What `time.Parse(time.RFC3339, value)` reads from the text: the calendar
fields, the nanoseconds and the zone offset; `none` where Go gives a
`*time.ParseError`. -/
def scanRFC3339 (value : List Char) : Option (Civil × Nat × Int) :=
  (scanDate value).bind fun dv =>
  (scanClock dv.2).bind fun cv =>
  (getZone (getFraction cv.2).2).bind fun zv =>
  if zv.2 ≠ [] then none
  else if dv.1.2.2 < 1 || dv.1.2.2 > daysIn dv.1.2.1 dv.1.1 then none
  else some (⟨dv.1.1, dv.1.2.1, dv.1.2.2, cv.1.1, cv.1.2.1, cv.1.2.2⟩,
    (getFraction cv.2).1, zv.1)

/-- Go `time.Parse(time.RFC3339, value)`. In Go the location of the result is
`UTC` for `Z`, else `Local` or a fixed zone of the offset read; here it is
the fixed zone of the offset. The program replaces it by `jst` before use. -/
def parseRFC3339 (value : String) : Except Err Time :=
  match scanRFC3339 value.data with
  | some (c, nsec, offset) => .ok ⟨c.unix - offset, nsec, FixedZone "" offset⟩
  | none => .error (.parse RFC3339 value)

/-- Go `%d` of an integer. -/
def formatInt (x : Int) : String := ⟨appendInt x 1⟩

/-! ## The environment and runs -/

/-- The compute service, as the calls the program makes with their arguments,
and the host: its clock, its local zone and the passing of time in `Sleep`.
Every call may change the state of the world `σ`. -/
structure Env (σ : Type) where
  instancesList : String → String → σ → Except String (List Instance) × σ
  instancesInsert : String → String → Instance → σ → Except String Operation × σ
  instancesStop : String → String → String → σ → Except String Operation × σ
  instancesDelete : String → String → String → σ → Except String Operation × σ
  machineImagesList : String → σ → Except String (List MachineImage) × σ
  machineImagesInsert : String → MachineImage → σ → Except String Operation × σ
  machineImagesDelete : String → String → σ → Except String Operation × σ
  zoneOperationsGet : String → String → String → σ → Except String Operation × σ
  globalOperationsGet : String → String → σ → Except String Operation × σ
  now : σ → (Int × Nat) × σ
  localZone : Location
  sleep : Nat → σ → σ

/-- How a workflow ended: it returned `nil` (`ok`), it returned an error, or
a polling loop was still waiting when its budget of polls was used up. -/
inductive Outcome (α : Type) where
  | ok (a : α)
  | error (e : Err)
  | running
deriving DecidableEq, Repr

/-- A run from a start state: result, final state, the provider calls in the
order issued, and the output in the order written. -/
structure Run (σ α : Type) where
  res : Outcome α
  st : σ
  trace : List Event
  out : List Output

/-- A piece of program: a run from every start state. -/
def Prog (σ α : Type) : Type := σ → Run σ α

/-- Sequencing: the second piece runs from where the first returned a
value; an error or an exhausted budget ends the run. -/
def Prog.bind {σ α β : Type} (m : Prog σ α) (f : α → Prog σ β) : Prog σ β := fun s =>
  match (m s).res with
  | .ok a =>
    ⟨(f a (m s).st).res, (f a (m s).st).st, (m s).trace ++ (f a (m s).st).trace,
      (m s).out ++ (f a (m s).st).out⟩
  | .error e => ⟨.error e, (m s).st, (m s).trace, (m s).out⟩
  | .running => ⟨.running, (m s).st, (m s).trace, (m s).out⟩

instance {σ : Type} : Monad (Prog σ) where
  pure a := fun s => ⟨.ok a, s, [], []⟩
  bind := Prog.bind

/-- Go `return err`. -/
def fail {σ α : Type} (e : Err) : Prog σ α := fun s => ⟨.error e, s, [], []⟩

/-- The budget of polls is used up. -/
def stillRunning {σ α : Type} : Prog σ α := fun s => ⟨.running, s, [], []⟩

/-- Writing to standard output. -/
def emit {σ : Type} (o : Output) : Prog σ Unit := fun s => ⟨.ok (), s, [], [o]⟩

/-- Go `fmt.Println(line)`. -/
def Println {σ : Type} (line : String) : Prog σ Unit := emit (.text (line ++ "\n"))

/-- Go `printToJSON(v)` for an operation pointer. -/
def printToJSON {σ : Type} (v : Option Operation) : Prog σ Unit := emit (.json v)

/-- The answer of a call as recorded in the trace. -/
def toResponse {α : Type} (wrap : α → Response) : Except String α → Response
  | .ok a => wrap a
  | .error e => .failure e

/-- One `Do()` call: the pair of value and error that Go gets, recorded in
the trace. -/
def perform {σ α : Type} (req : Request) (wrap : α → Response)
    (f : σ → Except String α × σ) : Prog σ (Except String α) := fun s =>
  ⟨.ok (f s).1, (f s).2, [⟨req, toResponse wrap (f s).1⟩], []⟩

/-- Go `if err != nil { return err }` after a call. -/
def orReturn {σ α : Type} : Except String α → Prog σ α
  | .ok a => pure a
  | .error e => fail (.api e)

/-- Go `time.Now()`: the host clock, shown in the local zone. -/
def Now {σ : Type} (env : Env σ) : Prog σ Time := fun s =>
  ⟨.ok ⟨(env.now s).1.1, (env.now s).1.2, env.localZone⟩, (env.now s).2, [], []⟩

/-- Go `time.Sleep(n * time.Second)`. -/
def Sleep {σ : Type} (env : Env σ) (n : Nat) : Prog σ Unit := fun s =>
  ⟨.ok (), env.sleep n s, [], []⟩

/-! ## The program -/

/-- The package variables `projectID`, `region`, `zone`. -/
structure Globals where
  projectID : String
  region : String
  zone : String
deriving DecidableEq, Repr

/-- The package variables as initialised in the source. -/
def initialGlobals : Globals := ⟨"", "asia-northeast1", "asia-northeast1-a"⟩

/-- The string flags of the command line, as `c.String(name)` gives them;
a flag that is not set is the empty string. -/
structure Context where
  projectID : String
  region : String
  zone : String
deriving DecidableEq, Repr

/-- The package variable `jst`. -/
def jst : Location := FixedZone "Asia/Tokyo" (9 * 60 * 60)

/-- Go `setGCPConfig(c)`, acting on the package variables. -/
def setGCPConfig (c : Context) (g : Globals) : Globals :=
  let g1 : Globals := ⟨c.projectID, g.region, g.zone⟩
  let g2 : Globals := if c.region ≠ "" then ⟨g1.projectID, c.region, g1.zone⟩ else g1
  if c.zone ≠ "" then ⟨g2.projectID, c.zone, g2.zone⟩ else g2

/-- The `for` loop of `listInstances`. -/
def printInstances {σ : Type} : List Instance → Prog σ Unit
  | [] => pure ()
  | inst :: rest =>
    match parseRFC3339 inst.LastStartTimestamp with
    | .error e => fail e
    | .ok parsed => do
      emit (.text ("Name: " ++ inst.Name ++ ", LastStart: " ++ (parsed.In jst).String ++ "\n"))
      printInstances rest

/-- Go `listInstances(service)`. -/
def listInstances {σ : Type} (env : Env σ) (g : Globals) : Prog σ Unit := do
  let list ← orReturn (← perform (.instancesList g.projectID g.zone) .instances
    (env.instancesList g.projectID g.zone))
  if list.length = 0 then
    Println "起動しているインスタンスはありません"
  else
    printInstances list

/-- Go `waitZoneOperation(service, ops)`, with a budget of polls. -/
def waitZoneOperation {σ : Type} (env : Env σ) (g : Globals) (ops : Operation) :
    Nat → Prog σ Unit
  | 0 => stillRunning
  | fuel + 1 => do
    Sleep env 5
    let ops1 ← orReturn (← perform (.zoneOperationsGet g.projectID g.zone ops.Name) .operation
      (env.zoneOperationsGet g.projectID g.zone ops.Name))
    emit (.text ("Status: " ++ ops1.Status ++ ", Progress: " ++ formatInt ops1.Progress ++ "\n"))
    if ops1.Status = "DONE" then pure () else waitZoneOperation env g ops fuel

/-- Go `waitGlobalOperation(service, ops)`, with a budget of polls. -/
def waitGlobalOperation {σ : Type} (env : Env σ) (g : Globals) (ops : Operation) :
    Nat → Prog σ Unit
  | 0 => stillRunning
  | fuel + 1 => do
    Sleep env 5
    let ops1 ← orReturn (← perform (.globalOperationsGet g.projectID ops.Name) .operation
      (env.globalOperationsGet g.projectID ops.Name))
    emit (.text ("Status: " ++ ops1.Status ++ ", Progress: " ++ formatInt ops1.Progress ++ "\n"))
    if ops1.Status = "DONE" then pure () else waitGlobalOperation env g ops fuel

/-- Go `createInstanceFromMachineImage(service)`. -/
def createInstanceFromMachineImage {σ : Type} (env : Env σ) (g : Globals) (fuel : Nat) :
    Prog σ Unit := do
  let instanceList ← orReturn (← perform (.instancesList g.projectID g.zone) .instances
    (env.instancesList g.projectID g.zone))
  if instanceList.length ≠ 0 then
    Println "すでに起動中です"
    listInstances env g
  else
    let imageList ← orReturn (← perform (.machineImagesList g.projectID) .machineImages
      (env.machineImagesList g.projectID))
    if h0 : imageList.length = 0 then
      fail (.new "マシンイメージが存在しないのでインスタンスを作成できません")
    else if imageList.length ≠ 1 then
      fail (.new "マシンイメージが複数存在するので、使用するマシンイメージを特定できません")
    else
      let machineImage := imageList.get ⟨0, Nat.pos_of_ne_zero h0⟩
      let t ← Now env
      let inst : Instance := ⟨"instance-" ++ t.Format "2006-01-02-15-04-05", "",
        "global/machineImages/" ++ machineImage.Name⟩
      let ops ← orReturn (← perform (.instancesInsert g.projectID g.zone inst) .operation
        (env.instancesInsert g.projectID g.zone inst))
      printToJSON (some ops)
      waitZoneOperation env g ops fuel

/-- The `for` loop of `createMachineImageAndRemoveOtherMachineImage`. -/
def removeOtherMachineImages {σ : Type} (env : Env σ) (g : Globals) (creatingName : String) :
    List MachineImage → Prog σ Unit
  | [] => pure ()
  | image :: rest =>
    if image.Name ≠ creatingName then do
      let r ← perform (.machineImagesDelete g.projectID image.Name) .operation
        (env.machineImagesDelete g.projectID image.Name)
      printToJSON r.toOption
      let _ ← orReturn r
      removeOtherMachineImages env g creatingName rest
    else
      removeOtherMachineImages env g creatingName rest

/-- Go `createMachineImageAndRemoveOtherMachineImage(service, instance)`. -/
def createMachineImageAndRemoveOtherMachineImage {σ : Type} (env : Env σ) (g : Globals)
    (fuel : Nat) (inst : Instance) : Prog σ Unit := do
  let now := (← Now env).In jst
  let t ← Now env
  let creatingImage : MachineImage :=
    ⟨"backup-" ++ t.Format "2006-01-02-15-04-05",
     now.Format "2006-01-02 15:04:05" ++ "に作成したイメージです",
     false,
     "projects/" ++ g.projectID ++ "/zones/" ++ g.zone ++ "/instances/" ++ inst.Name,
     [g.region]⟩
  let ops ← orReturn (← perform (.machineImagesInsert g.projectID creatingImage) .operation
    (env.machineImagesInsert g.projectID creatingImage))
  printToJSON (some ops)
  waitGlobalOperation env g ops fuel
  Println "マシンイメージの作成が完了しました。"
  let list ← orReturn (← perform (.machineImagesList g.projectID) .machineImages
    (env.machineImagesList g.projectID))
  removeOtherMachineImages env g creatingImage.Name list
  Println "今回作成した以外のマシンイメージを削除しました"

/-- Go `createMachineImageAndRemoveInstance(service)`. -/
def createMachineImageAndRemoveInstance {σ : Type} (env : Env σ) (g : Globals) (fuel : Nat) :
    Prog σ Unit := do
  let list ← orReturn (← perform (.instancesList g.projectID g.zone) .instances
    (env.instancesList g.projectID g.zone))
  if h0 : list.length = 0 then
    fail (.new "起動しているインスタンスはありません")
  else if list.length ≠ 1 then
    fail (.new "複数台のインスタンスが起動しています。複数台インスタンスの操作は対応していません。コンソールから削除してください")
  else
    let inst := list.get ⟨0, Nat.pos_of_ne_zero h0⟩
    let ops ← orReturn (← perform (.instancesStop g.projectID g.zone inst.Name) .operation
      (env.instancesStop g.projectID g.zone inst.Name))
    printToJSON (some ops)
    waitZoneOperation env g ops fuel
    emit (.text ("インスタンス " ++ inst.Name ++ " を停止しました。\n"))
    createMachineImageAndRemoveOtherMachineImage env g fuel inst
    let ops ← orReturn (← perform (.instancesDelete g.projectID g.zone inst.Name) .operation
      (env.instancesDelete g.projectID g.zone inst.Name))
    printToJSON (some ops)
    waitZoneOperation env g ops fuel
    emit (.text ("インスタンス " ++ inst.Name ++ " の削除が完了しました。\n"))

/-- The `Action` of the command `list`. -/
def actionList {σ : Type} (env : Env σ) (c : Context) : Prog σ Unit :=
  listInstances env (setGCPConfig c initialGlobals)

/-- The `Action` of the command `create`. -/
def actionCreate {σ : Type} (env : Env σ) (c : Context) (fuel : Nat) : Prog σ Unit :=
  createInstanceFromMachineImage env (setGCPConfig c initialGlobals) fuel

/-- The `Action` of the command `remove`. -/
def actionRemove {σ : Type} (env : Env σ) (c : Context) (fuel : Nat) : Prog σ Unit :=
  createMachineImageAndRemoveInstance env (setGCPConfig c initialGlobals) fuel

/-! ## A small provider to run the workflows against

The compute service is outside the program. `cloudEnv` is one deterministic
provider: an accepted insert or delete takes effect at once, a mutating call
starts an operation that reports `RUNNING` for `latency` status lookups and
`DONE` from then on, and once `quota` calls have been answered every further
call fails. -/

/-- The state of the simulated project. -/
structure Cloud where
  instances : List Instance
  images : List MachineImage
  clock : Int
  issued : Nat
  waiting : Nat
  quota : Nat
deriving DecidableEq, Repr

/-- Answer a call of the simulated provider: fail when the quota is used up,
else count the call and apply its effect. -/
def Cloud.answer {α : Type} (c : Cloud) (f : Cloud → α × Cloud) : Except String α × Cloud :=
  if c.quota = 0 then (.error "quota exceeded", c)
  else
    let c1 : Cloud := ⟨c.instances, c.images, c.clock, c.issued, c.waiting, c.quota - 1⟩
    (.ok (f c1).1, (f c1).2)

/-- Start an operation of the simulated provider on the state `c`. -/
def Cloud.start (latency : Nat) (c : Cloud) : Operation × Cloud :=
  (⟨"operation-" ++ formatInt c.issued, "RUNNING", 0, none⟩,
   ⟨c.instances, c.images, c.clock, c.issued + 1, latency, c.quota⟩)

/-- A status lookup of the simulated provider. -/
def Cloud.status (name : String) (c : Cloud) : Operation × Cloud :=
  if c.waiting = 0 then (⟨name, "DONE", 100, none⟩, c)
  else (⟨name, "RUNNING", 50, none⟩,
    ⟨c.instances, c.images, c.clock, c.issued, c.waiting - 1, c.quota⟩)

/-- The simulated provider and host. -/
def cloudEnv (latency : Nat) : Env Cloud where
  instancesList := fun _ _ c => c.answer fun c1 => (c1.instances, c1)
  instancesInsert := fun _ _ inst c => c.answer fun c1 =>
    Cloud.start latency ⟨c1.instances ++
      [⟨inst.Name, (Time.mk c1.clock 0 UTC).Format "2006-01-02T15:04:05Z", inst.SourceMachineImage⟩],
      c1.images, c1.clock, c1.issued, c1.waiting, c1.quota⟩
  instancesStop := fun _ _ _ c => c.answer fun c1 => Cloud.start latency c1
  instancesDelete := fun _ _ name c => c.answer fun c1 =>
    Cloud.start latency ⟨c1.instances.filter (fun i => i.Name ≠ name),
      c1.images, c1.clock, c1.issued, c1.waiting, c1.quota⟩
  machineImagesList := fun _ c => c.answer fun c1 => (c1.images, c1)
  machineImagesInsert := fun _ image c => c.answer fun c1 =>
    Cloud.start latency ⟨c1.instances, c1.images ++ [image], c1.clock, c1.issued, c1.waiting,
      c1.quota⟩
  machineImagesDelete := fun _ name c => c.answer fun c1 =>
    Cloud.start latency ⟨c1.instances, c1.images.filter (fun i => i.Name ≠ name),
      c1.clock, c1.issued, c1.waiting, c1.quota⟩
  zoneOperationsGet := fun _ _ name c => c.answer fun c1 => Cloud.status name c1
  globalOperationsGet := fun _ name c => c.answer fun c1 => Cloud.status name c1
  now := fun c => ((c.clock, 0), c)
  localZone := UTC
  sleep := fun n c => ⟨c.instances, c.images, c.clock + n, c.issued, c.waiting, c.quota⟩

/-- A provider whose status lookups read their answers off a script, the
state: each lookup gives the next answer of the script. Every other call
fails. -/
def scriptEnv : Env (List (Except String Operation)) where
  instancesList := fun _ _ s => (.error "not scripted", s)
  instancesInsert := fun _ _ _ s => (.error "not scripted", s)
  instancesStop := fun _ _ _ s => (.error "not scripted", s)
  instancesDelete := fun _ _ _ s => (.error "not scripted", s)
  machineImagesList := fun _ s => (.error "not scripted", s)
  machineImagesInsert := fun _ _ s => (.error "not scripted", s)
  machineImagesDelete := fun _ _ s => (.error "not scripted", s)
  zoneOperationsGet := fun _ _ _ s => (s.headD (.error "end of script"), s.tail)
  globalOperationsGet := fun _ _ s => (s.headD (.error "end of script"), s.tail)
  now := fun s => ((0, 0), s)
  localZone := UTC
  sleep := fun _ s => s

/-- A machine image of the simulated project, by name. -/
def plainImage (name : String) : MachineImage := ⟨name, "", false, "", []⟩

/-- The project of the scenarios: instances, images, the clock at
2024-01-01T00:00:00Z, and a quota of calls. -/
def scenario (instances : List Instance) (images : List String) (quota : Nat) : Cloud :=
  ⟨instances, images.map plainImage, 1704067200, 0, 0, quota⟩

/-- The package variables of the scenarios. -/
def demoGlobals : Globals := ⟨"demo", "asia-northeast1", "asia-northeast1-a"⟩

/-- The instance of the scenarios. -/
def demoInstance : Instance := ⟨"instance-1", "2024-01-01T00:00:00Z", "global/machineImages/a"⟩

/-! ## Vocabulary for statements about runs -/

/-- The requests that change the project: every insert, stop and delete. -/
def Request.isMutating : Request → Bool
  | .instancesInsert _ _ _ => true
  | .instancesStop _ _ _ => true
  | .instancesDelete _ _ _ => true
  | .machineImagesInsert _ _ => true
  | .machineImagesDelete _ _ => true
  | _ => false

/-- The call failed: `Do()` returned an error. -/
def Response.isFailure : Response → Bool
  | .failure _ => true
  | _ => false

/-- The name of the image a request asks to delete. -/
def Request.imageDeleted? : Request → Option String
  | .machineImagesDelete _ name => some name
  | _ => none

/-- The names of the images a trace asks to delete, in the order asked. -/
def imageDeletes (t : List Event) : List String := t.filterMap fun e => e.req.imageDeleted?

/-- Status lookups of `q` that were answered with the given operations. -/
def polls (q : Request) (ops : List Operation) : List Event :=
  ops.map fun o => ⟨q, .operation o⟩

/-- The trace and result of a polling loop on the lookup `q`: lookups
answered with a status other than DONE, ended by a lookup answered DONE
(success), by a failed lookup (its error), or by the end of the budget. -/
inductive WaitShape (q : Request) : Outcome Unit → List Event → Prop where
  | done (ops : List Operation) (last : Operation) (hp : ∀ o ∈ ops, o.Status ≠ "DONE")
      (hl : last.Status = "DONE") :
      WaitShape q (.ok ()) (polls q ops ++ [⟨q, .operation last⟩])
  | failed (ops : List Operation) (e : String) (hp : ∀ o ∈ ops, o.Status ≠ "DONE") :
      WaitShape q (.error (.api e)) (polls q ops ++ [⟨q, .failure e⟩])
  | running (ops : List Operation) (hp : ∀ o ∈ ops, o.Status ≠ "DONE") :
      WaitShape q .running (polls q ops)

/-- The trace and result of the cleanup loop over a list of images, keeping
the image named `keep`: one accepted delete per other image, in list order,
up to the end of the list or to the first delete that fails. -/
inductive CleanupShape (project keep : String) :
    List MachineImage → Outcome Unit → List Event → Prop where
  | nil : CleanupShape project keep [] (.ok ()) []
  | kept (image : MachineImage) (rest : List MachineImage) (res : Outcome Unit)
      (t : List Event) (hk : image.Name = keep) (hr : CleanupShape project keep rest res t) :
      CleanupShape project keep (image :: rest) res t
  | deleted (image : MachineImage) (rest : List MachineImage) (op : Operation)
      (res : Outcome Unit) (t : List Event) (hk : image.Name ≠ keep)
      (hr : CleanupShape project keep rest res t) :
      CleanupShape project keep (image :: rest) res
        (⟨.machineImagesDelete project image.Name, .operation op⟩ :: t)
  | failed (image : MachineImage) (rest : List MachineImage) (e : String)
      (hk : image.Name ≠ keep) :
      CleanupShape project keep (image :: rest) (.error (.api e))
        [⟨.machineImagesDelete project image.Name, .failure e⟩]

/-- The answers a status lookup `get` gives to the first `n` polls of a
polling loop started in state `s`: each poll sleeps five seconds and then
asks. -/
def pollResponses {σ : Type} (env : Env σ) (get : σ → Except String Operation × σ) :
    Nat → σ → List (Except String Operation)
  | 0, _ => []
  | n + 1, s =>
    (get (env.sleep 5 s)).1 :: pollResponses env get n (get (env.sleep 5 s)).2

/-- An answer that ends polling: a query error, or a status equal to DONE. -/
def isTerminal : Except String Operation → Bool
  | .error _ => true
  | .ok op => op.Status = "DONE"

/-- The index of the first answer that ends polling. -/
def firstTerminal : List (Except String Operation) → Option Nat
  | [] => none
  | r :: rest => if isTerminal r then some 0 else (firstTerminal rest).map (· + 1)

/-- The reference poller of the specification, over the answers to come:
ask, stop with the error when the query fails, stop with success when the
status is DONE, else ask again. Gives the result and the queries made. -/
def referencePoller (q : Request) : List (Except String Operation) → Outcome Unit × List Event
  | [] => (.running, [])
  | .error e :: _ => (.error (.api e), [⟨q, .failure e⟩])
  | .ok op :: rest =>
    if op.Status = "DONE" then (.ok (), [⟨q, .operation op⟩])
    else ((referencePoller q rest).1, ⟨q, .operation op⟩ :: (referencePoller q rest).2)

/-- The trace and result of `createMachineImageAndRemoveOtherMachineImage`:
the image insert, the polling of its global operation, the image list, the
cleanup deletes; the run ends at the first step that does not succeed. -/
inductive SnapshotShape (g : Globals) : Outcome Unit → List Event → Prop where
  | insertFailed (img : MachineImage) (e : String) :
      SnapshotShape g (.error (.api e)) [⟨.machineImagesInsert g.projectID img, .failure e⟩]
  | waiting (img : MachineImage) (op : Operation) (res : Outcome Unit) (t : List Event)
      (hw : WaitShape (.globalOperationsGet g.projectID op.Name) res t) (hres : res ≠ .ok ()) :
      SnapshotShape g res (⟨.machineImagesInsert g.projectID img, .operation op⟩ :: t)
  | listFailed (img : MachineImage) (op : Operation) (t : List Event) (e : String)
      (hw : WaitShape (.globalOperationsGet g.projectID op.Name) (.ok ()) t) :
      SnapshotShape g (.error (.api e))
        (⟨.machineImagesInsert g.projectID img, .operation op⟩ :: t ++
          [⟨.machineImagesList g.projectID, .failure e⟩])
  | cleaned (img : MachineImage) (op : Operation) (t : List Event) (images : List MachineImage)
      (res : Outcome Unit) (t2 : List Event)
      (hw : WaitShape (.globalOperationsGet g.projectID op.Name) (.ok ()) t)
      (hc : CleanupShape g.projectID img.Name images res t2) :
      SnapshotShape g res
        (⟨.machineImagesInsert g.projectID img, .operation op⟩ :: t ++
          ⟨.machineImagesList g.projectID, .machineImages images⟩ :: t2)

/-- The trace and result of `createMachineImageAndRemoveInstance`: the
instance list, the stop and its polling, the snapshot steps, the instance
delete and its polling; the run ends at the first step that does not
succeed. -/
inductive RemoveShape (g : Globals) : Outcome Unit → List Event → Prop where
  | listFailed (e : String) :
      RemoveShape g (.error (.api e)) [⟨.instancesList g.projectID g.zone, .failure e⟩]
  | refused (items : List Instance) (msg : String) (hn : items.length ≠ 1) :
      RemoveShape g (.error (.new msg)) [⟨.instancesList g.projectID g.zone, .instances items⟩]
  | stopFailed (inst : Instance) (e : String) :
      RemoveShape g (.error (.api e))
        [⟨.instancesList g.projectID g.zone, .instances [inst]⟩,
         ⟨.instancesStop g.projectID g.zone inst.Name, .failure e⟩]
  | stopping (inst : Instance) (op : Operation) (res : Outcome Unit) (t : List Event)
      (hw : WaitShape (.zoneOperationsGet g.projectID g.zone op.Name) res t)
      (hres : res ≠ .ok ()) :
      RemoveShape g res
        (⟨.instancesList g.projectID g.zone, .instances [inst]⟩ ::
         ⟨.instancesStop g.projectID g.zone inst.Name, .operation op⟩ :: t)
  | snapshotting (inst : Instance) (op : Operation) (t : List Event) (res : Outcome Unit)
      (t2 : List Event)
      (hw : WaitShape (.zoneOperationsGet g.projectID g.zone op.Name) (.ok ()) t)
      (hs : SnapshotShape g res t2) (hres : res ≠ .ok ()) :
      RemoveShape g res
        (⟨.instancesList g.projectID g.zone, .instances [inst]⟩ ::
         ⟨.instancesStop g.projectID g.zone inst.Name, .operation op⟩ :: t ++ t2)
  | deleteFailed (inst : Instance) (op : Operation) (t t2 : List Event) (e : String)
      (hw : WaitShape (.zoneOperationsGet g.projectID g.zone op.Name) (.ok ()) t)
      (hs : SnapshotShape g (.ok ()) t2) :
      RemoveShape g (.error (.api e))
        (⟨.instancesList g.projectID g.zone, .instances [inst]⟩ ::
         ⟨.instancesStop g.projectID g.zone inst.Name, .operation op⟩ :: t ++ t2 ++
         [⟨.instancesDelete g.projectID g.zone inst.Name, .failure e⟩])
  | deleting (inst : Instance) (op : Operation) (t t2 : List Event) (op2 : Operation)
      (res : Outcome Unit) (t3 : List Event)
      (hw : WaitShape (.zoneOperationsGet g.projectID g.zone op.Name) (.ok ()) t)
      (hs : SnapshotShape g (.ok ()) t2)
      (hw3 : WaitShape (.zoneOperationsGet g.projectID g.zone op2.Name) res t3) :
      RemoveShape g res
        (⟨.instancesList g.projectID g.zone, .instances [inst]⟩ ::
         ⟨.instancesStop g.projectID g.zone inst.Name, .operation op⟩ :: t ++ t2 ++
         ⟨.instancesDelete g.projectID g.zone inst.Name, .operation op2⟩ :: t3)

/-- The lookup with which the source polls the operation `name` returned by a
request: the zonal lookup after an instance insert, stop or delete, the
global lookup after a machine-image insert. A machine-image delete is not
polled. -/
def Request.polledWith (name : String) : Request → Option Request
  | .instancesInsert p z _ => some (.zoneOperationsGet p z name)
  | .instancesStop p z _ => some (.zoneOperationsGet p z name)
  | .instancesDelete p z _ => some (.zoneOperationsGet p z name)
  | .machineImagesInsert p _ => some (.globalOperationsGet p name)
  | _ => none

/-- The status lookup of the operation `name` returned by a mutating request,
for every mutating request: as `polledWith`, and the global lookup after a
machine-image delete. -/
def Request.operationLookup (name : String) : Request → Option Request
  | .machineImagesDelete p _ => some (.globalOperationsGet p name)
  | r => r.polledWith name

/-- The status lookup of the operation an event returned, under `lookup`. -/
def Event.awaited (lookup : String → Request → Option Request) (e : Event) : Option Request :=
  match e.resp with
  | .operation op => lookup op.Name e.req
  | _ => none

/-- The event is an answer with status DONE. -/
def Event.isDone (e : Event) : Bool :=
  match e.resp with
  | .operation op => op.Status = "DONE"
  | _ => false

/-- After every event of the trace that returned an operation with a status
lookup under `lookup`, no mutating request follows before that lookup has
been answered DONE. -/
def WaitsBeforeMutating (lookup : String → Request → Option Request) (t : List Event) : Prop :=
  ∀ (pre : List Event) (e : Event) (post : List Event) (q : Request),
    t = pre ++ e :: post → e.awaited lookup = some q →
    ∀ (mid : List Event) (e2 : Event) (rest : List Event),
      post = mid ++ e2 :: rest → e2.req.isMutating = true →
      ∃ d ∈ mid, d.req = q ∧ d.isDone = true

/-- The lookup a run is in the middle of polling, after one more event. -/
def nextPending (p : Option Request) (e : Event) : Option Request :=
  match p with
  | some q => if e.req = q ∧ e.isDone = true then none else some q
  | none => e.awaited Request.polledWith

/-- The lookup a run is in the middle of polling, after a trace. -/
def pendingAfter (p : Option Request) (t : List Event) : Option Request :=
  t.foldl nextPending p

/-- No event of the trace is a mutating request issued in the middle of
polling. -/
def Orderly : Option Request → List Event → Prop
  | _, [] => True
  | p, e :: t => (p ≠ none → e.req.isMutating = false) ∧ Orderly (nextPending p e) t

/-- A failed call is the last call of the run and its error is the result. -/
def FailsLast (r : Outcome Unit) (t : List Event) : Prop :=
  ∀ (pre : List Event) (e : Event) (post : List Event) (err : String),
    t = pre ++ e :: post → e.resp = .failure err → post = [] ∧ r = .error (.api err)

/-- No call of the trace failed, or only the last one failed and its error is
the result. -/
def Tidy (r : Outcome Unit) (t : List Event) : Prop :=
  (∀ e ∈ t, e.resp.isFailure = false) ∨
  ∃ (good : List Event) (q : Request) (err : String),
    t = good ++ [⟨q, .failure err⟩] ∧ (∀ e ∈ good, e.resp.isFailure = false) ∧
    r = .error (.api err)

/-! ## RFC 3339 timestamps -/

/-- The fields of an RFC 3339 `date-time` (section 5.6),
`full-date "T" partial-time time-offset`: the digits of `time-secfrac` (none
when it is absent) and the offset, `none` for `Z`, else whether the sign is
`-`, the hours and the minutes. -/
structure Timestamp where
  year : Nat
  month : Nat
  day : Nat
  hour : Nat
  minute : Nat
  second : Nat
  secfrac : List Nat
  offset : Option (Bool × Nat × Nat)
deriving DecidableEq, Repr

/-- The ranges RFC 3339 gives the fields, with the seconds below 60 (no leap
second). -/
def Timestamp.valid (ts : Timestamp) : Prop :=
  ts.year ≤ 9999 ∧ 1 ≤ ts.month ∧ ts.month ≤ 12 ∧
  1 ≤ ts.day ∧ ts.day ≤ daysIn ts.month ts.year ∧
  ts.hour ≤ 23 ∧ ts.minute ≤ 59 ∧ ts.second ≤ 59 ∧
  (∀ d ∈ ts.secfrac, d ≤ 9) ∧
  (∀ o ∈ ts.offset, o.2.1 ≤ 23 ∧ o.2.2 ≤ 59)

/-- Two decimal digits. -/
def twoDigits (n : Nat) : List Char := [digitChar (n / 10), digitChar n]

/-- The text of `time-offset`. -/
def renderOffset : Option (Bool × Nat × Nat) → List Char
  | none => ['Z']
  | some (neg, hh, mm) => (if neg then '-' else '+') :: (twoDigits hh ++ ':' :: twoDigits mm)

/-- The text of `time-secfrac`, empty when there are no digits. -/
def renderSecfrac : List Nat → List Char
  | [] => []
  | d :: ds => '.' :: (d :: ds).map digitChar

/-- The text of the timestamp, with upper-case `T` and `Z`. -/
def Timestamp.render (ts : Timestamp) : String :=
  ⟨digitChar (ts.year / 1000) :: digitChar (ts.year / 100) :: digitChar (ts.year / 10) ::
    digitChar ts.year :: '-' :: (twoDigits ts.month ++ '-' :: (twoDigits ts.day ++ 'T' ::
    (twoDigits ts.hour ++ ':' :: (twoDigits ts.minute ++ ':' :: (twoDigits ts.second ++
    (renderSecfrac ts.secfrac ++ renderOffset ts.offset))))))⟩

/-- The seconds east of UTC of a `time-offset`. -/
def secondsEast : Option (Bool × Nat × Nat) → Int
  | none => 0
  | some (neg, hh, mm) =>
    if neg then -(((hh * 60 + mm) * 60 : Nat) : Int) else (((hh * 60 + mm) * 60 : Nat) : Int)

/-- The offset of the timestamp in seconds east of UTC. -/
def Timestamp.offsetSeconds (ts : Timestamp) : Int := secondsEast ts.offset

/-- The calendar time the timestamp names, in its own offset. -/
def Timestamp.civil (ts : Timestamp) : Civil :=
  ⟨ts.year, ts.month, ts.day, ts.hour, ts.minute, ts.second⟩

/-- The instant the timestamp names, in seconds from the Unix epoch. -/
def Timestamp.unix (ts : Timestamp) : Int := ts.civil.unix - ts.offsetSeconds

/-- The nanoseconds the first nine digits of `time-secfrac` name. -/
def Timestamp.nanos (ts : Timestamp) : Nat :=
  (ts.secfrac.take 9).foldl (fun n d => n * 10 + d) 0 * 10 ^ (9 - (ts.secfrac.take 9).length)

/-- The text `YYYY-MM-DD HH:MM:SS +0900 Asia/Tokyo` of a calendar time, with
the nanoseconds after the seconds when there are any: the year as Go writes
it (four digits from 0 to 9999), the other fields in two digits. -/
def tokyoText (c : Civil) (nsec : Nat) : String :=
  ⟨appendInt c.year 4 ++ '-' :: (twoDigits c.month.toNat ++ '-' :: (twoDigits c.day.toNat ++
    ' ' :: (twoDigits c.hour.toNat ++ ':' :: (twoDigits c.minute.toNat ++ ':' ::
    (twoDigits c.second.toNat ++ (appendNano nsec ++ " +0900 Asia/Tokyo".data))))))⟩

/-- The line `listInstances` prints for an instance whose last start shows as
`shown`. -/
def instanceLine (inst : Instance) (shown : String) : Output :=
  .text ("Name: " ++ inst.Name ++ ", LastStart: " ++ shown ++ "\n")

/-- What one pass of the `for` loop of `listInstances` prints for an instance:
its line when `time.Parse` accepts the timestamp, nothing when it does not
(the loop then returns the error). -/
def shownLine (inst : Instance) : Option Output :=
  match parseRFC3339 inst.LastStartTimestamp with
  | .ok parsed => some (instanceLine inst (parsed.In jst).String)
  | .error _ => none

/-! ## Running a call, and the polling loops against the reference poller -/

section Lemmas

variable {σ : Type}

theorem bind_apply {α β : Type} (m : Prog σ α) (f : α → Prog σ β) (s : σ) :
    (m >>= f) s = Prog.bind m f s := rfl

theorem pure_apply {α : Type} (a : α) (s : σ) :
    (pure a : Prog σ α) s = ⟨.ok a, s, [], []⟩ := rfl

theorem call_ok {α β : Type} (req : Request) (wrap : α → Response)
    (f : σ → Except String α × σ) (k : α → Prog σ β) (s : σ) (a : α) (h : (f s).1 = .ok a) :
    (perform req wrap f >>= fun r => orReturn r >>= k) s =
      ⟨(k a (f s).2).res, (k a (f s).2).st, ⟨req, wrap a⟩ :: (k a (f s).2).trace,
        (k a (f s).2).out⟩ := by
  simp [bind_apply, Prog.bind, perform, h, orReturn, pure_apply, toResponse]

theorem call_error {α β : Type} (req : Request) (wrap : α → Response)
    (f : σ → Except String α × σ) (k : α → Prog σ β) (s : σ) (e : String)
    (h : (f s).1 = .error e) :
    (perform req wrap f >>= fun r => orReturn r >>= k) s =
      ⟨.error (.api e), (f s).2, [⟨req, .failure e⟩], []⟩ := by
  simp [bind_apply, Prog.bind, perform, h, orReturn, fail, toResponse]

theorem waitZoneOperation_reference (env : Env σ) (g : Globals) (ops : Operation) :
    ∀ (fuel : Nat) (s : σ),
      ((waitZoneOperation env g ops fuel s).res, (waitZoneOperation env g ops fuel s).trace) =
        referencePoller (.zoneOperationsGet g.projectID g.zone ops.Name)
          (pollResponses env (env.zoneOperationsGet g.projectID g.zone ops.Name) fuel s) := by
  intro fuel
  induction fuel with
  | zero => intro s; rfl
  | succ n ih =>
    intro s
    simp only [waitZoneOperation, bind_apply, Prog.bind, Sleep, perform, emit, pollResponses]
    cases h : (env.zoneOperationsGet g.projectID g.zone ops.Name (env.sleep 5 s)).1 with
    | error e => simp [orReturn, fail, toResponse, referencePoller]
    | ok op =>
      simp only [orReturn, pure_apply, toResponse, List.append_nil, referencePoller]
      by_cases hd : op.Status = "DONE"
      · simp [hd, pure_apply]
      · have := ih (env.zoneOperationsGet g.projectID g.zone ops.Name (env.sleep 5 s)).2
        simp only [Prod.ext_iff] at this
        simp [hd, this.1, this.2]

theorem waitGlobalOperation_reference (env : Env σ) (g : Globals) (ops : Operation) :
    ∀ (fuel : Nat) (s : σ),
      ((waitGlobalOperation env g ops fuel s).res, (waitGlobalOperation env g ops fuel s).trace) =
        referencePoller (.globalOperationsGet g.projectID ops.Name)
          (pollResponses env (env.globalOperationsGet g.projectID ops.Name) fuel s) := by
  intro fuel
  induction fuel with
  | zero => intro s; rfl
  | succ n ih =>
    intro s
    simp only [waitGlobalOperation, bind_apply, Prog.bind, Sleep, perform, emit, pollResponses]
    cases h : (env.globalOperationsGet g.projectID ops.Name (env.sleep 5 s)).1 with
    | error e => simp [orReturn, fail, toResponse, referencePoller]
    | ok op =>
      simp only [orReturn, pure_apply, toResponse, List.append_nil, referencePoller]
      by_cases hd : op.Status = "DONE"
      · simp [hd, pure_apply]
      · have := ih (env.globalOperationsGet g.projectID ops.Name (env.sleep 5 s)).2
        simp only [Prod.ext_iff] at this
        simp [hd, this.1, this.2]

theorem referencePoller_shape (q : Request) (rs : List (Except String Operation)) :
    WaitShape q (referencePoller q rs).1 (referencePoller q rs).2 := by
  induction rs with
  | nil => exact WaitShape.running [] (by simp)
  | cons r rest ih =>
    cases r with
    | error e => exact WaitShape.failed [] e (by simp)
    | ok op =>
      simp only [referencePoller]
      by_cases hd : op.Status = "DONE"
      · simp only [hd, if_true]
        exact WaitShape.done [] op (by simp) hd
      · simp only [hd, if_false]
        revert ih
        generalize (referencePoller q rest).1 = r
        generalize (referencePoller q rest).2 = t
        intro hw
        cases hw with
        | done os last hp hl =>
          exact WaitShape.done (op :: os) last (by simpa [hd] using hp) hl
        | failed os e hp => exact WaitShape.failed (op :: os) e (by simpa [hd] using hp)
        | running os hp => exact WaitShape.running (op :: os) (by simpa [hd] using hp)

theorem referencePoller_first (q : Request) (rs : List (Except String Operation)) :
    ∀ k, firstTerminal rs = some k →
      (referencePoller q rs).2 = (rs.take (k + 1)).map (fun r => ⟨q, toResponse .operation r⟩) ∧
      (∀ err, rs[k]? = some (.error err) → (referencePoller q rs).1 = .error (.api err)) ∧
      (∀ op, rs[k]? = some (.ok op) → op.Status = "DONE" ∧ (referencePoller q rs).1 = .ok ()) := by
  induction rs with
  | nil => intro k h; simp [firstTerminal] at h
  | cons r rest ih =>
    intro k h
    cases r with
    | error e =>
      simp [firstTerminal, isTerminal] at h
      subst h
      simp [referencePoller, toResponse]
    | ok op =>
      by_cases hd : op.Status = "DONE"
      · simp [firstTerminal, isTerminal, hd] at h
        subst h
        simp [referencePoller, hd, toResponse]
      · simp [firstTerminal, isTerminal, hd] at h
        obtain ⟨k1, hk1, rfl⟩ := h
        have := ih k1 hk1
        simp only [referencePoller, hd, if_false]
        refine ⟨by simp [this.1, toResponse], ?_, ?_⟩
        · intro err herr
          exact this.2.1 err (by simpa using herr)
        · intro o ho
          exact this.2.2 o (by simpa using ho)

theorem firstTerminal_lt (rs : List (Except String Operation)) :
    ∀ k, firstTerminal rs = some k → k < rs.length := by
  induction rs with
  | nil => intro k h; simp [firstTerminal] at h
  | cons r rest ih =>
    intro k h
    by_cases ht : isTerminal r = true
    · simp [firstTerminal, ht] at h
      subst h
      simp
    · simp [firstTerminal, ht] at h
      obtain ⟨k1, hk1, rfl⟩ := h
      have := ih k1 hk1
      simp
      omega

theorem pollResponses_script (get : List (Except String Operation) →
      Except String Operation × List (Except String Operation))
    (hget : ∀ s, get s = (s.headD (.error "end of script"), s.tail)) :
    ∀ rs : List (Except String Operation), pollResponses scriptEnv get rs.length rs = rs := by
  intro rs
  induction rs with
  | nil => rfl
  | cons r rest ih =>
    have h1 : scriptEnv.sleep 5 (r :: rest) = r :: rest := rfl
    simp only [List.length_cons, pollResponses, h1, hget, List.headD_cons, List.tail_cons, ih]

theorem waitZoneOperation_shape (env : Env σ) (g : Globals) (ops : Operation) (fuel : Nat)
    (s : σ) :
    WaitShape (.zoneOperationsGet g.projectID g.zone ops.Name)
      (waitZoneOperation env g ops fuel s).res (waitZoneOperation env g ops fuel s).trace := by
  have h := waitZoneOperation_reference env g ops fuel s
  simp only [Prod.ext_iff] at h
  rw [h.1, h.2]
  exact referencePoller_shape _ _

theorem waitGlobalOperation_shape (env : Env σ) (g : Globals) (ops : Operation) (fuel : Nat)
    (s : σ) :
    WaitShape (.globalOperationsGet g.projectID ops.Name)
      (waitGlobalOperation env g ops fuel s).res (waitGlobalOperation env g ops fuel s).trace := by
  have h := waitGlobalOperation_reference env g ops fuel s
  simp only [Prod.ext_iff] at h
  rw [h.1, h.2]
  exact referencePoller_shape _ _

end Lemmas

section MoreLemmas

variable {σ : Type}

theorem printInstances_trace (items : List Instance) (s : σ) :
    (printInstances items s).trace = [] ∧ (printInstances items s).st = s := by
  induction items with
  | nil => exact ⟨rfl, rfl⟩
  | cons inst rest ih =>
    unfold printInstances
    cases parseRFC3339 inst.LastStartTimestamp with
    | error e => exact ⟨rfl, rfl⟩
    | ok t =>
      simp only [bind_apply, Prog.bind, emit]
      exact ⟨by simpa using ih.1, by simpa using ih.2⟩

theorem listInstances_trace (env : Env σ) (g : Globals) (s : σ) :
    (listInstances env g s).trace =
      [⟨.instancesList g.projectID g.zone,
        toResponse .instances (env.instancesList g.projectID g.zone s).1⟩] := by
  unfold listInstances
  cases h : (env.instancesList g.projectID g.zone s).1 with
  | error e => rw [call_error _ _ _ _ _ _ h]; rfl
  | ok items =>
    rw [call_ok _ _ _ _ _ _ h]
    by_cases h0 : items.length = 0
    · simp [h0, Println, emit, toResponse]
    · simp [h0, toResponse, (printInstances_trace items _).1]

theorem now_bind {β : Type} (env : Env σ) (k : Time → Prog σ β) (s : σ) :
    (Now env >>= k) s = k ⟨(env.now s).1.1, (env.now s).1.2, env.localZone⟩ (env.now s).2 := by
  simp [bind_apply, Prog.bind, Now]

theorem emit_bind {β : Type} (o : Output) (k : Unit → Prog σ β) (s : σ) :
    (emit o >>= k) s = ⟨(k () s).res, (k () s).st, (k () s).trace, o :: (k () s).out⟩ := by
  simp [bind_apply, Prog.bind, emit]

theorem create_single_error (env : Env σ) (g : Globals) (fuel : Nat) (s s1 s2 : σ)
    (img : MachineImage) (e : String)
    (h1 : env.instancesList g.projectID g.zone s = (.ok [], s1))
    (h2 : env.machineImagesList g.projectID s1 = (.ok [img], s2))
    (h3 : (env.instancesInsert g.projectID g.zone
      ⟨"instance-" ++ (Time.mk (env.now s2).1.1 (env.now s2).1.2 env.localZone).Format
        "2006-01-02-15-04-05", "", "global/machineImages/" ++ img.Name⟩ (env.now s2).2).1 =
      .error e) :
    createInstanceFromMachineImage env g fuel s =
      ⟨.error (.api e),
        (env.instancesInsert g.projectID g.zone
          ⟨"instance-" ++ (Time.mk (env.now s2).1.1 (env.now s2).1.2 env.localZone).Format
            "2006-01-02-15-04-05", "", "global/machineImages/" ++ img.Name⟩ (env.now s2).2).2,
        [⟨.instancesList g.projectID g.zone, .instances []⟩,
         ⟨.machineImagesList g.projectID, .machineImages [img]⟩,
         ⟨.instancesInsert g.projectID g.zone
          ⟨"instance-" ++ (Time.mk (env.now s2).1.1 (env.now s2).1.2 env.localZone).Format
            "2006-01-02-15-04-05", "", "global/machineImages/" ++ img.Name⟩, .failure e⟩],
        []⟩ := by
  have h1a : (env.instancesList g.projectID g.zone s).1 = .ok [] := by rw [h1]
  have h1b : (env.instancesList g.projectID g.zone s).2 = s1 := by rw [h1]
  have h2a : (env.machineImagesList g.projectID s1).1 = .ok [img] := by rw [h2]
  have h2b : (env.machineImagesList g.projectID s1).2 = s2 := by rw [h2]
  unfold createInstanceFromMachineImage
  rw [call_ok _ _ _ _ _ _ h1a, h1b]
  simp only [List.length_nil, ne_eq, not_true_eq_false, if_false]
  rw [call_ok _ _ _ _ _ _ h2a, h2b]
  simp only [List.length_singleton, one_ne_zero, dite_false, ne_eq, not_true_eq_false, if_false,
    List.get_eq_getElem, List.getElem_cons_zero]
  rw [now_bind]
  rw [call_error _ _ _ _ _ _ h3]

theorem create_single_ok (env : Env σ) (g : Globals) (fuel : Nat) (s s1 s2 : σ)
    (img : MachineImage) (op : Operation)
    (h1 : env.instancesList g.projectID g.zone s = (.ok [], s1))
    (h2 : env.machineImagesList g.projectID s1 = (.ok [img], s2))
    (h3 : (env.instancesInsert g.projectID g.zone
      ⟨"instance-" ++ (Time.mk (env.now s2).1.1 (env.now s2).1.2 env.localZone).Format
        "2006-01-02-15-04-05", "", "global/machineImages/" ++ img.Name⟩ (env.now s2).2).1 =
      .ok op) :
    createInstanceFromMachineImage env g fuel s =
      ⟨(waitZoneOperation env g op fuel (env.instancesInsert g.projectID g.zone
          ⟨"instance-" ++ (Time.mk (env.now s2).1.1 (env.now s2).1.2 env.localZone).Format
            "2006-01-02-15-04-05", "", "global/machineImages/" ++ img.Name⟩ (env.now s2).2).2).res,
        (waitZoneOperation env g op fuel (env.instancesInsert g.projectID g.zone
          ⟨"instance-" ++ (Time.mk (env.now s2).1.1 (env.now s2).1.2 env.localZone).Format
            "2006-01-02-15-04-05", "", "global/machineImages/" ++ img.Name⟩ (env.now s2).2).2).st,
        ⟨.instancesList g.projectID g.zone, .instances []⟩ ::
         ⟨.machineImagesList g.projectID, .machineImages [img]⟩ ::
         ⟨.instancesInsert g.projectID g.zone
          ⟨"instance-" ++ (Time.mk (env.now s2).1.1 (env.now s2).1.2 env.localZone).Format
            "2006-01-02-15-04-05", "", "global/machineImages/" ++ img.Name⟩, .operation op⟩ ::
         (waitZoneOperation env g op fuel (env.instancesInsert g.projectID g.zone
          ⟨"instance-" ++ (Time.mk (env.now s2).1.1 (env.now s2).1.2 env.localZone).Format
            "2006-01-02-15-04-05", "", "global/machineImages/" ++ img.Name⟩
            (env.now s2).2).2).trace,
        .json (some op) ::
         (waitZoneOperation env g op fuel (env.instancesInsert g.projectID g.zone
          ⟨"instance-" ++ (Time.mk (env.now s2).1.1 (env.now s2).1.2 env.localZone).Format
            "2006-01-02-15-04-05", "", "global/machineImages/" ++ img.Name⟩
            (env.now s2).2).2).out⟩ := by
  have h1a : (env.instancesList g.projectID g.zone s).1 = .ok [] := by rw [h1]
  have h1b : (env.instancesList g.projectID g.zone s).2 = s1 := by rw [h1]
  have h2a : (env.machineImagesList g.projectID s1).1 = .ok [img] := by rw [h2]
  have h2b : (env.machineImagesList g.projectID s1).2 = s2 := by rw [h2]
  unfold createInstanceFromMachineImage
  rw [call_ok _ _ _ _ _ _ h1a, h1b]
  simp only [List.length_nil, ne_eq, not_true_eq_false, if_false]
  rw [call_ok _ _ _ _ _ _ h2a, h2b]
  simp only [List.length_singleton, one_ne_zero, dite_false, ne_eq, not_true_eq_false, if_false,
    List.get_eq_getElem, List.getElem_cons_zero]
  rw [now_bind]
  rw [call_ok _ _ _ _ _ _ h3]
  simp [bind_apply, Prog.bind, printToJSON, emit]

end MoreLemmas

section ShapeLemmas

variable {σ : Type}

theorem bind_ok {α β : Type} (m : Prog σ α) (k : α → Prog σ β) (s : σ) (a : α)
    (h : (m s).res = .ok a) :
    (m >>= k) s = ⟨(k a (m s).st).res, (k a (m s).st).st, (m s).trace ++ (k a (m s).st).trace,
      (m s).out ++ (k a (m s).st).out⟩ := by
  simp [bind_apply, Prog.bind, h]

theorem bind_error {α β : Type} (m : Prog σ α) (k : α → Prog σ β) (s : σ) (e : Err)
    (h : (m s).res = .error e) :
    (m >>= k) s = ⟨.error e, (m s).st, (m s).trace, (m s).out⟩ := by
  simp [bind_apply, Prog.bind, h]

theorem bind_running {α β : Type} (m : Prog σ α) (k : α → Prog σ β) (s : σ)
    (h : (m s).res = .running) :
    (m >>= k) s = ⟨.running, (m s).st, (m s).trace, (m s).out⟩ := by
  simp [bind_apply, Prog.bind, h]

theorem removeOtherMachineImages_shape (env : Env σ) (g : Globals) (keep : String) :
    ∀ (images : List MachineImage) (s : σ),
      CleanupShape g.projectID keep images (removeOtherMachineImages env g keep images s).res
        (removeOtherMachineImages env g keep images s).trace := by
  intro images
  induction images with
  | nil => intro s; exact CleanupShape.nil
  | cons image rest ih =>
    intro s
    unfold removeOtherMachineImages
    by_cases hk : image.Name = keep
    · simp only [hk, ne_eq, not_true_eq_false, if_false]
      exact CleanupShape.kept image rest _ _ hk (ih s)
    · simp only [hk, ne_eq, not_false_eq_true, if_true]
      simp only [bind_apply, Prog.bind, perform, printToJSON, emit]
      cases hd : (env.machineImagesDelete g.projectID image.Name s).1 with
      | error e =>
        simp only [orReturn, fail, toResponse, List.append_nil]
        exact CleanupShape.failed image rest e hk
      | ok op =>
        simp only [orReturn, pure_apply, toResponse, List.append_nil, List.nil_append,
          List.singleton_append]
        exact CleanupShape.deleted image rest op _ _ hk (ih _)

theorem snapshot_shape (env : Env σ) (g : Globals) (fuel : Nat) (inst : Instance) (s : σ) :
    SnapshotShape g (createMachineImageAndRemoveOtherMachineImage env g fuel inst s).res
      (createMachineImageAndRemoveOtherMachineImage env g fuel inst s).trace := by
  unfold createMachineImageAndRemoveOtherMachineImage
  rw [now_bind, now_bind]
  generalize (env.now (env.now s).2).2 = s2
  generalize (⟨"backup-" ++ (Time.mk (env.now (env.now s).2).1.1 (env.now (env.now s).2).1.2
      env.localZone).Format "2006-01-02-15-04-05",
    ((Time.mk (env.now s).1.1 (env.now s).1.2 env.localZone).In jst).Format
      "2006-01-02 15:04:05" ++ "に作成したイメージです", false,
    "projects/" ++ g.projectID ++ "/zones/" ++ g.zone ++ "/instances/" ++ inst.Name,
    [g.region]⟩ : MachineImage) = img
  cases hi : (env.machineImagesInsert g.projectID img s2).1 with
  | error e =>
    rw [call_error _ _ _ _ _ _ hi]
    exact SnapshotShape.insertFailed img e
  | ok op =>
    rw [call_ok _ _ _ _ _ _ hi]
    simp only [printToJSON, emit_bind]
    generalize (env.machineImagesInsert g.projectID img s2).2 = s3
    have hw := waitGlobalOperation_shape env g op fuel s3
    cases hres : (waitGlobalOperation env g op fuel s3).res with
    | error e =>
      rw [bind_error _ _ _ _ hres]
      rw [hres] at hw
      exact SnapshotShape.waiting img op _ _ hw (by simp)
    | running =>
      rw [bind_running _ _ _ hres]
      rw [hres] at hw
      exact SnapshotShape.waiting img op _ _ hw (by simp)
    | ok u =>
      rw [bind_ok _ _ _ _ hres]
      rw [hres] at hw
      simp only [Println, emit_bind]
      generalize (waitGlobalOperation env g op fuel s3).st = s4 at *
      generalize (waitGlobalOperation env g op fuel s3).trace = t at *
      cases hl : (env.machineImagesList g.projectID s4).1 with
      | error e =>
        rw [call_error _ _ _ _ _ _ hl]
        exact SnapshotShape.listFailed img op t e hw
      | ok images =>
        rw [call_ok _ _ _ _ _ _ hl]
        generalize (env.machineImagesList g.projectID s4).2 = s5
        have hc := removeOtherMachineImages_shape env g img.Name images s5
        cases hcr : (removeOtherMachineImages env g img.Name images s5).res with
        | error e =>
          rw [bind_error _ _ _ _ hcr]
          rw [hcr] at hc
          exact SnapshotShape.cleaned img op t images _ _ hw hc
        | running =>
          rw [bind_running _ _ _ hcr]
          rw [hcr] at hc
          exact SnapshotShape.cleaned img op t images _ _ hw hc
        | ok u =>
          rw [bind_ok _ _ _ _ hcr]
          rw [hcr] at hc
          simp only [emit, List.append_nil]
          exact SnapshotShape.cleaned img op t images _ _ hw hc

theorem remove_shape (env : Env σ) (g : Globals) (fuel : Nat) (s : σ) :
    RemoveShape g (createMachineImageAndRemoveInstance env g fuel s).res
      (createMachineImageAndRemoveInstance env g fuel s).trace := by
  unfold createMachineImageAndRemoveInstance
  cases hl : (env.instancesList g.projectID g.zone s).1 with
  | error e =>
    rw [call_error _ _ _ _ _ _ hl]
    exact RemoveShape.listFailed e
  | ok items =>
    rw [call_ok _ _ _ _ _ _ hl]
    generalize (env.instancesList g.projectID g.zone s).2 = s1
    by_cases h0 : items.length = 0
    · simp only [h0, dite_true]
      exact RemoveShape.refused items _ (by omega)
    · by_cases h1 : items.length = 1
      · obtain ⟨inst, rfl⟩ := List.length_eq_one.mp h1
        simp only [List.length_singleton, one_ne_zero, dite_false, ne_eq, not_true_eq_false,
          if_false, List.get_eq_getElem, List.getElem_cons_zero]
        cases hst : (env.instancesStop g.projectID g.zone inst.Name s1).1 with
        | error e =>
          rw [call_error _ _ _ _ _ _ hst]
          exact RemoveShape.stopFailed inst e
        | ok op =>
          rw [call_ok _ _ _ _ _ _ hst]
          simp only [printToJSON, emit_bind]
          generalize (env.instancesStop g.projectID g.zone inst.Name s1).2 = s2
          have hw := waitZoneOperation_shape env g op fuel s2
          cases hres : (waitZoneOperation env g op fuel s2).res with
          | error e =>
            rw [bind_error _ _ _ _ hres]
            rw [hres] at hw
            exact RemoveShape.stopping inst op _ _ hw (by simp)
          | running =>
            rw [bind_running _ _ _ hres]
            rw [hres] at hw
            exact RemoveShape.stopping inst op _ _ hw (by simp)
          | ok u =>
            rw [bind_ok _ _ _ _ hres]
            rw [hres] at hw
            simp only [emit_bind]
            generalize (waitZoneOperation env g op fuel s2).st = s3 at *
            generalize (waitZoneOperation env g op fuel s2).trace = t at *
            have hs := snapshot_shape env g fuel inst s3
            cases hsr : (createMachineImageAndRemoveOtherMachineImage env g fuel inst s3).res with
            | error e =>
              rw [bind_error _ _ _ _ hsr]
              rw [hsr] at hs
              exact RemoveShape.snapshotting inst op t _ _ hw hs (by simp)
            | running =>
              rw [bind_running _ _ _ hsr]
              rw [hsr] at hs
              exact RemoveShape.snapshotting inst op t _ _ hw hs (by simp)
            | ok u =>
              rw [bind_ok _ _ _ _ hsr]
              rw [hsr] at hs
              generalize (createMachineImageAndRemoveOtherMachineImage env g fuel inst s3).st
                = s4 at *
              generalize (createMachineImageAndRemoveOtherMachineImage env g fuel inst s3).trace
                = t2 at *
              cases hd : (env.instancesDelete g.projectID g.zone inst.Name s4).1 with
              | error e =>
                rw [call_error _ _ _ _ _ _ hd]
                simp only [List.cons_append, List.append_assoc]
                have := RemoveShape.deleteFailed inst op t t2 e hw hs
                simpa only [List.cons_append, List.append_assoc] using this
              | ok op2 =>
                rw [call_ok _ _ _ _ _ _ hd]
                simp only [printToJSON, emit_bind]
                generalize (env.instancesDelete g.projectID g.zone inst.Name s4).2 = s5
                have hw3 := waitZoneOperation_shape env g op2 fuel s5
                have key : ∀ (r : Outcome Unit) (t3 : List Event),
                    WaitShape (.zoneOperationsGet g.projectID g.zone op2.Name) r t3 →
                    RemoveShape g r
                      (⟨.instancesList g.projectID g.zone, .instances [inst]⟩ ::
                        ⟨.instancesStop g.projectID g.zone inst.Name, .operation op⟩ ::
                        (t ++ (t2 ++
                          ⟨.instancesDelete g.projectID g.zone inst.Name, .operation op2⟩ ::
                          t3))) := by
                  intro r t3 h3
                  have := RemoveShape.deleting inst op t t2 op2 r t3 hw hs h3
                  simpa only [List.cons_append, List.append_assoc] using this
                cases hr3 : (waitZoneOperation env g op2 fuel s5).res with
                | error e =>
                  rw [bind_error _ _ _ _ hr3]
                  rw [hr3] at hw3
                  exact key _ _ hw3
                | running =>
                  rw [bind_running _ _ _ hr3]
                  rw [hr3] at hw3
                  exact key _ _ hw3
                | ok u =>
                  rw [bind_ok _ _ _ _ hr3]
                  rw [hr3] at hw3
                  simp only [emit, List.append_nil]
                  exact key _ _ hw3
      · simp only [h0, h1, dite_false, ne_eq, not_false_eq_true, if_true]
        exact RemoveShape.refused items _ h1

end ShapeLemmas
section TraceLemmas

variable {σ : Type}

theorem split_unique {α : Type} (P : α → Prop) (a b : α) :
    ∀ (l1 l2 pre post : List α), l1 ++ a :: l2 = pre ++ b :: post →
      (∀ x ∈ l1, ¬ P x) → (∀ x ∈ l2, ¬ P x) → P b → pre = l1 ∧ b = a ∧ post = l2 := by
  intro l1
  induction l1 with
  | nil =>
    intro l2 pre post h _ h2 hb
    cases pre with
    | nil =>
      simp only [List.nil_append, List.cons.injEq] at h
      exact ⟨rfl, h.1.symm, h.2.symm⟩
    | cons x pre1 =>
      simp only [List.nil_append, List.cons_append, List.cons.injEq] at h
      exact absurd hb (h2 b (by rw [h.2]; simp))
  | cons y l1 ih =>
    intro l2 pre post h h1 h2 hb
    cases pre with
    | nil =>
      simp only [List.nil_append, List.cons_append, List.cons.injEq] at h
      exact absurd (h.1 ▸ hb) (h1 y (List.mem_cons_self _ _))
    | cons x pre1 =>
      simp only [List.cons_append, List.cons.injEq] at h
      have := ih l2 pre1 post h.2 (fun z hz => h1 z (List.mem_cons_of_mem _ hz)) h2 hb
      exact ⟨by rw [h.1, this.1], this.2.1, this.2.2⟩

theorem WaitShape.wait_req_eq {q : Request} {r : Outcome Unit} {t : List Event}
    (h : WaitShape q r t) : ∀ e ∈ t, e.req = q := by
  intro e he
  cases h with
  | done os last hp hl =>
    simp only [polls, List.mem_append, List.mem_map, List.mem_singleton] at he
    rcases he with ⟨o, _, rfl⟩ | rfl <;> rfl
  | failed os err hp =>
    simp only [polls, List.mem_append, List.mem_map, List.mem_singleton] at he
    rcases he with ⟨o, _, rfl⟩ | rfl <;> rfl
  | running os hp =>
    simp only [polls, List.mem_map] at he
    rcases he with ⟨o, _, rfl⟩
    rfl

theorem WaitShape.wait_ok_inv {q : Request} {t : List Event} (h : WaitShape q (.ok ()) t) :
    ∃ ops done, t = polls q ops ++ [⟨q, .operation done⟩] ∧
      (∀ o ∈ ops, o.Status ≠ "DONE") ∧ done.Status = "DONE" := by
  cases h with
  | done os last hp hl => exact ⟨os, last, rfl, hp, hl⟩

theorem CleanupShape.cleanup_req_eq {project keep : String} {images : List MachineImage}
    {r : Outcome Unit} {t : List Event} (h : CleanupShape project keep images r t) :
    ∀ e ∈ t, ∃ n, e.req = .machineImagesDelete project n := by
  induction h with
  | nil => intro e he; cases he
  | kept image rest res t hk hr ih => exact ih
  | deleted image rest op res t hk hr ih =>
    intro e he
    rcases List.mem_cons.mp he with rfl | he
    · exact ⟨_, rfl⟩
    · exact ih e he
  | failed image rest e hk =>
    intro x hx
    rcases List.mem_singleton.mp hx with rfl
    exact ⟨_, rfl⟩

theorem CleanupShape.of_accepted {project keep : String} {images : List MachineImage}
    {r : Outcome Unit} {t : List Event} (h : CleanupShape project keep images r t)
    (hd : ∀ e ∈ t, e.resp.isFailure = false) :
    r = .ok () ∧
    t.map (fun e => e.req) =
      (images.filter (fun i => decide (i.Name ≠ keep))).map
        (fun i => .machineImagesDelete project i.Name) := by
  induction h with
  | nil => exact ⟨rfl, rfl⟩
  | kept image rest res t hk hr ih =>
    have := ih hd
    exact ⟨this.1, by simp [hk, this.2]⟩
  | deleted image rest op res t hk hr ih =>
    have := ih (fun e he => hd e (List.mem_cons_of_mem _ he))
    exact ⟨this.1, by simp [hk, this.2]⟩
  | failed image rest e hk =>
    have := hd _ (List.mem_singleton.mpr rfl)
    simp [Response.isFailure] at this

theorem CleanupShape.ok_accepted {project keep : String} {images : List MachineImage}
    {t : List Event} (h : CleanupShape project keep images (.ok ()) t) :
    ∀ e ∈ t, ∃ n op, e = ⟨.machineImagesDelete project n, .operation op⟩ := by
  generalize hr : (Outcome.ok () : Outcome Unit) = r at h
  induction h with
  | nil => intro e he; cases he
  | kept image rest res t hk hr1 ih => exact ih hr
  | deleted image rest op res t hk hr1 ih =>
    intro e he
    rcases List.mem_cons.mp he with rfl | he
    · exact ⟨_, _, rfl⟩
    · exact ih hr e he
  | failed image rest e hk => cases hr

theorem imageDeletes_eq_of_req (t : List Event) (names : List String) (project : String)
    (h : t.map (fun e => e.req) = names.map (fun n => Request.machineImagesDelete project n)) :
    imageDeletes t = names := by
  induction t generalizing names with
  | nil =>
    cases names with
    | nil => rfl
    | cons n ns => simp at h
  | cons e t ih =>
    cases names with
    | nil => simp at h
    | cons n ns =>
      simp only [List.map_cons, List.cons.injEq] at h
      have := ih ns h.2
      simp [imageDeletes, List.filterMap_cons, h.1, Request.imageDeleted?] at this ⊢
      exact this

theorem snapshot_head (env : Env σ) (g : Globals) (fuel : Nat) (inst : Instance) (s : σ) :
    ∃ resp rest, (createMachineImageAndRemoveOtherMachineImage env g fuel inst s).trace =
      ⟨.machineImagesInsert g.projectID
        ⟨"backup-" ++ (Time.mk (env.now (env.now s).2).1.1 (env.now (env.now s).2).1.2
            env.localZone).Format "2006-01-02-15-04-05",
          ((Time.mk (env.now s).1.1 (env.now s).1.2 env.localZone).In jst).Format
            "2006-01-02 15:04:05" ++ "に作成したイメージです", false,
          "projects/" ++ g.projectID ++ "/zones/" ++ g.zone ++ "/instances/" ++ inst.Name,
          [g.region]⟩, resp⟩ :: rest := by
  unfold createMachineImageAndRemoveOtherMachineImage
  rw [now_bind, now_bind]
  cases hi : (env.machineImagesInsert g.projectID
      ⟨"backup-" ++ (Time.mk (env.now (env.now s).2).1.1 (env.now (env.now s).2).1.2
          env.localZone).Format "2006-01-02-15-04-05",
        ((Time.mk (env.now s).1.1 (env.now s).1.2 env.localZone).In jst).Format
          "2006-01-02 15:04:05" ++ "に作成したイメージです", false,
        "projects/" ++ g.projectID ++ "/zones/" ++ g.zone ++ "/instances/" ++ inst.Name,
        [g.region]⟩ (env.now (env.now s).2).2).1 with
  | error e =>
    rw [call_error _ _ _ _ _ _ hi]
    exact ⟨_, _, rfl⟩
  | ok op =>
    rw [call_ok _ _ _ _ _ _ hi]
    exact ⟨_, _, rfl⟩

end TraceLemmas

section OrderLemmas

variable {σ : Type}

theorem Tidy.failsLast {r : Outcome Unit} {t : List Event} (h : Tidy r t) : FailsLast r t := by
  intro pre e post err ht he
  rcases h with h | ⟨good, q, err1, rfl, hg, rfl⟩
  · have := h e (by rw [ht]; simp)
    simp [he, Response.isFailure] at this
  · have := split_unique (fun x : Event => x.resp.isFailure = true) ⟨q, .failure err1⟩ e
      good [] pre post ht
      (by intro x hx; show ¬ (x.resp.isFailure = true); simp [hg x hx])
      (by intro x hx; cases hx)
      (by show e.resp.isFailure = true; simp [he, Response.isFailure])
    obtain ⟨_, he1, hpost⟩ := this
    subst he1
    simp only [Response.failure.injEq] at he
    exact ⟨hpost, by rw [he]⟩

theorem Tidy.prepend {r : Outcome Unit} {t : List Event} (l : List Event)
    (hl : ∀ e ∈ l, e.resp.isFailure = false) (h : Tidy r t) : Tidy r (l ++ t) := by
  rcases h with h | ⟨good, q, err, rfl, hg, rfl⟩
  · left
    intro e he
    rcases List.mem_append.mp he with he | he
    · exact hl e he
    · exact h e he
  · right
    refine ⟨l ++ good, q, err, by simp, ?_, rfl⟩
    intro e he
    rcases List.mem_append.mp he with he | he
    · exact hl e he
    · exact hg e he

theorem polls_clean (q : Request) (ops : List Operation) :
    ∀ e ∈ polls q ops, e.resp.isFailure = false := by
  intro e he
  simp only [polls, List.mem_map] at he
  obtain ⟨o, _, rfl⟩ := he
  rfl

theorem WaitShape.wait_tidy {q : Request} {r : Outcome Unit} {t : List Event}
    (h : WaitShape q r t) : Tidy r t := by
  cases h with
  | done os last hp hl =>
    left
    intro e he
    rcases List.mem_append.mp he with he | he
    · exact polls_clean q os e he
    · rcases List.mem_singleton.mp he with rfl
      rfl
  | failed os err hp => exact Or.inr ⟨_, q, err, rfl, polls_clean q os, rfl⟩
  | running os hp => exact Or.inl (polls_clean q os)

theorem WaitShape.wait_ok_clean {q : Request} {t : List Event} (h : WaitShape q (.ok ()) t) :
    ∀ e ∈ t, e.resp.isFailure = false := by
  rcases h.wait_tidy with h1 | ⟨_, _, _, _, _, h2⟩
  · exact h1
  · cases h2

theorem CleanupShape.cleanup_tidy {project keep : String} {images : List MachineImage}
    {r : Outcome Unit} {t : List Event} (h : CleanupShape project keep images r t) :
    Tidy r t := by
  induction h with
  | nil => exact Or.inl (by intro e he; cases he)
  | kept image rest res t hk hr ih => exact ih
  | deleted image rest op res t hk hr ih =>
    have := Tidy.prepend [⟨.machineImagesDelete project image.Name, .operation op⟩]
      (by intro e he; rcases List.mem_singleton.mp he with rfl; rfl) ih
    simpa using this
  | failed image rest e hk =>
    exact Or.inr ⟨[], _, e, rfl, (by intro x hx; cases hx), rfl⟩

theorem SnapshotShape.snapshot_tidy {g : Globals} {r : Outcome Unit} {t : List Event}
    (h : SnapshotShape g r t) : Tidy r t := by
  cases h with
  | insertFailed img e => exact Or.inr ⟨[], _, e, rfl, (by intro x hx; cases hx), rfl⟩
  | waiting img op res t1 hw hres =>
    have := Tidy.prepend [⟨.machineImagesInsert g.projectID img, .operation op⟩]
      (by intro e he; rcases List.mem_singleton.mp he with rfl; rfl) hw.wait_tidy
    simpa using this
  | listFailed img op t1 e hw =>
    refine Or.inr ⟨⟨.machineImagesInsert g.projectID img, .operation op⟩ :: t1, _, e, rfl, ?_,
      rfl⟩
    intro x hx
    rcases List.mem_cons.mp hx with rfl | hx
    · rfl
    · exact hw.wait_ok_clean x hx
  | cleaned img op t1 images res t2 hw hc =>
    have := Tidy.prepend
      (⟨.machineImagesInsert g.projectID img, .operation op⟩ :: t1 ++
        [⟨.machineImagesList g.projectID, .machineImages images⟩])
      (by
        intro x hx
        simp only [List.cons_append, List.mem_cons, List.mem_append, List.mem_singleton,
          List.not_mem_nil, or_false] at hx
        rcases hx with rfl | hx | rfl
        · rfl
        · exact hw.wait_ok_clean x hx
        · rfl) hc.cleanup_tidy
    simpa using this

theorem SnapshotShape.snapshot_ok_clean {g : Globals} {t : List Event} (h : SnapshotShape g (.ok ()) t) :
    ∀ e ∈ t, e.resp.isFailure = false := by
  rcases h.snapshot_tidy with h1 | ⟨_, _, _, _, _, h2⟩
  · exact h1
  · cases h2

theorem RemoveShape.remove_tidy {g : Globals} {r : Outcome Unit} {t : List Event}
    (h : RemoveShape g r t) : Tidy r t := by
  cases h with
  | listFailed e => exact Or.inr ⟨[], _, e, rfl, (by intro x hx; cases hx), rfl⟩
  | refused items msg hn =>
    exact Or.inl (by intro e he; rcases List.mem_singleton.mp he with rfl; rfl)
  | stopFailed inst e =>
    exact Or.inr ⟨[⟨.instancesList g.projectID g.zone, .instances [inst]⟩], _, e, rfl,
      (by intro x hx; rcases List.mem_singleton.mp hx with rfl; rfl), rfl⟩
  | stopping inst op res t1 hw hres =>
    have := Tidy.prepend [⟨.instancesList g.projectID g.zone, .instances [inst]⟩,
        ⟨.instancesStop g.projectID g.zone inst.Name, .operation op⟩]
      (by
        intro e he
        simp only [List.mem_cons, List.mem_singleton, List.not_mem_nil, or_false] at he
        rcases he with rfl | rfl <;> rfl) hw.wait_tidy
    simpa using this
  | snapshotting inst op t1 res t2 hw hs hres =>
    have := Tidy.prepend (⟨.instancesList g.projectID g.zone, .instances [inst]⟩ ::
        ⟨.instancesStop g.projectID g.zone inst.Name, .operation op⟩ :: t1)
      (by
        intro e he
        simp only [List.mem_cons] at he
        rcases he with rfl | rfl | he
        · rfl
        · rfl
        · exact hw.wait_ok_clean e he) hs.snapshot_tidy
    simpa using this
  | deleteFailed inst op t1 t2 e hw hs =>
    refine Or.inr ⟨⟨.instancesList g.projectID g.zone, .instances [inst]⟩ ::
        ⟨.instancesStop g.projectID g.zone inst.Name, .operation op⟩ :: t1 ++ t2, _, e, rfl, ?_,
        rfl⟩
    intro x hx
    simp only [List.cons_append, List.mem_cons, List.mem_append] at hx
    rcases hx with rfl | rfl | hx | hx
    · rfl
    · rfl
    · exact hw.wait_ok_clean x hx
    · exact hs.snapshot_ok_clean x hx
  | deleting inst op t1 t2 op2 res t3 hw hs hw3 =>
    have := Tidy.prepend (⟨.instancesList g.projectID g.zone, .instances [inst]⟩ ::
        ⟨.instancesStop g.projectID g.zone inst.Name, .operation op⟩ :: t1 ++ t2 ++
        [⟨.instancesDelete g.projectID g.zone inst.Name, .operation op2⟩])
      (by
        intro x hx
        simp only [List.cons_append, List.mem_cons, List.mem_append, List.mem_singleton,
          List.not_mem_nil, or_false] at hx
        rcases hx with rfl | rfl | (hx | hx) | rfl
        · rfl
        · rfl
        · exact hw.wait_ok_clean x hx
        · exact hs.snapshot_ok_clean x hx
        · rfl) hw3.wait_tidy
    simpa using this

end OrderLemmas
section DeleteLemmas

variable {σ : Type}

theorem SnapshotShape.no_instance_delete {g : Globals} {r : Outcome Unit} {t : List Event}
    (h : SnapshotShape g r t) : ∀ e ∈ t, ¬ ∃ p z n, e.req = .instancesDelete p z n := by
  have hwait : ∀ (q : Request) (r1 : Outcome Unit) (t1 : List Event) (name : String),
      q = .globalOperationsGet g.projectID name → WaitShape q r1 t1 →
      ∀ e ∈ t1, ¬ ∃ p z n, e.req = .instancesDelete p z n := by
    intro q r1 t1 name hq hw e he
    rw [hw.wait_req_eq e he, hq]
    simp
  have hclean : ∀ (keep : String) (images : List MachineImage) (r1 : Outcome Unit)
      (t1 : List Event), CleanupShape g.projectID keep images r1 t1 →
      ∀ e ∈ t1, ¬ ∃ p z n, e.req = .instancesDelete p z n := by
    intro keep images r1 t1 hc e he
    obtain ⟨n, hn⟩ := hc.cleanup_req_eq e he
    rw [hn]
    simp
  intro e he
  cases h with
  | insertFailed img err =>
    rcases List.mem_singleton.mp he with rfl
    simp
  | waiting img op res t1 hw hres =>
    rcases List.mem_cons.mp he with rfl | he
    · simp
    · exact hwait _ _ _ _ rfl hw e he
  | listFailed img op t1 err hw =>
    simp only [List.cons_append, List.mem_cons, List.mem_append, List.mem_singleton,
      List.not_mem_nil, or_false] at he
    rcases he with rfl | he | rfl
    · simp
    · exact hwait _ _ _ _ rfl hw e he
    · simp
  | cleaned img op t1 images res t2 hw hc =>
    simp only [List.cons_append, List.mem_cons, List.mem_append] at he
    rcases he with rfl | he | rfl | he
    · simp
    · exact hwait _ _ _ _ rfl hw e he
    · simp
    · exact hclean _ _ _ _ hc e he

theorem SnapshotShape.snapshot_ok_inv {g : Globals} {t : List Event} (h : SnapshotShape g (.ok ()) t) :
    ∃ (img : MachineImage) (op : Operation) (ops : List Operation) (done : Operation)
      (images : List MachineImage) (dels : List Event),
      t = ⟨.machineImagesInsert g.projectID img, .operation op⟩ ::
          (polls (.globalOperationsGet g.projectID op.Name) ops ++
            [⟨.globalOperationsGet g.projectID op.Name, .operation done⟩]) ++
          ⟨.machineImagesList g.projectID, .machineImages images⟩ :: dels ∧
      (∀ o ∈ ops, o.Status ≠ "DONE") ∧ done.Status = "DONE" ∧
      CleanupShape g.projectID img.Name images (.ok ()) dels := by
  cases h with
  | waiting img op res t1 hw hres => exact absurd rfl hres
  | cleaned img op t1 images res t2 hw hc =>
    obtain ⟨ops, done, rfl, hops, hdone⟩ := hw.wait_ok_inv
    exact ⟨img, op, ops, done, images, t2, rfl, hops, hdone, hc⟩

theorem remove_delete_inv {g : Globals} {inst : Instance} {op : Operation}
    {t t2 : List Event} {d : Event} {t3 pre post : List Event} {e : Event}
    (hw : WaitShape (.zoneOperationsGet g.projectID g.zone op.Name) (.ok ()) t)
    (hs : SnapshotShape g (.ok ()) t2)
    (hd : d.req = .instancesDelete g.projectID g.zone inst.Name)
    (h3 : ∀ x ∈ t3, ¬ ∃ p z n, x.req = .instancesDelete p z n)
    (ht : (⟨.instancesList g.projectID g.zone, .instances [inst]⟩ ::
      ⟨.instancesStop g.projectID g.zone inst.Name, .operation op⟩ :: t ++ t2) ++ d :: t3 =
      pre ++ e :: post)
    (he : ∃ p z n, e.req = .instancesDelete p z n) :
    ∃ (ops1 : List Operation) (done1 : Operation) (img : MachineImage) (imgOp : Operation)
      (ops2 : List Operation) (done2 : Operation) (images : List MachineImage)
      (dels : List Event),
      pre = ⟨.instancesList g.projectID g.zone, .instances [inst]⟩ ::
        ⟨.instancesStop g.projectID g.zone inst.Name, .operation op⟩ ::
        (polls (.zoneOperationsGet g.projectID g.zone op.Name) ops1 ++
          [⟨.zoneOperationsGet g.projectID g.zone op.Name, .operation done1⟩]) ++
        (⟨.machineImagesInsert g.projectID img, .operation imgOp⟩ ::
          (polls (.globalOperationsGet g.projectID imgOp.Name) ops2 ++
            [⟨.globalOperationsGet g.projectID imgOp.Name, .operation done2⟩]) ++
          ⟨.machineImagesList g.projectID, .machineImages images⟩ :: dels) ∧
      done1.Status = "DONE" ∧ done2.Status = "DONE" ∧
      (∀ x ∈ dels, ∃ n o, x = ⟨.machineImagesDelete g.projectID n, .operation o⟩) ∧
      e.req = .instancesDelete g.projectID g.zone inst.Name := by
  have hsplit := split_unique (fun x : Event => ∃ p z n, x.req = .instancesDelete p z n) d e
    (⟨.instancesList g.projectID g.zone, .instances [inst]⟩ ::
      ⟨.instancesStop g.projectID g.zone inst.Name, .operation op⟩ :: t ++ t2) t3 pre post ht
    (by
      intro x hx
      simp only [List.cons_append, List.mem_cons, List.mem_append] at hx
      rcases hx with rfl | rfl | hx | hx
      · simp
      · simp
      · show ¬ ∃ p z n, x.req = .instancesDelete p z n
        rw [hw.wait_req_eq x hx]
        simp
      · exact hs.no_instance_delete x hx)
    h3 he
  obtain ⟨hpre, hed, _⟩ := hsplit
  obtain ⟨ops1, done1, rfl, _, hdone1⟩ := hw.wait_ok_inv
  obtain ⟨img, imgOp, ops2, done2, images, dels, rfl, _, hdone2, hc⟩ := hs.snapshot_ok_inv
  refine ⟨ops1, done1, img, imgOp, ops2, done2, images, dels, ?_, hdone1, hdone2,
    hc.ok_accepted, ?_⟩
  · rw [hpre]
  · rw [hed, hd]

end DeleteLemmas

section WaitLemmas

variable {σ : Type}

theorem awaited_polled_mutating (e : Event) (q : Request)
    (h : e.awaited Request.polledWith = some q) : e.req.isMutating = true := by
  obtain ⟨req, resp⟩ := e
  cases resp <;> simp [Event.awaited] at h
  cases req <;> simp [Request.polledWith] at h <;> rfl

theorem orderly_append (t1 : List Event) :
    ∀ (p : Option Request) (t2 : List Event),
      Orderly p (t1 ++ t2) ↔ Orderly p t1 ∧ Orderly (pendingAfter p t1) t2 := by
  induction t1 with
  | nil => intro p t2; simp [Orderly, pendingAfter]
  | cons e t1 ih =>
    intro p t2
    have := ih (nextPending p e) t2
    show ((p ≠ none → e.req.isMutating = false) ∧ Orderly (nextPending p e) (t1 ++ t2)) ↔
      ((p ≠ none → e.req.isMutating = false) ∧ Orderly (nextPending p e) t1) ∧
        Orderly (pendingAfter (nextPending p e) t1) t2
    rw [this, and_assoc]

theorem pendingAfter_append (p : Option Request) (t1 t2 : List Event) :
    pendingAfter p (t1 ++ t2) = pendingAfter (pendingAfter p t1) t2 := by
  simp [pendingAfter, List.foldl_append]

theorem orderly_pending (q : Request) :
    ∀ (t : List Event), Orderly (some q) t →
      ∀ (mid : List Event) (e2 : Event) (rest : List Event),
        t = mid ++ e2 :: rest → e2.req.isMutating = true →
        ∃ d ∈ mid, d.req = q ∧ d.isDone = true := by
  intro t
  induction t with
  | nil => intro _ mid e2 rest h; simp at h
  | cons e t ih =>
    intro ho mid e2 rest h hm
    simp only [Orderly] at ho
    cases mid with
    | nil =>
      simp only [List.nil_append, List.cons.injEq] at h
      have := ho.1 (by simp)
      rw [h.1, hm] at this
      cases this
    | cons x mid1 =>
      simp only [List.cons_append, List.cons.injEq] at h
      obtain ⟨rfl, ht⟩ := h
      by_cases hd : e.req = q ∧ e.isDone = true
      · exact ⟨e, List.mem_cons_self _ _, hd.1, hd.2⟩
      · have ho2 := ho.2
        simp only [nextPending, hd, if_false] at ho2
        obtain ⟨d, hdm, hdq⟩ := ih ho2 mid1 e2 rest ht hm
        exact ⟨d, List.mem_cons_of_mem _ hdm, hdq⟩

theorem orderly_waits : ∀ (t : List Event) (p : Option Request), Orderly p t →
    WaitsBeforeMutating Request.polledWith t := by
  intro t
  induction t with
  | nil => intro p _ pre e post q h; simp at h
  | cons x t ih =>
    intro p ho pre e post q h hq
    simp only [Orderly] at ho
    cases pre with
    | nil =>
      simp only [List.nil_append, List.cons.injEq] at h
      obtain ⟨rfl, rfl⟩ := h
      have hmut := awaited_polled_mutating x q hq
      have hp : p = none := by
        by_contra hne
        have := ho.1 hne
        rw [hmut] at this
        cases this
      subst hp
      have ho2 := ho.2
      simp only [nextPending, hq] at ho2
      exact orderly_pending q t ho2
    | cons y pre1 =>
      simp only [List.cons_append, List.cons.injEq] at h
      obtain ⟨rfl, ht⟩ := h
      exact ih _ ho.2 pre1 e post q ht hq

theorem polls_orderly (q : Request) (hq : q.isMutating = false) (ops : List Operation)
    (hp : ∀ o ∈ ops, o.Status ≠ "DONE") :
    Orderly (some q) (polls q ops) ∧ pendingAfter (some q) (polls q ops) = some q := by
  induction ops with
  | nil => exact ⟨trivial, rfl⟩
  | cons o ops ih =>
    have hne : o.Status ≠ "DONE" := hp o (List.mem_cons_self _ _)
    have := ih (fun x hx => hp x (List.mem_cons_of_mem _ hx))
    have hnext : nextPending (some q) ⟨q, .operation o⟩ = some q := by
      simp [nextPending, Event.isDone, hne]
    refine ⟨?_, ?_⟩
    · simp only [polls, List.map_cons, Orderly, hnext]
      exact ⟨fun _ => hq, this.1⟩
    · simp only [polls, List.map_cons, pendingAfter, List.foldl_cons, hnext]
      exact this.2

theorem WaitShape.wait_orderly {q : Request} {r : Outcome Unit} {t : List Event}
    (h : WaitShape q r t) (hq : q.isMutating = false) :
    Orderly (some q) t ∧ (r = .ok () → pendingAfter (some q) t = none) := by
  cases h with
  | done os last hp hl =>
    have := polls_orderly q hq os hp
    refine ⟨?_, fun _ => ?_⟩
    · rw [orderly_append, this.2]
      exact ⟨this.1, fun _ => hq, trivial⟩
    · rw [pendingAfter_append, this.2]
      simp [pendingAfter, nextPending, Event.isDone, hl]
  | failed os e hp =>
    have := polls_orderly q hq os hp
    refine ⟨?_, fun h => by cases h⟩
    rw [orderly_append, this.2]
    exact ⟨this.1, fun _ => hq, trivial⟩
  | running os hp =>
    exact ⟨(polls_orderly q hq os hp).1, fun h => by cases h⟩

theorem CleanupShape.cleanup_orderly {project keep : String} {images : List MachineImage}
    {r : Outcome Unit} {t : List Event} (h : CleanupShape project keep images r t) :
    Orderly none t ∧ pendingAfter none t = none := by
  induction h with
  | nil => exact ⟨trivial, rfl⟩
  | kept image rest res t hk hr ih => exact ih
  | deleted image rest op res t hk hr ih =>
    refine ⟨⟨fun h => absurd rfl h, ?_⟩, ?_⟩
    · simpa [nextPending, Event.awaited, Request.polledWith] using ih.1
    · simpa [pendingAfter, nextPending, Event.awaited, Request.polledWith] using ih.2
  | failed image rest e hk =>
    exact ⟨⟨fun h => absurd rfl h, trivial⟩, rfl⟩

theorem SnapshotShape.snapshot_orderly {g : Globals} {r : Outcome Unit} {t : List Event}
    (h : SnapshotShape g r t) :
    Orderly none t ∧ (r = .ok () → pendingAfter none t = none) := by
  cases h with
  | insertFailed img e => exact ⟨⟨fun h => absurd rfl h, trivial⟩, fun h => by cases h⟩
  | waiting img op res t1 hw hres =>
    refine ⟨⟨fun h => absurd rfl h, ?_⟩, fun h => absurd h hres⟩
    simpa [nextPending, Event.awaited, Request.polledWith] using (hw.wait_orderly rfl).1
  | listFailed img op t1 e hw =>
    refine ⟨?_, fun h => by cases h⟩
    have h1 := hw.wait_orderly rfl
    rw [List.cons_append]
    refine ⟨fun h => absurd rfl h, ?_⟩
    simp only [nextPending, Event.awaited, Request.polledWith]
    rw [orderly_append, h1.2 rfl]
    exact ⟨h1.1, fun h => absurd rfl h, trivial⟩
  | cleaned img op t1 images res t2 hw hc =>
    have h1 := hw.wait_orderly rfl
    have h2 := hc.cleanup_orderly
    refine ⟨?_, fun _ => ?_⟩
    · rw [List.cons_append]
      refine ⟨fun h => absurd rfl h, ?_⟩
      simp only [nextPending, Event.awaited, Request.polledWith]
      rw [orderly_append, h1.2 rfl]
      refine ⟨h1.1, fun h => absurd rfl h, ?_⟩
      simpa [nextPending, Event.awaited, Request.polledWith] using h2.1
    · rw [List.cons_append]
      simp only [pendingAfter, List.foldl_cons, nextPending, Event.awaited, Request.polledWith,
        List.foldl_append]
      have h3 := h1.2 rfl
      simp only [pendingAfter] at h3
      rw [h3]
      simpa [pendingAfter, nextPending, Event.awaited, Request.polledWith] using h2.2

theorem RemoveShape.remove_orderly {g : Globals} {r : Outcome Unit} {t : List Event}
    (h : RemoveShape g r t) : Orderly none t := by
  have hstop : ∀ (inst : Instance) (op : Operation) (rest : List Event),
      Orderly (some (.zoneOperationsGet g.projectID g.zone op.Name)) rest →
      Orderly none (⟨.instancesList g.projectID g.zone, .instances [inst]⟩ ::
        ⟨.instancesStop g.projectID g.zone inst.Name, .operation op⟩ :: rest) := by
    intro inst op rest hrest
    refine ⟨fun h => absurd rfl h, ?_⟩
    simp only [nextPending, Event.awaited]
    refine ⟨fun h => absurd rfl h, ?_⟩
    simpa [nextPending, Event.awaited, Request.polledWith] using hrest
  cases h with
  | listFailed e => exact ⟨fun h => absurd rfl h, trivial⟩
  | refused items msg hn => exact ⟨fun h => absurd rfl h, trivial⟩
  | stopFailed inst e =>
    exact ⟨fun h => absurd rfl h, fun h => absurd rfl h, trivial⟩
  | stopping inst op res t1 hw hres => exact hstop inst op t1 (hw.wait_orderly rfl).1
  | snapshotting inst op t1 res t2 hw hs hres =>
    have h1 := hw.wait_orderly rfl
    rw [List.cons_append, List.cons_append]
    apply hstop
    rw [orderly_append, h1.2 rfl]
    exact ⟨h1.1, hs.snapshot_orderly.1⟩
  | deleteFailed inst op t1 t2 e hw hs =>
    have h1 := hw.wait_orderly rfl
    have h2 := hs.snapshot_orderly
    simp only [List.cons_append, List.append_assoc]
    apply hstop
    rw [orderly_append, h1.2 rfl, orderly_append, h2.2 rfl]
    exact ⟨h1.1, h2.1, fun h => absurd rfl h, trivial⟩
  | deleting inst op t1 t2 op2 res t3 hw hs hw3 =>
    have h1 := hw.wait_orderly rfl
    have h2 := hs.snapshot_orderly
    have h3 := hw3.wait_orderly rfl
    simp only [List.cons_append, List.append_assoc]
    apply hstop
    rw [orderly_append, h1.2 rfl, orderly_append, h2.2 rfl]
    refine ⟨h1.1, h2.1, fun h => absurd rfl h, ?_⟩
    simpa [nextPending, Event.awaited, Request.polledWith] using h3.1

end WaitLemmas
section CreateLemmas

variable {σ : Type}

theorem create_list_error (env : Env σ) (g : Globals) (fuel : Nat) (s : σ) (e : String)
    (h : (env.instancesList g.projectID g.zone s).1 = .error e) :
    createInstanceFromMachineImage env g fuel s =
      ⟨.error (.api e), (env.instancesList g.projectID g.zone s).2,
        [⟨.instancesList g.projectID g.zone, .failure e⟩], []⟩ := by
  unfold createInstanceFromMachineImage
  rw [call_error _ _ _ _ _ _ h]

theorem create_running (env : Env σ) (g : Globals) (fuel : Nat) (s s1 : σ)
    (items : List Instance)
    (h : env.instancesList g.projectID g.zone s = (.ok items, s1)) (h0 : items.length ≠ 0) :
    createInstanceFromMachineImage env g fuel s =
      ⟨(listInstances env g s1).res, (listInstances env g s1).st,
        ⟨.instancesList g.projectID g.zone, .instances items⟩ :: (listInstances env g s1).trace,
        .text "すでに起動中です\n" :: (listInstances env g s1).out⟩ := by
  have h1 : (env.instancesList g.projectID g.zone s).1 = .ok items := by rw [h]
  have h2 : (env.instancesList g.projectID g.zone s).2 = s1 := by rw [h]
  unfold createInstanceFromMachineImage
  rw [call_ok _ _ _ _ _ _ h1, h2]
  simp only [h0, ne_eq, not_false_eq_true, if_true]
  simp [Println, emit_bind]

theorem create_images_error (env : Env σ) (g : Globals) (fuel : Nat) (s s1 : σ) (e : String)
    (h1 : env.instancesList g.projectID g.zone s = (.ok [], s1))
    (h2 : (env.machineImagesList g.projectID s1).1 = .error e) :
    createInstanceFromMachineImage env g fuel s =
      ⟨.error (.api e), (env.machineImagesList g.projectID s1).2,
        [⟨.instancesList g.projectID g.zone, .instances []⟩,
         ⟨.machineImagesList g.projectID, .failure e⟩], []⟩ := by
  have h1a : (env.instancesList g.projectID g.zone s).1 = .ok [] := by rw [h1]
  have h1b : (env.instancesList g.projectID g.zone s).2 = s1 := by rw [h1]
  unfold createInstanceFromMachineImage
  rw [call_ok _ _ _ _ _ _ h1a, h1b]
  simp only [List.length_nil, ne_eq, not_true_eq_false, if_false]
  rw [call_error _ _ _ _ _ _ h2]

theorem create_no_image (env : Env σ) (g : Globals) (fuel : Nat) (s s1 s2 : σ)
    (images : List MachineImage)
    (h1 : env.instancesList g.projectID g.zone s = (.ok [], s1))
    (h2 : env.machineImagesList g.projectID s1 = (.ok images, s2))
    (h0 : images.length = 0) :
    createInstanceFromMachineImage env g fuel s =
      ⟨.error (.new "マシンイメージが存在しないのでインスタンスを作成できません"), s2,
        [⟨.instancesList g.projectID g.zone, .instances []⟩,
         ⟨.machineImagesList g.projectID, .machineImages images⟩], []⟩ := by
  have h1a : (env.instancesList g.projectID g.zone s).1 = .ok [] := by rw [h1]
  have h1b : (env.instancesList g.projectID g.zone s).2 = s1 := by rw [h1]
  have h2a : (env.machineImagesList g.projectID s1).1 = .ok images := by rw [h2]
  have h2b : (env.machineImagesList g.projectID s1).2 = s2 := by rw [h2]
  unfold createInstanceFromMachineImage
  rw [call_ok _ _ _ _ _ _ h1a, h1b]
  simp only [List.length_nil, ne_eq, not_true_eq_false, if_false]
  rw [call_ok _ _ _ _ _ _ h2a, h2b]
  simp [h0, fail]

theorem create_many_images (env : Env σ) (g : Globals) (fuel : Nat) (s s1 s2 : σ)
    (images : List MachineImage)
    (h1 : env.instancesList g.projectID g.zone s = (.ok [], s1))
    (h2 : env.machineImagesList g.projectID s1 = (.ok images, s2))
    (h0 : 2 ≤ images.length) :
    createInstanceFromMachineImage env g fuel s =
      ⟨.error (.new "マシンイメージが複数存在するので、使用するマシンイメージを特定できません"), s2,
        [⟨.instancesList g.projectID g.zone, .instances []⟩,
         ⟨.machineImagesList g.projectID, .machineImages images⟩], []⟩ := by
  have h1a : (env.instancesList g.projectID g.zone s).1 = .ok [] := by rw [h1]
  have h1b : (env.instancesList g.projectID g.zone s).2 = s1 := by rw [h1]
  have h2a : (env.machineImagesList g.projectID s1).1 = .ok images := by rw [h2]
  have h2b : (env.machineImagesList g.projectID s1).2 = s2 := by rw [h2]
  have h0a : images.length ≠ 0 := by omega
  have h0b : images.length ≠ 1 := by omega
  unfold createInstanceFromMachineImage
  rw [call_ok _ _ _ _ _ _ h1a, h1b]
  simp only [List.length_nil, ne_eq, not_true_eq_false, if_false]
  rw [call_ok _ _ _ _ _ _ h2a, h2b]
  simp only [h0a, h0b, dite_false, ne_eq, not_false_eq_true, if_true]
  simp [fail]

theorem create_orderly (env : Env σ) (g : Globals) (fuel : Nat) (s : σ) :
    Orderly none (createInstanceFromMachineImage env g fuel s).trace := by
  cases hl : env.instancesList g.projectID g.zone s with
  | mk r1 s1 =>
    cases r1 with
    | error e =>
      rw [create_list_error env g fuel s e (by rw [hl])]
      exact ⟨fun h => absurd rfl h, trivial⟩
    | ok items =>
      by_cases h0 : items.length = 0
      · have hnil : items = [] := List.length_eq_zero.mp h0
        subst hnil
        cases hm : env.machineImagesList g.projectID s1 with
        | mk r2 s2 =>
          cases r2 with
          | error e =>
            rw [create_images_error env g fuel s s1 e hl (by rw [hm])]
            exact ⟨fun h => absurd rfl h, fun h => absurd rfl h, trivial⟩
          | ok images =>
            rcases Nat.lt_trichotomy images.length 1 with hlt | heq | hgt
            · rw [create_no_image env g fuel s s1 s2 images hl hm (by omega)]
              exact ⟨fun h => absurd rfl h, fun h => absurd rfl h, trivial⟩
            · obtain ⟨img, rfl⟩ := List.length_eq_one.mp heq
              cases h3 : (env.instancesInsert g.projectID g.zone
                ⟨"instance-" ++ (Time.mk (env.now s2).1.1 (env.now s2).1.2
                  env.localZone).Format "2006-01-02-15-04-05", "",
                  "global/machineImages/" ++ img.Name⟩ (env.now s2).2).1 with
              | error e =>
                rw [create_single_error env g fuel s s1 s2 img e hl hm h3]
                exact ⟨fun h => absurd rfl h, fun h => absurd rfl h, fun h => absurd rfl h,
                  trivial⟩
              | ok op =>
                rw [create_single_ok env g fuel s s1 s2 img op hl hm h3]
                refine ⟨fun h => absurd rfl h, fun h => absurd rfl h, fun h => absurd rfl h, ?_⟩
                have := (waitZoneOperation_shape env g op fuel
                  (env.instancesInsert g.projectID g.zone
                    ⟨"instance-" ++ (Time.mk (env.now s2).1.1 (env.now s2).1.2
                      env.localZone).Format "2006-01-02-15-04-05", "",
                      "global/machineImages/" ++ img.Name⟩ (env.now s2).2).2).wait_orderly rfl
                simpa [nextPending, Event.awaited, Request.polledWith] using this.1
            · rw [create_many_images env g fuel s s1 s2 images hl hm (by omega)]
              exact ⟨fun h => absurd rfl h, fun h => absurd rfl h, trivial⟩
      · rw [create_running env g fuel s s1 items hl h0]
        simp only [listInstances_trace]
        exact ⟨fun h => absurd rfl h, fun h => absurd rfl h, trivial⟩

end CreateLemmas

section TimeLemmas

theorem doy_bounds_aux (a b c d e f g : Int)
    (ha0 : 0 ≤ a) (ha1 : a ≤ 146096)
    (hb : 0 ≤ a - 365 * b - e + f - g ∧ a - 365 * b - e + f - g ≤ 364)
    (hc : 0 ≤ b - 4 * c ∧ b - 4 * c ≤ 3)
    (hd : 0 ≤ b - 100 * d ∧ b - 100 * d ≤ 99)
    (he : 0 ≤ a - 1460 * e ∧ a - 1460 * e ≤ 1459)
    (hf : 0 ≤ a - 36524 * f ∧ a - 36524 * f ≤ 36523)
    (hg : 0 ≤ a - 146096 * g ∧ a - 146096 * g ≤ 146095) :
    0 ≤ a - 365 * b - c + d ∧ a - 365 * b - c + d ≤ 365 ∧ 0 ≤ b ∧ b ≤ 399 ∧
      (a - 365 * b - c + d = 365 → (b - 4 * c = 3 ∧ (b - 100 * d ≠ 99 ∨ b = 399))) := by
  have hf4 : 0 ≤ f ∧ f ≤ 4 := by omega
  have hg1 : 0 ≤ g ∧ g ≤ 1 := by omega
  have hd3 : 0 ≤ d ∧ d ≤ 3 := by omega
  obtain ⟨hf0, hf4⟩ := hf4
  obtain ⟨hg0, hg1⟩ := hg1
  obtain ⟨hd0, hd3⟩ := hd3
  interval_cases f <;> interval_cases g <;> interval_cases d <;> omega

theorem civilFromDays_spec (z : Int) :
    daysFromCivil (civilFromDays z).1 (civilFromDays z).2.1 (civilFromDays z).2.2 = z ∧
    1 ≤ (civilFromDays z).2.1 ∧ (civilFromDays z).2.1 ≤ 12 ∧
    1 ≤ (civilFromDays z).2.2 ∧ (civilFromDays z).2.2 ≤ 31 := by
  have h := doy_bounds_aux ((z + 719468) - (z + 719468) / 146097 * 146097)
    ((((z + 719468) - (z + 719468) / 146097 * 146097) -
      ((z + 719468) - (z + 719468) / 146097 * 146097) / 1460 +
      ((z + 719468) - (z + 719468) / 146097 * 146097) / 36524 -
      ((z + 719468) - (z + 719468) / 146097 * 146097) / 146096) / 365)
    (((((z + 719468) - (z + 719468) / 146097 * 146097) -
      ((z + 719468) - (z + 719468) / 146097 * 146097) / 1460 +
      ((z + 719468) - (z + 719468) / 146097 * 146097) / 36524 -
      ((z + 719468) - (z + 719468) / 146097 * 146097) / 146096) / 365) / 4)
    (((((z + 719468) - (z + 719468) / 146097 * 146097) -
      ((z + 719468) - (z + 719468) / 146097 * 146097) / 1460 +
      ((z + 719468) - (z + 719468) / 146097 * 146097) / 36524 -
      ((z + 719468) - (z + 719468) / 146097 * 146097) / 146096) / 365) / 100)
    (((z + 719468) - (z + 719468) / 146097 * 146097) / 1460)
    (((z + 719468) - (z + 719468) / 146097 * 146097) / 36524)
    (((z + 719468) - (z + 719468) / 146097 * 146097) / 146096)
    (by omega) (by omega) (by omega) (by omega) (by omega) (by omega) (by omega) (by omega)
  simp only [civilFromDays, daysFromCivil]
  generalize hdoe : (z + 719468) - (z + 719468) / 146097 * 146097 = doe at h ⊢
  generalize hyoe : (doe - doe / 1460 + doe / 36524 - doe / 146096) / 365 = yoe at h ⊢
  have hdoe0 : 0 ≤ doe ∧ doe ≤ 146096 := by omega
  obtain ⟨h1, h2, h3, h4, _⟩ := h
  generalize hdoy : doe - (365 * yoe + yoe / 4 - yoe / 100) = doy at h1 h2 ⊢
  have hdoy1 : 0 ≤ doy ∧ doy ≤ 365 := by omega
  generalize hmp : (5 * doy + 2) / 153 = mp
  have hmp1 : 0 ≤ mp ∧ mp ≤ 11 := by omega
  by_cases hlt : mp < 10
  · simp only [hlt, if_true]
    have hm2 : ¬ (mp + 3 ≤ 2) := by omega
    have hm3 : mp + 3 > 2 := by omega
    simp only [hm2, hm3, if_false, if_true]
    refine ⟨?_, by omega, by omega, by omega, by omega⟩
    have e1 : (yoe + (z + 719468) / 146097 * 400) / 400 = (z + 719468) / 146097 := by omega
    have e2 : yoe + (z + 719468) / 146097 * 400 - (z + 719468) / 146097 * 400 = yoe := by omega
    have e3 : mp + 3 - 3 = mp := by omega
    rw [e1, e2, e3]
    omega
  · simp only [hlt, if_false]
    have hm2 : mp - 9 ≤ 2 := by omega
    have hm3 : ¬ (mp - 9 > 2) := by omega
    simp only [hm2, hm3, if_false, if_true]
    refine ⟨?_, by omega, by omega, by omega, by omega⟩
    have e0 : yoe + (z + 719468) / 146097 * 400 + 1 - 1 = yoe + (z + 719468) / 146097 * 400 := by
      omega
    have e1 : (yoe + (z + 719468) / 146097 * 400) / 400 = (z + 719468) / 146097 := by omega
    have e2 : yoe + (z + 719468) / 146097 * 400 - (z + 719468) / 146097 * 400 = yoe := by omega
    have e3 : mp - 9 + 9 = mp := by omega
    rw [e0, e1, e2, e3]
    omega

theorem civilOfUnix_spec (x : Int) :
    (civilOfUnix x).unix = x ∧
    1 ≤ (civilOfUnix x).month ∧ (civilOfUnix x).month ≤ 12 ∧
    1 ≤ (civilOfUnix x).day ∧ (civilOfUnix x).day ≤ 31 ∧
    0 ≤ (civilOfUnix x).hour ∧ (civilOfUnix x).hour ≤ 23 ∧
    0 ≤ (civilOfUnix x).minute ∧ (civilOfUnix x).minute ≤ 59 ∧
    0 ≤ (civilOfUnix x).second ∧ (civilOfUnix x).second ≤ 59 := by
  have h := civilFromDays_spec (x / 86400)
  simp only [civilOfUnix, Civil.unix]
  refine ⟨?_, h.2.1, h.2.2.1, h.2.2.2.1, h.2.2.2.2, by omega, by omega, by omega, by omega,
    by omega, by omega⟩
  rw [h.1]
  omega

end TimeLemmas
section ParseLemmas

theorem digitChar_props : ∀ k, k < 10 →
    (Char.ofNat (48 + k)).isDigit = true ∧ digitVal (Char.ofNat (48 + k)) = k := by
  decide

theorem digitChar_isDigit (n : Nat) : (digitChar n).isDigit = true :=
  (digitChar_props (n % 10) (Nat.mod_lt _ (by decide))).1

theorem digitVal_digitChar (n : Nat) : digitVal (digitChar n) = n % 10 :=
  (digitChar_props (n % 10) (Nat.mod_lt _ (by decide))).2

theorem getnum_twoDigits (n : Nat) (hn : n ≤ 99) (fixed : Bool) (r : List Char) :
    getnum (twoDigits n ++ r) fixed = some (n, r) := by
  simp only [twoDigits, List.cons_append, List.nil_append, getnum, digitChar_isDigit,
    digitVal_digitChar]
  simp
  omega

theorem getField_twoDigits (c : Char) (n : Nat) (hn : n ≤ 99) (fixed : Bool) (r : List Char) :
    getField c fixed (c :: (twoDigits n ++ r)) = some (n, r) := by
  simp [getField, expectChar, getnum_twoDigits n hn]

theorem getYear_digits (y : Nat) (hy : y ≤ 9999) (r : List Char) :
    getYear (digitChar (y / 1000) :: digitChar (y / 100) :: digitChar (y / 10) ::
      digitChar y :: r) = some (y, r) := by
  simp only [getYear, digitChar_isDigit, digitVal_digitChar]
  simp
  omega

theorem scanDate_render (y m d : Nat) (hy : y ≤ 9999) (hm1 : 1 ≤ m) (hm : m ≤ 12) (hd : d ≤ 99)
    (r : List Char) :
    scanDate (digitChar (y / 1000) :: digitChar (y / 100) :: digitChar (y / 10) ::
      digitChar y :: '-' :: (twoDigits m ++ '-' :: (twoDigits d ++ r))) = some ((y, m, d), r) := by
  have h3 : ¬ (m = 0 ∨ 12 < m) := by omega
  simp [scanDate, getYear_digits y hy, getField_twoDigits '-' m (by omega),
    getField_twoDigits '-' d hd, h3]

theorem scanClock_render (h m s : Nat) (hh : h ≤ 23) (hm : m ≤ 59) (hs : s ≤ 59)
    (r : List Char) :
    scanClock ('T' :: (twoDigits h ++ ':' :: (twoDigits m ++ ':' :: (twoDigits s ++ r)))) =
      some ((h, m, s), r) := by
  have h1 : ¬ (24 ≤ h) := by omega
  have h2 : ¬ (60 ≤ m) := by omega
  have h3 : ¬ (60 ≤ s) := by omega
  simp [scanClock, getField_twoDigits 'T' h (by omega), getField_twoDigits ':' m (by omega),
    getField_twoDigits ':' s (by omega), h1, h2, h3]

theorem renderOffset_head (o : Option (Bool × Nat × Nat)) :
    ∃ c r, renderOffset o = c :: r ∧ c.isDigit = false ∧ c ≠ '.' ∧ c ≠ ',' := by
  cases o with
  | none => exact ⟨'Z', [], rfl, by decide, by decide, by decide⟩
  | some o =>
    obtain ⟨neg, hh, mm⟩ := o
    cases neg
    · exact ⟨'+', _, rfl, by decide, by decide, by decide⟩
    · exact ⟨'-', _, rfl, by decide, by decide, by decide⟩

theorem takeWhile_digits (ds : List Nat) (c : Char) (r : List Char) (hc : c.isDigit = false) :
    (ds.map digitChar ++ c :: r).takeWhile Char.isDigit = ds.map digitChar ∧
    (ds.map digitChar ++ c :: r).dropWhile Char.isDigit = c :: r := by
  induction ds with
  | nil => simp [List.takeWhile, List.dropWhile, hc]
  | cons d ds ih =>
    simp [List.takeWhile, List.dropWhile, digitChar_isDigit, ih.1, ih.2]

theorem digitsVal_map (ds : List Nat) (hds : ∀ d ∈ ds, d ≤ 9) :
    ∀ acc : Nat, (ds.map digitChar).foldl (fun n c => n * 10 + digitVal c) acc =
      ds.foldl (fun n d => n * 10 + d) acc := by
  induction ds with
  | nil => intro acc; rfl
  | cons d ds ih =>
    intro acc
    have hd : d ≤ 9 := hds d (List.mem_cons_self _ _)
    have : d % 10 = d := Nat.mod_eq_of_lt (by omega)
    simp only [List.map_cons, List.foldl_cons, digitVal_digitChar, this]
    exact ih (fun x hx => hds x (List.mem_cons_of_mem _ hx)) _

theorem getFraction_render (ds : List Nat) (hds : ∀ d ∈ ds, d ≤ 9)
    (o : Option (Bool × Nat × Nat)) :
    getFraction (renderSecfrac ds ++ renderOffset o) =
      ((ds.take 9).foldl (fun n d => n * 10 + d) 0 * 10 ^ (9 - (ds.take 9).length),
        renderOffset o) := by
  obtain ⟨c, r, hr, hc, hdot, hcomma⟩ := renderOffset_head o
  cases ds with
  | nil =>
    rw [hr]
    simp only [renderSecfrac, List.nil_append, List.take_nil, List.foldl_nil, List.length_nil]
    cases r with
    | nil => simp [getFraction]
    | cons x r => simp [getFraction, hdot, hcomma]
  | cons d ds =>
    have htw := takeWhile_digits (d :: ds) c r hc
    rw [hr]
    simp only [renderSecfrac, List.map_cons, List.cons_append] at htw ⊢
    simp only [getFraction, digitChar_isDigit, htw.1, htw.2]
    have hval := digitsVal_map ((d :: ds).take 9)
      (fun x hx => hds x (List.mem_of_mem_take hx)) 0
    simp only [digitsVal, ← List.map_cons, ← List.map_take, hval, List.length_map]
    simp

theorem getZone_render (o : Option (Bool × Nat × Nat))
    (ho : ∀ x ∈ o, x.2.1 ≤ 23 ∧ x.2.2 ≤ 59) :
    getZone (renderOffset o) = some (secondsEast o, []) := by
  cases o with
  | none => rfl
  | some x =>
    obtain ⟨neg, hh, mm⟩ := x
    have hx : hh ≤ 23 ∧ mm ≤ 59 := ho (neg, hh, mm) rfl
    have h1 := getnum_twoDigits hh (by omega) true []
    have h2 := getnum_twoDigits mm (by omega) true []
    simp only [twoDigits, List.cons_append, List.nil_append] at h1 h2
    have h3 : ¬ (hh > 24 ∨ mm > 60) := by omega
    cases neg
    · simp [renderOffset, twoDigits, getZone, h1, h2, h3, secondsEast]
    · simp [renderOffset, twoDigits, getZone, h1, h2, h3, secondsEast]

theorem daysIn_le (m y : Nat) : daysIn m y ≤ 31 := by
  unfold daysIn
  split
  · split <;> omega
  · split <;> omega

theorem scanRFC3339_render (ts : Timestamp) (hv : ts.valid) :
    scanRFC3339 ts.render.data = some (ts.civil, ts.nanos, ts.offsetSeconds) := by
  obtain ⟨hy, hm1, hm, hd1, hd, hh, hmi, hs, hfrac, hoff⟩ := hv
  have hd99 : ts.day ≤ 99 := by
    have := daysIn_le ts.month ts.year
    omega
  have hday : ¬ (ts.day < 1 ∨ daysIn ts.month ts.year < ts.day) := by omega
  simp only [scanRFC3339, Timestamp.render,
    scanDate_render ts.year ts.month ts.day hy hm1 hm hd99,
    scanClock_render ts.hour ts.minute ts.second hh hmi hs,
    getFraction_render ts.secfrac hfrac ts.offset, getZone_render ts.offset hoff,
    Option.bind_eq_bind, Option.some_bind]
  simp only [List.append_assoc] at *
  simp [hday, Timestamp.civil, Timestamp.nanos, Timestamp.offsetSeconds]
  omega

theorem parseRFC3339_render (ts : Timestamp) (hv : ts.valid) :
    parseRFC3339 ts.render = .ok ⟨ts.unix, ts.nanos, FixedZone "" ts.offsetSeconds⟩ := by
  simp [parseRFC3339, scanRFC3339_render ts hv, Timestamp.unix]

end ParseLemmas
section FormatLemmas

variable {σ : Type}

theorem natDigits_lt (f n : Nat) (acc : List Char) (h : n < 10) :
    natDigits (f + 1) n acc = digitChar n :: acc := by
  simp [natDigits, h]

theorem natDigits_ge (f n : Nat) (acc : List Char) (h : 10 ≤ n) :
    natDigits (f + 1) n acc = natDigits f (n / 10) (digitChar n :: acc) := by
  have : ¬ n < 10 := by omega
  simp [natDigits, this]

theorem digitChar_zero (n : Nat) (h : n = 0) : digitChar n = '0' := by
  subst h
  rfl

theorem appendInt_two (x : Int) (h0 : 0 ≤ x) (h1 : x ≤ 99) :
    appendInt x 2 = twoDigits x.toNat := by
  obtain ⟨n, rfl⟩ := Int.eq_ofNat_of_zero_le h0
  have hn : n ≤ 99 := by omega
  have hneg : ¬ ((n : Int) < 0) := by omega
  simp only [appendInt, Int.natAbs_ofNat, hneg, if_false, Int.toNat_ofNat, twoDigits]
  by_cases h : n < 10
  · rw [natDigits_lt n n [] h]
    simp [digitChar_zero (n / 10) (by omega)]
  · obtain ⟨k, rfl⟩ : ∃ k, n = k + 1 := ⟨n - 1, by omega⟩
    rw [natDigits_ge (k + 1) (k + 1) [] (by omega), natDigits_lt k ((k + 1) / 10) _ (by omega)]
    simp

theorem appendInt_year (y : Int) (h0 : 0 ≤ y) (h1 : y ≤ 9999) :
    appendInt y 4 = [digitChar (y.toNat / 1000), digitChar (y.toNat / 100),
      digitChar (y.toNat / 10), digitChar y.toNat] := by
  obtain ⟨n, rfl⟩ := Int.eq_ofNat_of_zero_le h0
  have hn : n ≤ 9999 := by omega
  have hneg : ¬ ((n : Int) < 0) := by omega
  simp only [appendInt, Int.natAbs_ofNat, hneg, if_false, Int.toNat_ofNat]
  by_cases h : n < 10
  · rw [natDigits_lt n n [] h]
    simp [digitChar_zero (n / 10) (by omega), digitChar_zero (n / 100) (by omega),
      digitChar_zero (n / 1000) (by omega), List.replicate]
  · obtain ⟨k, rfl⟩ : ∃ k, n = k + 1 := ⟨n - 1, by omega⟩
    rw [natDigits_ge (k + 1) (k + 1) [] (by omega)]
    by_cases h2 : (k + 1) / 10 < 10
    · rw [natDigits_lt k ((k + 1) / 10) _ h2]
      simp [digitChar_zero ((k + 1) / 100) (by omega), digitChar_zero ((k + 1) / 1000) (by omega),
        List.replicate]
    · obtain ⟨j, rfl⟩ : ∃ j, k = j + 1 := ⟨k - 1, by omega⟩
      rw [natDigits_ge (j + 1) ((j + 1 + 1) / 10) _ (by omega)]
      by_cases h3 : (j + 1 + 1) / 10 / 10 < 10
      · rw [natDigits_lt j ((j + 1 + 1) / 10 / 10) _ h3]
        have e1 : (j + 1 + 1) / 10 / 10 = (j + 1 + 1) / 100 := by omega
        simp [digitChar_zero ((j + 1 + 1) / 1000) (by omega), List.replicate, e1]
      · obtain ⟨i, rfl⟩ : ∃ i, j = i + 1 := ⟨j - 1, by omega⟩
        rw [natDigits_ge (i + 1) ((i + 1 + 1 + 1) / 10 / 10) _ (by omega),
          natDigits_lt i ((i + 1 + 1 + 1) / 10 / 10 / 10) _ (by omega)]
        have e1 : (i + 1 + 1 + 1) / 10 / 10 = (i + 1 + 1 + 1) / 100 := by omega
        have e2 : (i + 1 + 1 + 1) / 10 / 10 / 10 = (i + 1 + 1 + 1) / 1000 := by omega
        have e3 : (i + 1 + 1 + 1) / 100 / 10 = (i + 1 + 1 + 1) / 1000 := by omega
        simp [e1, e2, e3]

theorem string_in_jst (t : Time) :
    (t.In jst).String = tokyoText (civilOfUnix (t.sec + 32400)) t.nsec := by
  have h := civilOfUnix_spec (t.sec + 32400)
  obtain ⟨_, hm1, hm2, hd1, hd2, hh1, hh2, hmi1, hmi2, hs1, hs2⟩ := h
  have hfmt : (t.In jst).String =
      ⟨appendInt (civilOfUnix (t.sec + 32400)).year 4 ++ '-' ::
        (appendInt (civilOfUnix (t.sec + 32400)).month 2 ++ '-' ::
        (appendInt (civilOfUnix (t.sec + 32400)).day 2 ++ ' ' ::
        (appendInt (civilOfUnix (t.sec + 32400)).hour 2 ++ ':' ::
        (appendInt (civilOfUnix (t.sec + 32400)).minute 2 ++ ':' ::
        (appendInt (civilOfUnix (t.sec + 32400)).second 2 ++
        (appendNano t.nsec ++ " +0900 Asia/Tokyo".data))))))⟩ := rfl
  rw [hfmt, appendInt_two _ (by omega) (by omega), appendInt_two _ (by omega) (by omega),
    appendInt_two _ hh1 (by omega), appendInt_two _ hmi1 (by omega),
    appendInt_two _ hs1 (by omega)]
  rfl

end FormatLemmas
section YearLemmas

theorem daysFromCivil_bounds (y m d : Int) (hy0 : 0 ≤ y) (hy : y ≤ 9999) (hm1 : 1 ≤ m)
    (hm : m ≤ 12) (hd1 : 1 ≤ d) (hd : d ≤ 31) :
    -719528 ≤ daysFromCivil y m d ∧ daysFromCivil y m d ≤ 2932927 := by
  simp only [daysFromCivil]
  by_cases h2 : m ≤ 2
  · have h3 : ¬ (m > 2) := by omega
    simp only [h2, h3, if_true, if_false]
    omega
  · have h3 : m > 2 := by omega
    simp only [h2, h3, if_true, if_false]
    omega

theorem civilFromDays_year_bounds (z : Int) (h0 : -719529 ≤ z) (h1 : z ≤ 2932929) :
    -1 ≤ (civilFromDays z).1 ∧ (civilFromDays z).1 ≤ 10000 := by
  have hb := doy_bounds_aux ((z + 719468) - (z + 719468) / 146097 * 146097)
    ((((z + 719468) - (z + 719468) / 146097 * 146097) -
      ((z + 719468) - (z + 719468) / 146097 * 146097) / 1460 +
      ((z + 719468) - (z + 719468) / 146097 * 146097) / 36524 -
      ((z + 719468) - (z + 719468) / 146097 * 146097) / 146096) / 365)
    (((((z + 719468) - (z + 719468) / 146097 * 146097) -
      ((z + 719468) - (z + 719468) / 146097 * 146097) / 1460 +
      ((z + 719468) - (z + 719468) / 146097 * 146097) / 36524 -
      ((z + 719468) - (z + 719468) / 146097 * 146097) / 146096) / 365) / 4)
    (((((z + 719468) - (z + 719468) / 146097 * 146097) -
      ((z + 719468) - (z + 719468) / 146097 * 146097) / 1460 +
      ((z + 719468) - (z + 719468) / 146097 * 146097) / 36524 -
      ((z + 719468) - (z + 719468) / 146097 * 146097) / 146096) / 365) / 100)
    (((z + 719468) - (z + 719468) / 146097 * 146097) / 1460)
    (((z + 719468) - (z + 719468) / 146097 * 146097) / 36524)
    (((z + 719468) - (z + 719468) / 146097 * 146097) / 146096)
    (by omega) (by omega) (by omega) (by omega) (by omega) (by omega) (by omega) (by omega)
  simp only [civilFromDays]
  generalize hdoe : (z + 719468) - (z + 719468) / 146097 * 146097 = doe at hb ⊢
  generalize hyoe : (doe - doe / 1460 + doe / 36524 - doe / 146096) / 365 = yoe at hb ⊢
  obtain ⟨_, _, hy0, hy1, _⟩ := hb
  have hera : -1 ≤ (z + 719468) / 146097 ∧ (z + 719468) / 146097 ≤ 24 := by omega
  have hlow : (z + 719468) / 146097 = -1 → yoe = 399 := by
    intro he
    have hd : 146036 ≤ doe := by omega
    omega
  split <;> omega

end YearLemmas
section FractionLemmas

theorem range_reverse_succ (f : Nat → Char) (j : Nat) :
    (List.range (j + 1 + 1)).reverse.map f =
      (List.range (j + 1)).reverse.map (fun i => f (i + 1)) ++ [f 0] := by
  rw [List.range_succ_eq_map (j + 1)]
  simp [List.map_reverse, Function.comp_def]

theorem natDigits_spec : ∀ (k fuel n : Nat) (acc : List Char), n < 10 ^ (k + 1) → k < fuel →
    ∃ j, j ≤ k ∧ n < 10 ^ (j + 1) ∧ (j = 0 ∨ 10 ^ j ≤ n) ∧
      natDigits fuel n acc =
        (List.range (j + 1)).reverse.map (fun i => digitChar (n / 10 ^ i)) ++ acc := by
  intro k
  induction k with
  | zero =>
    intro fuel n acc hn hf
    obtain ⟨f, rfl⟩ : ∃ f, fuel = f + 1 := ⟨fuel - 1, by omega⟩
    refine ⟨0, le_refl _, hn, Or.inl rfl, ?_⟩
    rw [natDigits_lt f n acc (by simpa using hn)]
    simp [List.range_succ]
  | succ k ih =>
    intro fuel n acc hn hf
    obtain ⟨f, rfl⟩ : ∃ f, fuel = f + 1 := ⟨fuel - 1, by omega⟩
    by_cases h10 : n < 10
    · refine ⟨0, Nat.zero_le _, by simpa using h10, Or.inl rfl, ?_⟩
      rw [natDigits_lt f n acc h10]
      simp [List.range_succ]
    · rw [natDigits_ge f n acc (by omega)]
      have hn10 : n / 10 < 10 ^ (k + 1) := by
        rw [Nat.div_lt_iff_lt_mul (by decide)]
        calc n < 10 ^ (k + 1 + 1) := hn
          _ = 10 ^ (k + 1) * 10 := pow_succ 10 (k + 1)
      obtain ⟨j, hj, hlt, hmin, heq⟩ := ih f (n / 10) (digitChar n :: acc) hn10 (by omega)
      refine ⟨j + 1, by omega, ?_, Or.inr ?_, ?_⟩
      · have := (Nat.div_lt_iff_lt_mul (by decide : 0 < 10)).mp hlt
        calc n < 10 ^ (j + 1) * 10 := this
          _ = 10 ^ (j + 1 + 1) := (pow_succ 10 (j + 1)).symm
      · rcases hmin with rfl | hmin
        · simpa using Nat.le_of_not_lt h10
        · have := (Nat.le_div_iff_mul_le (by decide : 0 < 10)).mp hmin
          calc 10 ^ (j + 1) = 10 ^ j * 10 := pow_succ 10 j
            _ ≤ n := this
      · rw [heq, range_reverse_succ]
        have hdiv : ∀ i, n / 10 / 10 ^ i = n / 10 ^ (i + 1) := by
          intro i
          rw [Nat.div_div_eq_div_mul, pow_succ, Nat.mul_comm]
        simp [hdiv]

theorem pad_digits (n j : Nat) (hn : n < 10 ^ (j + 1)) :
    ∀ m, List.replicate m '0' ++
        (List.range (j + 1)).reverse.map (fun i => digitChar (n / 10 ^ i)) =
      (List.range (j + 1 + m)).reverse.map (fun i => digitChar (n / 10 ^ i)) := by
  intro m
  induction m with
  | zero => simp
  | succ m ih =>
    have hz : n / 10 ^ (j + 1 + m) = 0 := by
      apply Nat.div_eq_of_lt
      calc n < 10 ^ (j + 1) := hn
        _ ≤ 10 ^ (j + 1 + m) := Nat.pow_le_pow_right (by decide) (by omega)
    have hr : (List.range (j + 1 + (m + 1))).reverse =
        (j + 1 + m) :: (List.range (j + 1 + m)).reverse := by
      rw [show j + 1 + (m + 1) = (j + 1 + m) + 1 from rfl, List.range_succ]
      simp
    rw [hr, List.map_cons, ← ih, hz]
    simp [List.replicate_succ, digitChar_zero]

theorem appendInt_nat (n w : Nat) (hn : n < 10 ^ w) :
    appendInt (n : Int) w = (List.range w).reverse.map (fun i => digitChar (n / 10 ^ i)) ∨
      w = 0 := by
  by_cases hw : w = 0
  · exact Or.inr hw
  left
  have hn1 : n < 10 ^ (n + 1) := by
    have := Nat.lt_pow_self (by decide : 1 < 10) (n + 1)
    omega
  obtain ⟨j, _, hlt, hmin, heq⟩ := natDigits_spec n (n + 1) n [] hn1 (by omega)
  have hjw : j + 1 ≤ w := by
    rcases hmin with rfl | hmin
    · omega
    · by_contra hc
      have h1 : w ≤ j := by omega
      have h2 : 10 ^ w ≤ 10 ^ j := Nat.pow_le_pow_right (by decide) h1
      omega
  have hneg : ¬ ((n : Int) < 0) := by omega
  simp only [appendInt, Int.natAbs_ofNat, hneg, if_false, heq, List.append_nil, List.length_map,
    List.length_reverse, List.length_range]
  rw [pad_digits n j hlt (w - (j + 1))]
  congr 3
  omega

theorem digitsVal_cons (c : Char) (l : List Char) :
    digitsVal (c :: l) = digitVal c * 10 ^ l.length + digitsVal l := by
  have key : ∀ (l : List Char) (a : Nat),
      l.foldl (fun n c => n * 10 + digitVal c) a =
        a * 10 ^ l.length + l.foldl (fun n c => n * 10 + digitVal c) 0 := by
    intro l
    induction l with
    | nil => intro a; simp
    | cons x l ih =>
      intro a
      simp only [List.foldl_cons, List.length_cons]
      rw [ih (a * 10 + digitVal x), ih (0 * 10 + digitVal x), pow_succ]
      ring
  simp only [digitsVal, List.foldl_cons]
  rw [key l (0 * 10 + digitVal c)]
  simp

theorem digitsVal_append_zeros (l : List Char) (z : Nat) :
    digitsVal (l ++ List.replicate z '0') = digitsVal l * 10 ^ z := by
  induction l with
  | nil =>
    induction z with
    | zero => rfl
    | succ z ih =>
      simp only [List.nil_append] at ih ⊢
      rw [List.replicate_succ, digitsVal_cons, ih]
      simp [digitsVal, digitVal]
  | cons c l ih =>
    rw [List.cons_append, digitsVal_cons, ih, digitsVal_cons, List.length_append,
      List.length_replicate, pow_add]
    ring

theorem digitsVal_padded (n : Nat) :
    ∀ w, digitsVal ((List.range w).reverse.map (fun i => digitChar (n / 10 ^ i))) =
      n % 10 ^ w := by
  intro w
  induction w with
  | zero => simp [digitsVal, Nat.mod_one]
  | succ w ih =>
    have hr : (List.range (w + 1)).reverse = w :: (List.range w).reverse := by
      rw [List.range_succ]
      simp
    rw [hr, List.map_cons, digitsVal_cons, ih, digitVal_digitChar]
    simp only [List.length_map, List.length_reverse, List.length_range]
    rw [Nat.mod_pow_succ]
    ring

theorem dropWhile_zeros (r : List Char) :
    ∃ z, r = List.replicate z '0' ++ r.dropWhile (fun c => c == '0') ∧
      (r.dropWhile (fun c => c == '0')).head? ≠ some '0' := by
  induction r with
  | nil => exact ⟨0, rfl, by simp⟩
  | cons c r ih =>
    by_cases hc : c = '0'
    · subst hc
      obtain ⟨z, hz, hh⟩ := ih
      refine ⟨z + 1, ?_, ?_⟩
      · simp only [List.dropWhile_cons, beq_self_eq_true, if_true, List.replicate_succ,
          List.cons_append]
        rw [← hz]
      · simpa [List.dropWhile_cons] using hh
    · refine ⟨0, ?_, ?_⟩
      · simp [List.dropWhile_cons, hc]
      · simp [List.dropWhile_cons, hc]

theorem trimZeros_spec (ds : List Char) :
    ∃ z, ds = trimZeros ds ++ List.replicate z '0' ∧ (trimZeros ds).getLast? ≠ some '0' := by
  obtain ⟨z, hz, hh⟩ := dropWhile_zeros ds.reverse
  refine ⟨z, ?_, ?_⟩
  · have := congrArg List.reverse hz
    simpa [trimZeros] using this
  · simpa [trimZeros, List.getLast?_reverse] using hh

theorem appendNano_spec (n : Nat) (h0 : n ≠ 0) (hn : n < 10 ^ 9) :
    ∃ ds : List Char, appendNano n = '.' :: ds ∧ ds ≠ [] ∧ ds.length ≤ 9 ∧
      (∀ c ∈ ds, c.isDigit = true) ∧ ds.getLast? ≠ some '0' ∧
      digitsVal ds * 10 ^ (9 - ds.length) = n := by
  have hnine := (appendInt_nat n 9 hn).resolve_right (by decide)
  obtain ⟨z, hz, hlast⟩ := trimZeros_spec (appendInt (n : Int) 9)
  have hlen : (appendInt (n : Int) 9).length = 9 := by rw [hnine]; simp
  have hval : digitsVal (appendInt (n : Int) 9) = n := by
    rw [hnine, digitsVal_padded, Nat.mod_eq_of_lt hn]
  have hlen2 : (trimZeros (appendInt (n : Int) 9)).length + z = 9 := by
    have := congrArg List.length hz
    simpa [hlen] using this.symm
  have hval2 : digitsVal (trimZeros (appendInt (n : Int) 9)) * 10 ^ z = n := by
    rw [← digitsVal_append_zeros, ← hz, hval]
  refine ⟨trimZeros (appendInt (n : Int) 9), by simp [appendNano, h0], ?_, by omega, ?_, hlast,
    ?_⟩
  · intro he
    rw [he] at hval2
    simp [digitsVal] at hval2
    exact h0 hval2.symm
  · intro c hc
    have hmem : c ∈ appendInt (n : Int) 9 := by
      rw [hz]
      exact List.mem_append_left _ hc
    rw [hnine] at hmem
    simp only [List.mem_map] at hmem
    obtain ⟨i, _, rfl⟩ := hmem
    exact digitChar_isDigit _
  · have : 9 - (trimZeros (appendInt (n : Int) 9)).length = z := by omega
    rw [this]
    exact hval2

theorem foldl_digits_lt (ds : List Nat) (hds : ∀ d ∈ ds, d ≤ 9) :
    ∀ a : Nat, ds.foldl (fun n d => n * 10 + d) a + 1 ≤ (a + 1) * 10 ^ ds.length := by
  induction ds with
  | nil => intro a; simp
  | cons d ds ih =>
    intro a
    have hd : d ≤ 9 := hds d (List.mem_cons_self _ _)
    have := ih (fun x hx => hds x (List.mem_cons_of_mem _ hx)) (a * 10 + d)
    simp only [List.foldl_cons, List.length_cons]
    calc ds.foldl (fun n d => n * 10 + d) (a * 10 + d) + 1
        ≤ (a * 10 + d + 1) * 10 ^ ds.length := this
      _ ≤ ((a + 1) * 10) * 10 ^ ds.length := Nat.mul_le_mul_right _ (by omega)
      _ = (a + 1) * 10 ^ (ds.length + 1) := by rw [pow_succ]; ring

theorem nanos_lt (ts : Timestamp) (hv : ts.valid) : ts.nanos < 10 ^ 9 := by
  obtain ⟨_, _, _, _, _, _, _, _, hfrac, _⟩ := hv
  have h1 := foldl_digits_lt (ts.secfrac.take 9)
    (fun d hd => hfrac d (List.mem_of_mem_take hd)) 0
  have hlen : (ts.secfrac.take 9).length ≤ 9 := by simp
  simp only [Timestamp.nanos]
  generalize (ts.secfrac.take 9).foldl (fun n d => n * 10 + d) 0 = v at h1 ⊢
  generalize (ts.secfrac.take 9).length = l at h1 hlen ⊢
  have h2 : (v + 1) * 10 ^ (9 - l) ≤ 10 ^ l * 10 ^ (9 - l) :=
    Nat.mul_le_mul_right _ (by simpa using h1)
  have h3 : 10 ^ l * 10 ^ (9 - l) = 10 ^ 9 := by
    rw [← pow_add]
    congr 1
    omega
  have h4 : 0 < 10 ^ (9 - l) := Nat.pow_pos (by decide)
  have h5 : (v + 1) * 10 ^ (9 - l) = v * 10 ^ (9 - l) + 10 ^ (9 - l) := by ring
  omega

end FractionLemmas
section DisplayLemmas

variable {σ : Type}

theorem secondsEast_bounds (o : Option (Bool × Nat × Nat))
    (ho : ∀ x ∈ o, x.2.1 ≤ 23 ∧ x.2.2 ≤ 59) :
    -86340 ≤ secondsEast o ∧ secondsEast o ≤ 86340 := by
  cases o with
  | none => simp [secondsEast]
  | some x =>
    obtain ⟨neg, hh, mm⟩ := x
    have hx : hh ≤ 23 ∧ mm ≤ 59 := ho (neg, hh, mm) rfl
    cases neg
    · simp only [secondsEast, Bool.false_eq_true, if_false]
      push_cast
      omega
    · simp only [secondsEast, if_true]
      push_cast
      omega

theorem shown_year_bounds (ts : Timestamp) (hv : ts.valid) :
    -1 ≤ (civilOfUnix (ts.unix + 32400)).year ∧ (civilOfUnix (ts.unix + 32400)).year ≤ 10000 := by
  obtain ⟨hy, hm1, hm, hd1, hd, hh, hmi, hs, _, hoff⟩ := hv
  have hd31 := daysIn_le ts.month ts.year
  have hD := daysFromCivil_bounds (ts.year : Int) ts.month ts.day (by omega) (by omega)
    (by omega) (by omega) (by omega) (by omega)
  have hO := secondsEast_bounds ts.offset hoff
  apply civilFromDays_year_bounds
  · simp only [Timestamp.unix, Timestamp.civil, Civil.unix, Timestamp.offsetSeconds]
    omega
  · simp only [Timestamp.unix, Timestamp.civil, Civil.unix, Timestamp.offsetSeconds]
    omega

theorem parseRFC3339_error (value : String) (h : ∀ t, parseRFC3339 value ≠ .ok t) :
    parseRFC3339 value = .error (.parse RFC3339 value) := by
  unfold parseRFC3339 at h ⊢
  cases hsc : scanRFC3339 value.data with
  | none => rfl
  | some x =>
    obtain ⟨c, nsec, offset⟩ := x
    rw [hsc] at h
    exact absurd rfl (h _)

theorem printInstances_cons_ok (inst : Instance) (rest : List Instance) (t : Time)
    (ht : parseRFC3339 inst.LastStartTimestamp = .ok t) (s : σ) :
    printInstances (inst :: rest) s =
      ⟨(printInstances rest s).res, (printInstances rest s).st, (printInstances rest s).trace,
        instanceLine inst (t.In jst).String :: (printInstances rest s).out⟩ := by
  conv_lhs => unfold printInstances
  rw [ht]
  simp only [emit_bind, instanceLine]

theorem printInstances_split (shown rest : List Instance)
    (hshown : ∀ i ∈ shown, ∃ t, parseRFC3339 i.LastStartTimestamp = .ok t) (s : σ) :
    (printInstances (shown ++ rest) s).out =
        shown.filterMap shownLine ++ (printInstances rest s).out ∧
      (printInstances (shown ++ rest) s).res = (printInstances rest s).res ∧
      (shown.filterMap shownLine).length = shown.length := by
  induction shown with
  | nil => exact ⟨rfl, rfl, rfl⟩
  | cons inst shown ih =>
    obtain ⟨t, ht⟩ := hshown inst (List.mem_cons_self _ _)
    have := ih (fun i hi => hshown i (List.mem_cons_of_mem _ hi))
    have hline : shownLine inst = some (instanceLine inst (t.In jst).String) := by
      simp [shownLine, ht]
    rw [List.cons_append, printInstances_cons_ok inst (shown ++ rest) t ht s]
    simp only [this.1, this.2.1, List.filterMap_cons, hline, List.cons_append,
      List.length_cons, this.2.2]
    exact ⟨trivial, trivial, trivial⟩

theorem printInstances_rejected (bad : Instance) (more : List Instance)
    (h : ∀ t, parseRFC3339 bad.LastStartTimestamp ≠ .ok t) (s : σ) :
    (printInstances (bad :: more) s).out = [] ∧
      (printInstances (bad :: more) s).res =
        .error (.parse RFC3339 bad.LastStartTimestamp) := by
  conv_lhs => unfold printInstances
  conv_rhs => lhs; unfold printInstances
  rw [parseRFC3339_error _ h]
  exact ⟨rfl, rfl⟩

theorem shownLine_render (inst : Instance) (ts : Timestamp) (hv : ts.valid)
    (h : inst.LastStartTimestamp = ts.render) :
    shownLine inst =
      some (instanceLine inst (tokyoText (civilOfUnix (ts.unix + 32400)) ts.nanos)) := by
  simp [shownLine, h, parseRFC3339_render ts hv, string_in_jst]

end DisplayLemmas
/-! ## The claims -/

section Claims

variable {σ : Type}

/-- C5. Over the answers the status lookup gives to the polls of a run,
`waitZoneOperation` and `waitGlobalOperation` are the reference poller: result
and queries agree with it. When the first answer that is a query error or has
status DONE is answer `k` (counted from 0, within the budget of polls), the
loop makes exactly the `k + 1` status queries for the operation's name that
got answers `0` to `k`, and no other request; it returns the error of answer
`k` unchanged when that is a query error, and success when it is an operation,
whose status is then DONE and whose error payload plays no part. Every list
of answers is the answers of some provider: the scripted one. -/
theorem poller_refines_reference (env : Env σ) (g : Globals) (ops : Operation) (fuel : Nat)
    (s : σ) (k : Nat) :
    (((waitZoneOperation env g ops fuel s).res, (waitZoneOperation env g ops fuel s).trace) =
        referencePoller (.zoneOperationsGet g.projectID g.zone ops.Name)
          (pollResponses env (env.zoneOperationsGet g.projectID g.zone ops.Name) fuel s) ∧
      ((waitGlobalOperation env g ops fuel s).res, (waitGlobalOperation env g ops fuel s).trace) =
        referencePoller (.globalOperationsGet g.projectID ops.Name)
          (pollResponses env (env.globalOperationsGet g.projectID ops.Name) fuel s)) ∧
    (firstTerminal (pollResponses env (env.zoneOperationsGet g.projectID g.zone ops.Name) fuel s)
        = some k →
      (waitZoneOperation env g ops fuel s).trace =
        ((pollResponses env (env.zoneOperationsGet g.projectID g.zone ops.Name) fuel s).take
          (k + 1)).map
          (fun r => ⟨.zoneOperationsGet g.projectID g.zone ops.Name, toResponse .operation r⟩) ∧
      (waitZoneOperation env g ops fuel s).trace.length = k + 1 ∧
      (∀ e ∈ (waitZoneOperation env g ops fuel s).trace, e.req.isMutating = false) ∧
      (∀ err,
        (pollResponses env (env.zoneOperationsGet g.projectID g.zone ops.Name) fuel s)[k]? =
          some (.error err) →
        (waitZoneOperation env g ops fuel s).res = .error (.api err)) ∧
      (∀ op,
        (pollResponses env (env.zoneOperationsGet g.projectID g.zone ops.Name) fuel s)[k]? =
          some (.ok op) →
        op.Status = "DONE" ∧ (waitZoneOperation env g ops fuel s).res = .ok ())) ∧
    (firstTerminal (pollResponses env (env.globalOperationsGet g.projectID ops.Name) fuel s)
        = some k →
      (waitGlobalOperation env g ops fuel s).trace =
        ((pollResponses env (env.globalOperationsGet g.projectID ops.Name) fuel s).take
          (k + 1)).map
          (fun r => ⟨.globalOperationsGet g.projectID ops.Name, toResponse .operation r⟩) ∧
      (waitGlobalOperation env g ops fuel s).trace.length = k + 1 ∧
      (∀ e ∈ (waitGlobalOperation env g ops fuel s).trace, e.req.isMutating = false) ∧
      (∀ err,
        (pollResponses env (env.globalOperationsGet g.projectID ops.Name) fuel s)[k]? =
          some (.error err) →
        (waitGlobalOperation env g ops fuel s).res = .error (.api err)) ∧
      (∀ op,
        (pollResponses env (env.globalOperationsGet g.projectID ops.Name) fuel s)[k]? =
          some (.ok op) →
        op.Status = "DONE" ∧ (waitGlobalOperation env g ops fuel s).res = .ok ())) ∧
    (∀ (rs : List (Except String Operation)) (p z n : String),
      pollResponses scriptEnv (scriptEnv.zoneOperationsGet p z n) rs.length rs = rs ∧
      pollResponses scriptEnv (scriptEnv.globalOperationsGet p n) rs.length rs = rs) := by
  have hz := waitZoneOperation_reference env g ops fuel s
  have hg := waitGlobalOperation_reference env g ops fuel s
  refine ⟨⟨hz, hg⟩, ?_, ?_, fun rs p z n =>
    ⟨pollResponses_script _ (fun _ => rfl) rs, pollResponses_script _ (fun _ => rfl) rs⟩⟩
  · intro hk
    have hf := referencePoller_first (.zoneOperationsGet g.projectID g.zone ops.Name) _ k hk
    have hlt := firstTerminal_lt _ k hk
    simp only [Prod.ext_iff] at hz
    rw [hz.1, hz.2]
    refine ⟨hf.1, ?_, ?_, hf.2.1, hf.2.2⟩
    · rw [hf.1]
      simp
      omega
    · rw [hf.1]
      intro e he
      simp only [List.mem_map] at he
      obtain ⟨r, _, rfl⟩ := he
      rfl
  · intro hk
    have hf := referencePoller_first (.globalOperationsGet g.projectID ops.Name) _ k hk
    have hlt := firstTerminal_lt _ k hk
    simp only [Prod.ext_iff] at hg
    rw [hg.1, hg.2]
    refine ⟨hf.1, ?_, ?_, hf.2.1, hf.2.2⟩
    · rw [hf.1]
      simp
      omega
    · rw [hf.1]
      intro e he
      simp only [List.mem_map] at he
      obtain ⟨r, _, rfl⟩ := he
      rfl

/-- Witness for C5 on the simulated provider with one RUNNING answer before
DONE: the first terminal answer is answer 1 and two queries are made; an
operation that is already DONE (latency 0) takes one query. -/
theorem poller_refines_reference_witness :
    firstTerminal (pollResponses (cloudEnv 1)
        ((cloudEnv 1).zoneOperationsGet demoGlobals.projectID demoGlobals.zone "operation-0") 5
        ⟨[demoInstance], [], 1704067200, 1, 1, 10⟩) = some 1 ∧
      (waitZoneOperation (cloudEnv 1) demoGlobals ⟨"operation-0", "RUNNING", 0, none⟩ 5
        ⟨[demoInstance], [], 1704067200, 1, 1, 10⟩).trace.length = 1 + 1 ∧
      (waitGlobalOperation (cloudEnv 0) demoGlobals ⟨"operation-0", "RUNNING", 0, some "failed"⟩ 5
        ⟨[demoInstance], [], 1704067200, 1, 0, 10⟩).trace.length = 0 + 1 ∧
      (waitGlobalOperation (cloudEnv 0) demoGlobals ⟨"operation-0", "RUNNING", 0, some "failed"⟩ 5
        ⟨[demoInstance], [], 1704067200, 1, 0, 10⟩).st.instances = [demoInstance] :=
  ⟨by decide,
   ((poller_refines_reference (cloudEnv 1) demoGlobals ⟨"operation-0", "RUNNING", 0, none⟩ 5
      ⟨[demoInstance], [], 1704067200, 1, 1, 10⟩ 1).2.1 (by decide)).2.1,
   ((poller_refines_reference (cloudEnv 0) demoGlobals ⟨"operation-0", "RUNNING", 0, some "failed"⟩
      5 ⟨[demoInstance], [], 1704067200, 1, 0, 10⟩ 0).2.2.1 (by decide)).2.1,
   by decide⟩

/-- C1. When the provider answers the instance list of
`createMachineImageAndRemoveInstance` with `items`: with no instance the call
returns an error, with two or more it returns an error with another message,
and in both cases the list request is the only request of the run (no stop,
no insert, no delete) and nothing is printed; with exactly one instance the
next request is the stop of that instance; so a stop request is issued only
when there is exactly one instance. -/
theorem remove_by_instance_count (env : Env σ) (g : Globals) (fuel : Nat) (s s1 : σ)
    (items : List Instance)
    (h : env.instancesList g.projectID g.zone s = (.ok items, s1)) :
    (items.length = 0 →
      createMachineImageAndRemoveInstance env g fuel s =
        ⟨.error (.new "起動しているインスタンスはありません"), s1,
          [⟨.instancesList g.projectID g.zone, .instances items⟩], []⟩) ∧
    (2 ≤ items.length →
      createMachineImageAndRemoveInstance env g fuel s =
        ⟨.error (.new "複数台のインスタンスが起動しています。複数台インスタンスの操作は対応していません。コンソールから削除してください"),
          s1, [⟨.instancesList g.projectID g.zone, .instances items⟩], []⟩) ∧
    ("起動しているインスタンスはありません" ≠
      "複数台のインスタンスが起動しています。複数台インスタンスの操作は対応していません。コンソールから削除してください") ∧
    (∀ inst, items = [inst] →
      ∃ rest, (createMachineImageAndRemoveInstance env g fuel s).trace =
        ⟨.instancesList g.projectID g.zone, .instances items⟩ ::
        ⟨.instancesStop g.projectID g.zone inst.Name,
          toResponse .operation (env.instancesStop g.projectID g.zone inst.Name s1).1⟩ :: rest) ∧
    ((∃ e ∈ (createMachineImageAndRemoveInstance env g fuel s).trace,
        ∃ p z n, e.req = .instancesStop p z n) ↔ items.length = 1) := by
  have h1 : (env.instancesList g.projectID g.zone s).1 = .ok items := by rw [h]
  have h2 : (env.instancesList g.projectID g.zone s).2 = s1 := by rw [h]
  have hnone : items.length = 0 →
      createMachineImageAndRemoveInstance env g fuel s =
        ⟨.error (.new "起動しているインスタンスはありません"), s1,
          [⟨.instancesList g.projectID g.zone, .instances items⟩], []⟩ := by
    intro h0
    unfold createMachineImageAndRemoveInstance
    rw [call_ok _ _ _ _ _ _ h1, h2]
    simp [h0, fail]
  have hmany : 2 ≤ items.length →
      createMachineImageAndRemoveInstance env g fuel s =
        ⟨.error (.new "複数台のインスタンスが起動しています。複数台インスタンスの操作は対応していません。コンソールから削除してください"),
          s1, [⟨.instancesList g.projectID g.zone, .instances items⟩], []⟩ := by
    intro h0
    have h0a : items.length ≠ 0 := by omega
    have h0b : items.length ≠ 1 := by omega
    unfold createMachineImageAndRemoveInstance
    rw [call_ok _ _ _ _ _ _ h1, h2]
    simp only [h0a, h0b, dite_false, ne_eq, not_false_eq_true, if_true]
    simp [fail]
  have hone : ∀ inst, items = [inst] →
      ∃ rest, (createMachineImageAndRemoveInstance env g fuel s).trace =
        ⟨.instancesList g.projectID g.zone, .instances items⟩ ::
        ⟨.instancesStop g.projectID g.zone inst.Name,
          toResponse .operation (env.instancesStop g.projectID g.zone inst.Name s1).1⟩ :: rest := by
    intro inst hi
    subst hi
    unfold createMachineImageAndRemoveInstance
    rw [call_ok _ _ _ _ _ _ h1, h2]
    simp only [List.length_singleton, one_ne_zero, dite_false, ne_eq, not_true_eq_false, if_false]
    simp only [List.get_eq_getElem, List.getElem_cons_zero]
    cases hs : (env.instancesStop g.projectID g.zone inst.Name s1).1 with
    | error e =>
      rw [call_error _ _ _ _ _ _ hs]
      exact ⟨[], by simp [toResponse]⟩
    | ok op =>
      rw [call_ok _ _ _ _ _ _ hs]
      exact ⟨_, by simp [toResponse]; rfl⟩
  refine ⟨hnone, hmany, by decide, hone, ?_, ?_⟩
  · rintro ⟨e, he, p, z, n, hreq⟩
    by_contra hne
    rcases Nat.lt_or_ge items.length 1 with hlt | hge
    · rw [hnone (by omega)] at he
      simp at he
      subst he
      simp at hreq
    · rw [hmany (by omega)] at he
      simp at he
      subst he
      simp at hreq
  · intro hlen
    obtain ⟨inst, hi⟩ := List.length_eq_one.mp hlen
    obtain ⟨rest, hrest⟩ := hone inst hi
    rw [hrest]
    exact ⟨_, List.mem_cons_of_mem _ (List.mem_cons_self _ _), _, _, _, rfl⟩

/-- Witness for C1: on the simulated project with one instance the list is
answered with that instance and the stop request follows. -/
theorem remove_by_instance_count_witness :
    (cloudEnv 1).instancesList demoGlobals.projectID demoGlobals.zone
        (scenario [demoInstance] ["a", "b", "c"] 100) =
      (.ok [demoInstance], scenario [demoInstance] ["a", "b", "c"] 99) ∧
    ((∃ e ∈ (createMachineImageAndRemoveInstance (cloudEnv 1) demoGlobals 5
          (scenario [demoInstance] ["a", "b", "c"] 100)).trace,
        ∃ p z n, e.req = .instancesStop p z n) ↔ [demoInstance].length = 1) :=
  ⟨rfl,
   (remove_by_instance_count (cloudEnv 1) demoGlobals 5
      (scenario [demoInstance] ["a", "b", "c"] 100) (scenario [demoInstance] ["a", "b", "c"] 99)
      [demoInstance] rfl).2.2.2.2⟩

/-- C2, as amended. When the provider answers the instance list of
`createInstanceFromMachineImage` with one or more instances, the run prints
the line `すでに起動中です` and then is `listInstances` run from the state
after that answer: same result, same final state, and its output after the
line; its requests are the two instance lists and nothing else (no
machine-image list, no insert). With no instance, the next request is the
machine-image list. -/
theorem create_when_instances_exist (env : Env σ) (g : Globals) (fuel : Nat) (s s1 : σ)
    (items : List Instance)
    (h : env.instancesList g.projectID g.zone s = (.ok items, s1)) :
    (items.length ≠ 0 →
      (createInstanceFromMachineImage env g fuel s).res = (listInstances env g s1).res ∧
      (createInstanceFromMachineImage env g fuel s).st = (listInstances env g s1).st ∧
      (createInstanceFromMachineImage env g fuel s).out =
        .text "すでに起動中です\n" :: (listInstances env g s1).out ∧
      (createInstanceFromMachineImage env g fuel s).trace =
        ⟨.instancesList g.projectID g.zone, .instances items⟩ :: (listInstances env g s1).trace ∧
      (∀ e ∈ (createInstanceFromMachineImage env g fuel s).trace,
        e.req = .instancesList g.projectID g.zone)) ∧
    (items.length = 0 →
      ∃ rest, (createInstanceFromMachineImage env g fuel s).trace =
        ⟨.instancesList g.projectID g.zone, .instances items⟩ ::
        ⟨.machineImagesList g.projectID,
          toResponse .machineImages (env.machineImagesList g.projectID s1).1⟩ :: rest) := by
  have h1 : (env.instancesList g.projectID g.zone s).1 = .ok items := by rw [h]
  have h2 : (env.instancesList g.projectID g.zone s).2 = s1 := by rw [h]
  refine ⟨?_, ?_⟩
  · intro h0
    have hrun := create_running env g fuel s s1 items h h0
    rw [hrun]
    refine ⟨rfl, rfl, rfl, rfl, ?_⟩
    intro e he
    simp only [listInstances_trace, List.mem_cons, List.mem_singleton, List.not_mem_nil,
      or_false] at he
    rcases he with rfl | rfl <;> rfl
  · intro h0
    unfold createInstanceFromMachineImage
    rw [call_ok _ _ _ _ _ _ h1, h2]
    simp only [h0, ne_eq, not_true_eq_false, if_false]
    cases hm : (env.machineImagesList g.projectID s1).1 with
    | error e =>
      rw [call_error _ _ _ _ _ _ hm]
      exact ⟨[], by simp [toResponse]⟩
    | ok images =>
      rw [call_ok _ _ _ _ _ _ hm]
      exact ⟨_, by simp [toResponse]; rfl⟩

/-- Witness for C2, as amended: the simulated project with one instance. -/
theorem create_when_instances_exist_witness :
    (cloudEnv 1).instancesList demoGlobals.projectID demoGlobals.zone
        (scenario [demoInstance] ["golden"] 100) =
      (.ok [demoInstance], scenario [demoInstance] ["golden"] 99) ∧
    [demoInstance].length ≠ 0 ∧
    (createInstanceFromMachineImage (cloudEnv 1) demoGlobals 5
        (scenario [demoInstance] ["golden"] 100)).out =
      .text "すでに起動中です\n" ::
        (listInstances (cloudEnv 1) demoGlobals (scenario [demoInstance] ["golden"] 99)).out :=
  ⟨rfl, by decide,
   ((create_when_instances_exist (cloudEnv 1) demoGlobals 5
      (scenario [demoInstance] ["golden"] 100) (scenario [demoInstance] ["golden"] 99)
      [demoInstance] rfl).1 (by decide)).2.2.1⟩

/-- Counterexample to C2 as stated: with one instance running, the output of
`createInstanceFromMachineImage` is not the output of `listInstances` run
afterwards; it has the line `すでに起動中です` before it. -/
theorem create_output_is_not_list_output :
    (cloudEnv 1).instancesList demoGlobals.projectID demoGlobals.zone
        (scenario [demoInstance] ["golden"] 100) =
      (.ok [demoInstance], scenario [demoInstance] ["golden"] 99) ∧
    (createInstanceFromMachineImage (cloudEnv 1) demoGlobals 5
        (scenario [demoInstance] ["golden"] 100)).out ≠
      (listInstances (cloudEnv 1) demoGlobals (scenario [demoInstance] ["golden"] 99)).out ∧
    (createInstanceFromMachineImage (cloudEnv 1) demoGlobals 5
        (scenario [demoInstance] ["golden"] 100)).out =
      [.text "すでに起動中です\n",
       .text "Name: instance-1, LastStart: 2024-01-01 09:00:00 +0900 Asia/Tokyo\n"] :=
  ⟨rfl, by decide, by decide⟩

/-- C3. When `createInstanceFromMachineImage` has seen no instance and the
provider answers its machine-image list with `images`: with no image it
returns an error, with two or more it returns an error with another message,
and in both cases the two list requests are all the requests of the run; an
instance insert is issued if and only if there is exactly one image. -/
theorem create_by_image_count (env : Env σ) (g : Globals) (fuel : Nat) (s s1 s2 : σ)
    (images : List MachineImage)
    (h1 : env.instancesList g.projectID g.zone s = (.ok [], s1))
    (h2 : env.machineImagesList g.projectID s1 = (.ok images, s2)) :
    (images.length = 0 →
      createInstanceFromMachineImage env g fuel s =
        ⟨.error (.new "マシンイメージが存在しないのでインスタンスを作成できません"), s2,
          [⟨.instancesList g.projectID g.zone, .instances []⟩,
           ⟨.machineImagesList g.projectID, .machineImages images⟩], []⟩) ∧
    (2 ≤ images.length →
      createInstanceFromMachineImage env g fuel s =
        ⟨.error (.new "マシンイメージが複数存在するので、使用するマシンイメージを特定できません"), s2,
          [⟨.instancesList g.projectID g.zone, .instances []⟩,
           ⟨.machineImagesList g.projectID, .machineImages images⟩], []⟩) ∧
    ("マシンイメージが存在しないのでインスタンスを作成できません" ≠
      "マシンイメージが複数存在するので、使用するマシンイメージを特定できません") ∧
    ((∃ e ∈ (createInstanceFromMachineImage env g fuel s).trace,
        ∃ p z i, e.req = .instancesInsert p z i) ↔ images.length = 1) := by
  have hnone := create_no_image env g fuel s s1 s2 images h1 h2
  have hmany := create_many_images env g fuel s s1 s2 images h1 h2
  refine ⟨hnone, hmany, by decide, ?_, ?_⟩
  · rintro ⟨e, he, p, z, i, hreq⟩
    by_contra hne
    rcases Nat.lt_or_ge images.length 1 with hlt | hge
    · rw [hnone (by omega)] at he
      simp at he
      rcases he with rfl | rfl <;> simp at hreq
    · rw [hmany (by omega)] at he
      simp at he
      rcases he with rfl | rfl <;> simp at hreq
  · intro hlen
    obtain ⟨img, hi⟩ := List.length_eq_one.mp hlen
    subst hi
    cases h3 : (env.instancesInsert g.projectID g.zone
      ⟨"instance-" ++ (Time.mk (env.now s2).1.1 (env.now s2).1.2 env.localZone).Format
        "2006-01-02-15-04-05", "", "global/machineImages/" ++ img.Name⟩ (env.now s2).2).1 with
    | error e =>
      rw [create_single_error env g fuel s s1 s2 img e h1 h2 h3]
      exact ⟨_, List.mem_cons_of_mem _ (List.mem_cons_of_mem _ (List.mem_cons_self _ _)),
        _, _, _, rfl⟩
    | ok op =>
      rw [create_single_ok env g fuel s s1 s2 img op h1 h2 h3]
      exact ⟨_, List.mem_cons_of_mem _ (List.mem_cons_of_mem _ (List.mem_cons_self _ _)),
        _, _, _, rfl⟩

/-- Witness for C3: the simulated project with no instance and two images. -/
theorem create_by_image_count_witness :
    (cloudEnv 1).instancesList demoGlobals.projectID demoGlobals.zone
        (scenario [] ["a", "b"] 100) = (.ok [], scenario [] ["a", "b"] 99) ∧
    (cloudEnv 1).machineImagesList demoGlobals.projectID (scenario [] ["a", "b"] 99) =
      (.ok [plainImage "a", plainImage "b"], scenario [] ["a", "b"] 98) ∧
    ((∃ e ∈ (createInstanceFromMachineImage (cloudEnv 1) demoGlobals 5
          (scenario [] ["a", "b"] 100)).trace,
        ∃ p z i, e.req = .instancesInsert p z i) ↔ [plainImage "a", plainImage "b"].length = 1) :=
  ⟨rfl, rfl,
   (create_by_image_count (cloudEnv 1) demoGlobals 5 (scenario [] ["a", "b"] 100)
      (scenario [] ["a", "b"] 99) (scenario [] ["a", "b"] 98)
      [plainImage "a", plainImage "b"] rfl rfl).2.2.2⟩

/-- C4. In a run of `createMachineImageAndRemoveOtherMachineImage`, take the
point where the machine-image list is answered with `images`, and suppose no
call after it fails. Then before that point the run inserted one image, named
`backup-` followed by the host clock's time, got an operation for it and
polled the global status lookup of that operation until it answered DONE;
after that point the requests are exactly the deletes of the listed images
whose name differs from the new image's name, one each, in list order; the
new image is not deleted; and the run returns success. On the simulated
provider, where an accepted delete removes the image, `remove` started with
one instance and the images `a`, `b`, `c` returns success, asks to delete
`a`, `b`, `c`, and ends with no instance and the new backup image as the only
image. -/
theorem cleanup_deletes_all_but_new (env : Env σ) (g : Globals) (fuel : Nat) (inst : Instance)
    (s : σ) (pre post : List Event) (images : List MachineImage)
    (ht : (createMachineImageAndRemoveOtherMachineImage env g fuel inst s).trace =
      pre ++ ⟨.machineImagesList g.projectID, .machineImages images⟩ :: post)
    (hd : ∀ e ∈ post, e.resp.isFailure = false) :
    (∃ (img : MachineImage) (op : Operation) (ops : List Operation) (done : Operation),
      img.Name = "backup-" ++ (Time.mk (env.now (env.now s).2).1.1 (env.now (env.now s).2).1.2
        env.localZone).Format "2006-01-02-15-04-05" ∧
      pre = ⟨.machineImagesInsert g.projectID img, .operation op⟩ ::
        polls (.globalOperationsGet g.projectID op.Name) ops ++
        [⟨.globalOperationsGet g.projectID op.Name, .operation done⟩] ∧
      (∀ o ∈ ops, o.Status ≠ "DONE") ∧ done.Status = "DONE" ∧
      post.map (fun e => e.req) =
        (images.filter (fun i => decide (i.Name ≠ img.Name))).map
          (fun i => .machineImagesDelete g.projectID i.Name) ∧
      imageDeletes (createMachineImageAndRemoveOtherMachineImage env g fuel inst s).trace =
        (images.map (fun i => i.Name)).filter (fun n => decide (n ≠ img.Name)) ∧
      img.Name ∉ imageDeletes (createMachineImageAndRemoveOtherMachineImage env g fuel inst s).trace ∧
      (createMachineImageAndRemoveOtherMachineImage env g fuel inst s).res = .ok ()) ∧
    ((createMachineImageAndRemoveInstance (cloudEnv 1) demoGlobals 5
        (scenario [demoInstance] ["a", "b", "c"] 100)).res = .ok () ∧
      imageDeletes (createMachineImageAndRemoveInstance (cloudEnv 1) demoGlobals 5
        (scenario [demoInstance] ["a", "b", "c"] 100)).trace = ["a", "b", "c"] ∧
      (createMachineImageAndRemoveInstance (cloudEnv 1) demoGlobals 5
        (scenario [demoInstance] ["a", "b", "c"] 100)).st.images.map (fun i => i.Name) =
        ["backup-2024-01-01-00-00-10"] ∧
      (createMachineImageAndRemoveInstance (cloudEnv 1) demoGlobals 5
        (scenario [demoInstance] ["a", "b", "c"] 100)).st.instances = []) := by
  refine ⟨?_, by decide, by decide, by decide, by decide⟩
  have hs := snapshot_shape env g fuel inst s
  obtain ⟨resp0, rest0, hhead⟩ := snapshot_head env g fuel inst s
  revert hs hhead ht
  generalize (createMachineImageAndRemoveOtherMachineImage env g fuel inst s).res = r
  generalize (createMachineImageAndRemoveOtherMachineImage env g fuel inst s).trace = t
  intro ht hs hhead
  have hmem : (⟨.machineImagesList g.projectID, .machineImages images⟩ : Event) ∈ t := by
    rw [ht]; simp
  cases hs with
  | insertFailed img e => simp at hmem
  | waiting img op res t1 hw hres =>
    rcases List.mem_cons.mp hmem with h | h
    · cases h
    · have := hw.wait_req_eq _ h
      cases this
  | listFailed img op t1 e hw =>
    simp only [List.cons_append, List.mem_cons, List.mem_append, List.mem_singleton] at hmem
    rcases hmem with h | h | h
    · cases h
    · have := hw.wait_req_eq _ h
      cases this
    · simp at h
  | cleaned img op t1 imgs res t2 hw hc =>
    have hsplit := split_unique
      (fun e : Event => e.req = .machineImagesList g.projectID)
      ⟨.machineImagesList g.projectID, .machineImages imgs⟩
      ⟨.machineImagesList g.projectID, .machineImages images⟩
      (⟨.machineImagesInsert g.projectID img, .operation op⟩ :: t1) t2 pre post
      (by simpa using ht)
      (by
        intro x hx
        rcases List.mem_cons.mp hx with rfl | hx
        · simp
        · show ¬ (x.req = _)
          rw [hw.wait_req_eq x hx]; simp)
      (by
        intro x hx
        obtain ⟨n, hn⟩ := hc.cleanup_req_eq x hx
        show ¬ (x.req = _)
        rw [hn]; simp)
      rfl
    obtain ⟨hpre, himgs, hpost⟩ := hsplit
    simp only [Event.mk.injEq, Response.machineImages.injEq, true_and] at himgs
    subst himgs hpost
    obtain ⟨ops, done, rfl, hops, hdone⟩ := hw.wait_ok_inv
    have hacc := hc.of_accepted hd
    have hname : img.Name = "backup-" ++ (Time.mk (env.now (env.now s).2).1.1
        (env.now (env.now s).2).1.2 env.localZone).Format "2006-01-02-15-04-05" := by
      simp only [List.cons_append, List.cons.injEq, Event.mk.injEq,
        Request.machineImagesInsert.injEq, true_and] at hhead
      rw [hhead.1.1]
    have hdel : imageDeletes
        (⟨.machineImagesInsert g.projectID img, .operation op⟩ ::
          (polls (.globalOperationsGet g.projectID op.Name) ops ++
            [⟨.globalOperationsGet g.projectID op.Name, .operation done⟩]) ++
          ⟨.machineImagesList g.projectID, .machineImages images⟩ :: post) =
        (images.map (fun i => i.Name)).filter (fun n => decide (n ≠ img.Name)) := by
      have h1 : imageDeletes post =
          (images.map (fun i => i.Name)).filter (fun n => decide (n ≠ img.Name)) := by
        apply imageDeletes_eq_of_req post _ g.projectID
        rw [hacc.2]
        simp [List.filter_map, Function.comp_def]
      rw [← h1]
      simp [imageDeletes, List.filterMap_append, polls, List.filterMap_map, Function.comp_def,
        Request.imageDeleted?]
    refine ⟨img, op, ops, done, hname, hpre, hops, hdone, hacc.2, hdel, ?_, hacc.1⟩
    rw [hdel]
    simp

/-- Witness for C4: the cleanup on the simulated provider with the images
`a`, `b`, `c`, cut at the answer to the machine-image list. -/
theorem cleanup_deletes_all_but_new_witness :
    ((createMachineImageAndRemoveOtherMachineImage (cloudEnv 1) demoGlobals 5 demoInstance
        (scenario [demoInstance] ["a", "b", "c"] 100)).trace =
      (createMachineImageAndRemoveOtherMachineImage (cloudEnv 1) demoGlobals 5 demoInstance
        (scenario [demoInstance] ["a", "b", "c"] 100)).trace.take 3 ++
      ⟨.machineImagesList demoGlobals.projectID, .machineImages
        [plainImage "a", plainImage "b", plainImage "c",
         ⟨"backup-2024-01-01-00-00-00", "2024-01-01 09:00:00に作成したイメージです", false,
          "projects/demo/zones/asia-northeast1-a/instances/instance-1", ["asia-northeast1"]⟩]⟩ ::
      (createMachineImageAndRemoveOtherMachineImage (cloudEnv 1) demoGlobals 5 demoInstance
        (scenario [demoInstance] ["a", "b", "c"] 100)).trace.drop 4) ∧
    (∀ e ∈ (createMachineImageAndRemoveOtherMachineImage (cloudEnv 1) demoGlobals 5 demoInstance
        (scenario [demoInstance] ["a", "b", "c"] 100)).trace.drop 4, e.resp.isFailure = false) ∧
    (createMachineImageAndRemoveOtherMachineImage (cloudEnv 1) demoGlobals 5 demoInstance
        (scenario [demoInstance] ["a", "b", "c"] 100)).res = .ok () ∧
    imageDeletes (createMachineImageAndRemoveOtherMachineImage (cloudEnv 1) demoGlobals 5
        demoInstance (scenario [demoInstance] ["a", "b", "c"] 100)).trace = ["a", "b", "c"] :=
  ⟨by decide, by decide,
   (cleanup_deletes_all_but_new (cloudEnv 1) demoGlobals 5 demoInstance
      (scenario [demoInstance] ["a", "b", "c"] 100)
      ((createMachineImageAndRemoveOtherMachineImage (cloudEnv 1) demoGlobals 5 demoInstance
        (scenario [demoInstance] ["a", "b", "c"] 100)).trace.take 3)
      ((createMachineImageAndRemoveOtherMachineImage (cloudEnv 1) demoGlobals 5 demoInstance
        (scenario [demoInstance] ["a", "b", "c"] 100)).trace.drop 4)
      [plainImage "a", plainImage "b", plainImage "c",
         ⟨"backup-2024-01-01-00-00-00", "2024-01-01 09:00:00に作成したイメージです", false,
          "projects/demo/zones/asia-northeast1-a/instances/instance-1", ["asia-northeast1"]⟩]
      (by decide) (by decide)).1.elim
    fun _ h1 => h1.elim fun _ h2 => h2.elim fun _ h3 => h3.elim fun _ h4 => h4.2.2.2.2.2.2.2,
   by decide⟩

/-- C6, as amended. When the instance list is answered with the instances
`shown` followed by `rest`, where `time.Parse` accepts every timestamp of
`shown` and rejects the timestamp of the first instance of `rest` (if there
is one), `listInstances` prints one line for each instance of `shown`, in
list order, and nothing else: with `rest` empty it returns success, else it
returns the parse error of the first instance of `rest` and displays none of
`rest`, whatever their timestamps. Every RFC 3339 date-time written with
upper-case `T` and `Z` and with seconds below 60 is accepted, and the line of
an instance with such a timestamp shows it as `tokyoText`: the calendar time
nine hours east of UTC as year, `-`, month, `-`, day, space, hour, `:`,
minute, `:`, second, then the fraction of the second, then
` +0900 Asia/Tokyo`. That calendar time, read at offset +09:00, is the
instant the timestamp names (its fraction cut to nine digits); month, day,
hour, minute and second are in range and in two digits; the year is between
-1 and 10000, written in four digits from 0 to 9999, as `10000` for 10000 and
as `-0001` for -1; the fraction is absent when it is zero, else a period and
at most nine digits, the last not `0`, that read as a decimal fraction give
the nanoseconds. The host's zone and clock play no part. The timestamp
`2024-01-01T00:00:00Z` shows as `2024-01-01 09:00:00 +0900 Asia/Tokyo`,
`9999-12-31T23:59:59Z` as `10000-01-01 08:59:59 +0900 Asia/Tokyo` and
`0000-01-01T00:00:00+10:00` as `-0001-12-31 23:00:00 +0900 Asia/Tokyo`. -/
theorem listInstances_shows_tokyo_time (env : Env σ) (g : Globals) (s s1 : σ)
    (shown rest : List Instance)
    (h : env.instancesList g.projectID g.zone s = (.ok (shown ++ rest), s1))
    (hne : (shown ++ rest).length ≠ 0)
    (hshown : ∀ i ∈ shown, ∃ t, parseRFC3339 i.LastStartTimestamp = .ok t)
    (hrest : ∀ bad ∈ rest.head?, ∀ t, parseRFC3339 bad.LastStartTimestamp ≠ .ok t) :
    ((listInstances env g s).out = shown.filterMap shownLine ∧
      (listInstances env g s).out.length = shown.length ∧
      (rest = [] → (listInstances env g s).res = .ok ()) ∧
      (∀ bad ∈ rest.head?,
        (listInstances env g s).res = .error (.parse RFC3339 bad.LastStartTimestamp))) ∧
    (∀ ts : Timestamp, ts.valid →
      (∀ inst : Instance, inst.LastStartTimestamp = ts.render →
        (∃ t, parseRFC3339 inst.LastStartTimestamp = .ok t) ∧
        shownLine inst =
          some (instanceLine inst (tokyoText (civilOfUnix (ts.unix + 32400)) ts.nanos))) ∧
      (civilOfUnix (ts.unix + 32400)).unix - 32400 = ts.unix ∧
      1 ≤ (civilOfUnix (ts.unix + 32400)).month ∧ (civilOfUnix (ts.unix + 32400)).month ≤ 12 ∧
      1 ≤ (civilOfUnix (ts.unix + 32400)).day ∧ (civilOfUnix (ts.unix + 32400)).day ≤ 31 ∧
      0 ≤ (civilOfUnix (ts.unix + 32400)).hour ∧ (civilOfUnix (ts.unix + 32400)).hour ≤ 23 ∧
      0 ≤ (civilOfUnix (ts.unix + 32400)).minute ∧
      (civilOfUnix (ts.unix + 32400)).minute ≤ 59 ∧
      0 ≤ (civilOfUnix (ts.unix + 32400)).second ∧
      (civilOfUnix (ts.unix + 32400)).second ≤ 59 ∧
      -1 ≤ (civilOfUnix (ts.unix + 32400)).year ∧
      (civilOfUnix (ts.unix + 32400)).year ≤ 10000 ∧
      (0 ≤ (civilOfUnix (ts.unix + 32400)).year → (civilOfUnix (ts.unix + 32400)).year ≤ 9999 →
        appendInt (civilOfUnix (ts.unix + 32400)).year 4 =
          [digitChar ((civilOfUnix (ts.unix + 32400)).year.toNat / 1000),
           digitChar ((civilOfUnix (ts.unix + 32400)).year.toNat / 100),
           digitChar ((civilOfUnix (ts.unix + 32400)).year.toNat / 10),
           digitChar (civilOfUnix (ts.unix + 32400)).year.toNat]) ∧
      ((civilOfUnix (ts.unix + 32400)).year = 10000 →
        appendInt (civilOfUnix (ts.unix + 32400)).year 4 = ['1', '0', '0', '0', '0']) ∧
      ((civilOfUnix (ts.unix + 32400)).year = -1 →
        appendInt (civilOfUnix (ts.unix + 32400)).year 4 = ['-', '0', '0', '0', '1']) ∧
      ts.nanos < 10 ^ 9 ∧
      (ts.nanos = 0 → appendNano ts.nanos = []) ∧
      (ts.nanos ≠ 0 →
        ∃ ds : List Char, appendNano ts.nanos = '.' :: ds ∧ ds ≠ [] ∧ ds.length ≤ 9 ∧
          (∀ c ∈ ds, c.isDigit = true) ∧ ds.getLast? ≠ some '0' ∧
          digitsVal ds * 10 ^ (9 - ds.length) = ts.nanos)) ∧
    (∀ (zone : Location) (clock : σ → (Int × Nat) × σ),
      listInstances ⟨env.instancesList, env.instancesInsert, env.instancesStop,
        env.instancesDelete, env.machineImagesList, env.machineImagesInsert,
        env.machineImagesDelete, env.zoneOperationsGet, env.globalOperationsGet, clock, zone,
        env.sleep⟩ g s = listInstances env g s) ∧
    (((⟨2024, 1, 1, 0, 0, 0, [], none⟩ : Timestamp).render = "2024-01-01T00:00:00Z" ∧
      tokyoText (civilOfUnix ((⟨2024, 1, 1, 0, 0, 0, [], none⟩ : Timestamp).unix + 32400))
          (⟨2024, 1, 1, 0, 0, 0, [], none⟩ : Timestamp).nanos =
        "2024-01-01 09:00:00 +0900 Asia/Tokyo") ∧
     ((⟨9999, 12, 31, 23, 59, 59, [], none⟩ : Timestamp).render = "9999-12-31T23:59:59Z" ∧
      tokyoText (civilOfUnix ((⟨9999, 12, 31, 23, 59, 59, [], none⟩ : Timestamp).unix + 32400))
          (⟨9999, 12, 31, 23, 59, 59, [], none⟩ : Timestamp).nanos =
        "10000-01-01 08:59:59 +0900 Asia/Tokyo") ∧
     ((⟨0, 1, 1, 0, 0, 0, [], some (false, 10, 0)⟩ : Timestamp).render =
        "0000-01-01T00:00:00+10:00" ∧
      tokyoText (civilOfUnix
          ((⟨0, 1, 1, 0, 0, 0, [], some (false, 10, 0)⟩ : Timestamp).unix + 32400))
          (⟨0, 1, 1, 0, 0, 0, [], some (false, 10, 0)⟩ : Timestamp).nanos =
        "-0001-12-31 23:00:00 +0900 Asia/Tokyo") ∧
     ((⟨2024, 1, 1, 0, 0, 0, [1, 2, 0], none⟩ : Timestamp).render =
        "2024-01-01T00:00:00.120Z" ∧
      tokyoText (civilOfUnix
          ((⟨2024, 1, 1, 0, 0, 0, [1, 2, 0], none⟩ : Timestamp).unix + 32400))
          (⟨2024, 1, 1, 0, 0, 0, [1, 2, 0], none⟩ : Timestamp).nanos =
        "2024-01-01 09:00:00.12 +0900 Asia/Tokyo")) := by
  have h1 : (env.instancesList g.projectID g.zone s).1 = .ok (shown ++ rest) := by rw [h]
  have h2 : (env.instancesList g.projectID g.zone s).2 = s1 := by rw [h]
  have hrun : listInstances env g s =
      ⟨(printInstances (shown ++ rest) s1).res, (printInstances (shown ++ rest) s1).st,
        ⟨.instancesList g.projectID g.zone, .instances (shown ++ rest)⟩ ::
          (printInstances (shown ++ rest) s1).trace,
        (printInstances (shown ++ rest) s1).out⟩ := by
    unfold listInstances
    rw [call_ok _ _ _ _ _ _ h1, h2]
    simp only [hne, if_false]
  have hsplit := printInstances_split shown rest hshown s1
  refine ⟨?_, ?_, fun zone clock => rfl,
    ⟨by decide, by decide⟩, ⟨by decide, by decide⟩, ⟨by decide, by decide⟩, by decide,
    by decide⟩
  · rw [hrun]
    simp only [hsplit.1, hsplit.2.1]
    cases rest with
    | nil =>
      have hnil : (printInstances ([] : List Instance) s1).out = [] ∧
          (printInstances ([] : List Instance) s1).res = .ok () := ⟨rfl, rfl⟩
      rw [hnil.1, hnil.2, List.append_nil]
      exact ⟨rfl, hsplit.2.2, fun _ => rfl, fun bad hb => by simp at hb⟩
    | cons bad more =>
      have hrej := printInstances_rejected bad more (hrest bad (by simp)) s1
      rw [hrej.1, hrej.2, List.append_nil]
      refine ⟨rfl, hsplit.2.2, (fun hc => by cases hc), ?_⟩
      intro b hb
      simp only [List.head?_cons, Option.mem_def, Option.some.injEq] at hb
      rw [← hb]
  · intro ts hv
    have hc := civilOfUnix_spec (ts.unix + 32400)
    obtain ⟨hu, hm1, hm2, hd1, hd2, hh1, hh2, hmi1, hmi2, hs1, hs2⟩ := hc
    have hy := shown_year_bounds ts hv
    refine ⟨?_, by omega, hm1, hm2, hd1, hd2, hh1, hh2, hmi1, hmi2, hs1, hs2, hy.1, hy.2,
      fun hy0 hy1 => appendInt_year _ hy0 hy1, ?_, ?_, nanos_lt ts hv, ?_, ?_⟩
    · intro inst hinst
      exact ⟨⟨_, by rw [hinst]; exact parseRFC3339_render ts hv⟩,
        shownLine_render inst ts hv hinst⟩
    · intro hy10
      rw [hy10]
      decide
    · intro hy1
      rw [hy1]
      decide
    · intro hz
      rw [hz]
      rfl
    · intro hnz
      exact appendNano_spec ts.nanos hnz (nanos_lt ts hv)

/-- Witness for C6, as amended: the simulated project with three instances,
the second with an empty last-start timestamp. The first is displayed, the
run returns the parse error of the second, and the third, whose timestamp is
valid, is not displayed. -/
theorem listInstances_shows_tokyo_time_witness :
    (cloudEnv 0).instancesList demoGlobals.projectID demoGlobals.zone
        (scenario [demoInstance, ⟨"instance-2", "", ""⟩,
          ⟨"instance-3", "2024-01-01T00:00:00Z", ""⟩] [] 10) =
      (.ok ([demoInstance] ++ [⟨"instance-2", "", ""⟩,
          ⟨"instance-3", "2024-01-01T00:00:00Z", ""⟩]),
        scenario [demoInstance, ⟨"instance-2", "", ""⟩,
          ⟨"instance-3", "2024-01-01T00:00:00Z", ""⟩] [] 9) ∧
    ((listInstances (cloudEnv 0) demoGlobals
        (scenario [demoInstance, ⟨"instance-2", "", ""⟩,
          ⟨"instance-3", "2024-01-01T00:00:00Z", ""⟩] [] 10)).out =
        [demoInstance].filterMap shownLine ∧
      (listInstances (cloudEnv 0) demoGlobals
        (scenario [demoInstance, ⟨"instance-2", "", ""⟩,
          ⟨"instance-3", "2024-01-01T00:00:00Z", ""⟩] [] 10)).out.length =
        [demoInstance].length ∧
      (([⟨"instance-2", "", ""⟩, ⟨"instance-3", "2024-01-01T00:00:00Z", ""⟩] : List Instance) =
          [] →
        (listInstances (cloudEnv 0) demoGlobals
          (scenario [demoInstance, ⟨"instance-2", "", ""⟩,
            ⟨"instance-3", "2024-01-01T00:00:00Z", ""⟩] [] 10)).res = .ok ()) ∧
      (∀ bad ∈ ([⟨"instance-2", "", ""⟩, ⟨"instance-3", "2024-01-01T00:00:00Z", ""⟩] :
          List Instance).head?,
        (listInstances (cloudEnv 0) demoGlobals
          (scenario [demoInstance, ⟨"instance-2", "", ""⟩,
            ⟨"instance-3", "2024-01-01T00:00:00Z", ""⟩] [] 10)).res =
          .error (.parse RFC3339 bad.LastStartTimestamp))) ∧
    (listInstances (cloudEnv 0) demoGlobals
        (scenario [demoInstance, ⟨"instance-2", "", ""⟩,
          ⟨"instance-3", "2024-01-01T00:00:00Z", ""⟩] [] 10)).out =
      [.text "Name: instance-1, LastStart: 2024-01-01 09:00:00 +0900 Asia/Tokyo\n"] ∧
    (listInstances (cloudEnv 0) demoGlobals
        (scenario [demoInstance, ⟨"instance-2", "", ""⟩,
          ⟨"instance-3", "2024-01-01T00:00:00Z", ""⟩] [] 10)).res =
      .error (.parse RFC3339 "") :=
  ⟨rfl,
   (listInstances_shows_tokyo_time (cloudEnv 0) demoGlobals
      (scenario [demoInstance, ⟨"instance-2", "", ""⟩,
        ⟨"instance-3", "2024-01-01T00:00:00Z", ""⟩] [] 10)
      (scenario [demoInstance, ⟨"instance-2", "", ""⟩,
        ⟨"instance-3", "2024-01-01T00:00:00Z", ""⟩] [] 9)
      [demoInstance] [⟨"instance-2", "", ""⟩, ⟨"instance-3", "2024-01-01T00:00:00Z", ""⟩]
      rfl (by decide)
      (by
        intro i hi
        rcases List.mem_singleton.mp hi with rfl
        exact ⟨⟨1704067200, 0, FixedZone "" 0⟩, rfl⟩)
      (by
        intro bad hb t ht
        simp only [List.head?_cons, Option.mem_def, Option.some.injEq] at hb
        rw [← hb] at ht
        have hbad : parseRFC3339 "" = .error (.parse RFC3339 "") := rfl
        rw [hbad] at ht
        cases ht)).1,
   by decide, by decide⟩

/-- Counterexample to C6 as stated. For the last-start timestamp
`2024-01-01T00:00:00Z` the line printed ends in `+0900 Asia/Tokyo`, the name
given to `time.FixedZone`, and not in `+0900 JST`; a timestamp with a
fraction of a second shows the fraction; `9999-12-31T23:59:59Z` shows with
the five-digit year `10000` and `0000-01-01T00:00:00+10:00` with the year
`-0001`; the valid RFC 3339 timestamps `2016-12-31T23:59:60Z` (a leap second)
and `2024-01-01t00:00:00z` (lower case) are not displayed at all, `time.Parse`
rejects them and `listInstances` returns the parse error; and an instance
with a valid timestamp that comes after one with an empty timestamp is not
displayed. -/
theorem listInstances_does_not_show_jst :
    ((listInstances (cloudEnv 0) demoGlobals (scenario [demoInstance] [] 10)).out =
        [.text "Name: instance-1, LastStart: 2024-01-01 09:00:00 +0900 Asia/Tokyo\n"] ∧
      (listInstances (cloudEnv 0) demoGlobals (scenario [demoInstance] [] 10)).out ≠
        [.text "Name: instance-1, LastStart: 2024-01-01 09:00:00 +0900 JST\n"]) ∧
    (listInstances (cloudEnv 0) demoGlobals
        (scenario [⟨"instance-1", "2024-01-01T00:00:00.5Z", ""⟩] [] 10)).out =
      [.text "Name: instance-1, LastStart: 2024-01-01 09:00:00.5 +0900 Asia/Tokyo\n"] ∧
    ((listInstances (cloudEnv 0) demoGlobals
        (scenario [⟨"instance-1", "2016-12-31T23:59:60Z", ""⟩] [] 10)).res =
        .error (.parse RFC3339 "2016-12-31T23:59:60Z") ∧
      (listInstances (cloudEnv 0) demoGlobals
        (scenario [⟨"instance-1", "2016-12-31T23:59:60Z", ""⟩] [] 10)).out = []) ∧
    ((listInstances (cloudEnv 0) demoGlobals
        (scenario [⟨"instance-1", "2024-01-01t00:00:00z", ""⟩] [] 10)).res =
        .error (.parse RFC3339 "2024-01-01t00:00:00z") ∧
      (listInstances (cloudEnv 0) demoGlobals
        (scenario [⟨"instance-1", "2024-01-01t00:00:00z", ""⟩] [] 10)).out = []) ∧
    (listInstances (cloudEnv 0) demoGlobals
        (scenario [⟨"instance-1", "9999-12-31T23:59:59Z", ""⟩] [] 10)).out =
      [.text "Name: instance-1, LastStart: 10000-01-01 08:59:59 +0900 Asia/Tokyo\n"] ∧
    (listInstances (cloudEnv 0) demoGlobals
        (scenario [⟨"instance-1", "0000-01-01T00:00:00+10:00", ""⟩] [] 10)).out =
      [.text "Name: instance-1, LastStart: -0001-12-31 23:00:00 +0900 Asia/Tokyo\n"] ∧
    ((listInstances (cloudEnv 0) demoGlobals
        (scenario [⟨"instance-0", "", ""⟩, demoInstance] [] 10)).out = [] ∧
      (listInstances (cloudEnv 0) demoGlobals
        (scenario [⟨"instance-0", "", ""⟩, demoInstance] [] 10)).res =
        .error (.parse RFC3339 "")) := by
  refine ⟨⟨by decide, by decide⟩, by decide, ⟨by decide, by decide⟩, ⟨by decide, by decide⟩,
    by decide, by decide, by decide, by decide⟩

/-- C7, the code at the failing input. With the flags `--projectID demo
--zone us-central1-a` and no region flag, `setGCPConfig` leaves the zone at
its default and stores the zone override in the region; `setGCPConfig` never
changes the zone at all, so the `list` command still asks for the instances
of `asia-northeast1-a`; and a region override given together with a zone
override is lost. -/
theorem setGCPConfig_zone_override_goes_to_region :
    setGCPConfig ⟨"demo", "", "us-central1-a"⟩ initialGlobals =
      ⟨"demo", "us-central1-a", "asia-northeast1-a"⟩ ∧
    (∀ (c : Context) (g : Globals), (setGCPConfig c g).zone = g.zone) ∧
    (∀ (c : Context) (g : Globals), c.zone ≠ "" → (setGCPConfig c g).region = c.zone) ∧
    setGCPConfig ⟨"demo", "europe-west1", "us-central1-a"⟩ initialGlobals =
      ⟨"demo", "us-central1-a", "asia-northeast1-a"⟩ ∧
    (actionList (cloudEnv 0) ⟨"demo", "", "us-central1-a"⟩ (scenario [] [] 10)).trace =
      [⟨.instancesList "demo" "asia-northeast1-a", .instances []⟩] := by
  refine ⟨by decide, ?_, ?_, by decide, by decide⟩
  · intro c g
    unfold setGCPConfig
    by_cases hr : c.region = "" <;> by_cases hz : c.zone = "" <;> simp [hr, hz]
  · intro c g hz
    unfold setGCPConfig
    by_cases hr : c.region = "" <;> simp [hr, hz]

/-- C8. When `createInstanceFromMachineImage` gets an empty instance list and
a machine-image list with the single image `img`, it issues one instance
insert, for the configured project and zone, of an instance whose
`SourceMachineImage` is `global/machineImages/` followed by the image's name
and whose name is `instance-` followed by the host clock's time in the layout
`2006-01-02-15-04-05` (the nanoseconds play no part). Nothing after the insert
is a mutating request. When the insert is accepted the rest of the run is the
polling of the returned operation's name with the zonal status lookup; the
run returns success only after a lookup answered DONE, and it does return
success when the first answer that ends polling is within the budget and is
an operation. -/
theorem create_from_single_image (env : Env σ) (g : Globals) (fuel : Nat) (s s1 s2 : σ)
    (img : MachineImage)
    (h1 : env.instancesList g.projectID g.zone s = (.ok [], s1))
    (h2 : env.machineImagesList g.projectID s1 = (.ok [img], s2)) :
    ∃ (inst : Instance) (rest : List Event),
      inst.Name = "instance-" ++
        (Time.mk (env.now s2).1.1 (env.now s2).1.2 env.localZone).Format "2006-01-02-15-04-05" ∧
      (∀ n : Nat,
        (Time.mk (env.now s2).1.1 n env.localZone).Format "2006-01-02-15-04-05" =
        (Time.mk (env.now s2).1.1 (env.now s2).1.2 env.localZone).Format "2006-01-02-15-04-05") ∧
      inst.SourceMachineImage = "global/machineImages/" ++ img.Name ∧
      (createInstanceFromMachineImage env g fuel s).trace =
        ⟨.instancesList g.projectID g.zone, .instances []⟩ ::
        ⟨.machineImagesList g.projectID, .machineImages [img]⟩ ::
        ⟨.instancesInsert g.projectID g.zone inst,
          toResponse .operation (env.instancesInsert g.projectID g.zone inst (env.now s2).2).1⟩ ::
        rest ∧
      (∀ e ∈ rest, e.req.isMutating = false) ∧
      (∀ op, (env.instancesInsert g.projectID g.zone inst (env.now s2).2).1 = .ok op →
        ((createInstanceFromMachineImage env g fuel s).res, rest) =
          referencePoller (.zoneOperationsGet g.projectID g.zone op.Name)
            (pollResponses env (env.zoneOperationsGet g.projectID g.zone op.Name) fuel
              (env.instancesInsert g.projectID g.zone inst (env.now s2).2).2)) ∧
      ((createInstanceFromMachineImage env g fuel s).res = .ok () →
        ∃ op ops done,
          (env.instancesInsert g.projectID g.zone inst (env.now s2).2).1 = .ok op ∧
          rest = polls (.zoneOperationsGet g.projectID g.zone op.Name) ops ++
            [⟨.zoneOperationsGet g.projectID g.zone op.Name, .operation done⟩] ∧
          (∀ o ∈ ops, o.Status ≠ "DONE") ∧ done.Status = "DONE") ∧
      (∀ op k done,
        (env.instancesInsert g.projectID g.zone inst (env.now s2).2).1 = .ok op →
        firstTerminal (pollResponses env (env.zoneOperationsGet g.projectID g.zone op.Name) fuel
          (env.instancesInsert g.projectID g.zone inst (env.now s2).2).2) = some k →
        (pollResponses env (env.zoneOperationsGet g.projectID g.zone op.Name) fuel
          (env.instancesInsert g.projectID g.zone inst (env.now s2).2).2)[k]? = some (.ok done) →
        (createInstanceFromMachineImage env g fuel s).res = .ok ()) := by
  refine ⟨⟨"instance-" ++ (Time.mk (env.now s2).1.1 (env.now s2).1.2 env.localZone).Format
      "2006-01-02-15-04-05", "", "global/machineImages/" ++ img.Name⟩, ?_⟩
  cases h3 : (env.instancesInsert g.projectID g.zone
      ⟨"instance-" ++ (Time.mk (env.now s2).1.1 (env.now s2).1.2 env.localZone).Format
        "2006-01-02-15-04-05", "", "global/machineImages/" ++ img.Name⟩ (env.now s2).2).1 with
  | error e =>
    rw [create_single_error env g fuel s s1 s2 img e h1 h2 h3]
    refine ⟨[], rfl, fun n => rfl, rfl, rfl, by simp, ?_, ?_, ?_⟩
    · intro op hop; cases hop
    · intro hres; cases hres
    · intro op k done hop; cases hop
  | ok op =>
    rw [create_single_ok env g fuel s s1 s2 img op h1 h2 h3]
    have hw := waitZoneOperation_reference env g op fuel (env.instancesInsert g.projectID g.zone
      ⟨"instance-" ++ (Time.mk (env.now s2).1.1 (env.now s2).1.2 env.localZone).Format
        "2006-01-02-15-04-05", "", "global/machineImages/" ++ img.Name⟩ (env.now s2).2).2
    have hs := waitZoneOperation_shape env g op fuel (env.instancesInsert g.projectID g.zone
      ⟨"instance-" ++ (Time.mk (env.now s2).1.1 (env.now s2).1.2 env.localZone).Format
        "2006-01-02-15-04-05", "", "global/machineImages/" ++ img.Name⟩ (env.now s2).2).2
    refine ⟨_, rfl, fun n => rfl, rfl, rfl, ?_, ?_, ?_, ?_⟩
    · revert hs
      generalize (waitZoneOperation env g op fuel _).res = r
      generalize (waitZoneOperation env g op fuel _).trace = t
      intro hs e he
      cases hs with
      | done os last hp hl =>
        simp only [polls, List.mem_append, List.mem_map, List.mem_singleton] at he
        rcases he with ⟨o, _, rfl⟩ | rfl <;> rfl
      | failed os err hp =>
        simp only [polls, List.mem_append, List.mem_map, List.mem_singleton] at he
        rcases he with ⟨o, _, rfl⟩ | rfl <;> rfl
      | running os hp =>
        simp only [polls, List.mem_map] at he
        rcases he with ⟨o, _, rfl⟩
        rfl
    · intro op1 hop
      cases hop
      exact hw
    · intro hres
      simp only at hres
      revert hs
      rw [hres]
      generalize (waitZoneOperation env g op fuel _).trace = t
      intro hs
      cases hs with
      | done os last hp hl => exact ⟨op, os, last, rfl, rfl, hp, hl⟩
    · intro op1 k done hop hk hget
      cases hop
      have hf := referencePoller_first (.zoneOperationsGet g.projectID g.zone op.Name) _ k hk
      simp only [Prod.ext_iff] at hw
      simp only
      rw [hw.1]
      exact (hf.2.2 done hget).2

/-- Witness for C8: the simulated project with no instance and the one image
`golden`. The insert names `global/machineImages/golden`, the run returns
success, and the project then has the one instance
`instance-2024-01-01-00-00-00`. -/
theorem create_from_single_image_witness :
    ((cloudEnv 1).instancesList demoGlobals.projectID demoGlobals.zone
        (scenario [] ["golden"] 100) = (.ok [], scenario [] ["golden"] 99) ∧
      (cloudEnv 1).machineImagesList demoGlobals.projectID (scenario [] ["golden"] 99) =
        (.ok [plainImage "golden"], scenario [] ["golden"] 98)) ∧
    (∃ (inst : Instance) (rest : List Event),
      inst.SourceMachineImage = "global/machineImages/" ++ (plainImage "golden").Name ∧
      (createInstanceFromMachineImage (cloudEnv 1) demoGlobals 5
          (scenario [] ["golden"] 100)).trace =
        ⟨.instancesList demoGlobals.projectID demoGlobals.zone, .instances []⟩ ::
        ⟨.machineImagesList demoGlobals.projectID, .machineImages [plainImage "golden"]⟩ ::
        ⟨.instancesInsert demoGlobals.projectID demoGlobals.zone inst,
          toResponse .operation ((cloudEnv 1).instancesInsert demoGlobals.projectID
            demoGlobals.zone inst ((cloudEnv 1).now (scenario [] ["golden"] 98)).2).1⟩ ::
        rest) ∧
    (createInstanceFromMachineImage (cloudEnv 1) demoGlobals 5 (scenario [] ["golden"] 100)).res =
      .ok () ∧
    (createInstanceFromMachineImage (cloudEnv 1) demoGlobals 5
        (scenario [] ["golden"] 100)).trace.map (fun e => e.req) =
      [.instancesList "demo" "asia-northeast1-a",
       .machineImagesList "demo",
       .instancesInsert "demo" "asia-northeast1-a"
         ⟨"instance-2024-01-01-00-00-00", "", "global/machineImages/golden"⟩,
       .zoneOperationsGet "demo" "asia-northeast1-a" "operation-0",
       .zoneOperationsGet "demo" "asia-northeast1-a" "operation-0"] ∧
    (createInstanceFromMachineImage (cloudEnv 1) demoGlobals 5
        (scenario [] ["golden"] 100)).st.instances.map (fun i => i.Name) =
      ["instance-2024-01-01-00-00-00"] :=
  ⟨⟨rfl, rfl⟩,
   (create_from_single_image (cloudEnv 1) demoGlobals 5 (scenario [] ["golden"] 100)
      (scenario [] ["golden"] 99) (scenario [] ["golden"] 98) (plainImage "golden") rfl rfl).elim
    fun inst hi => hi.elim fun rest hr => ⟨inst, rest, hr.2.2.1, hr.2.2.2.1⟩,
   by decide, by decide, by decide⟩

/-- C9. In every run of `createMachineImageAndRemoveInstance`: wherever the
trace has an instance-delete request, what comes before it in the trace is
the instance list answered with one instance, the accepted stop of that
instance, the zonal lookups of the stop operation up to one answered DONE,
the accepted machine-image insert, the global lookups of its operation up to
one answered DONE, the answered machine-image list, and accepted
machine-image deletes, in this order, and the delete is of that instance;
and a call of the run that fails is its last call, with the run returning
that call's error (nothing is issued after it, no rollback). -/
theorem instance_delete_comes_last (env : Env σ) (g : Globals) (fuel : Nat) (s : σ) :
    (∀ (pre : List Event) (e : Event) (post : List Event),
      (createMachineImageAndRemoveInstance env g fuel s).trace = pre ++ e :: post →
      (∃ p z n, e.req = .instancesDelete p z n) →
      ∃ (inst : Instance) (stopOp : Operation) (ops1 : List Operation) (done1 : Operation)
        (img : MachineImage) (imgOp : Operation) (ops2 : List Operation) (done2 : Operation)
        (images : List MachineImage) (dels : List Event),
        pre = ⟨.instancesList g.projectID g.zone, .instances [inst]⟩ ::
          ⟨.instancesStop g.projectID g.zone inst.Name, .operation stopOp⟩ ::
          (polls (.zoneOperationsGet g.projectID g.zone stopOp.Name) ops1 ++
            [⟨.zoneOperationsGet g.projectID g.zone stopOp.Name, .operation done1⟩]) ++
          (⟨.machineImagesInsert g.projectID img, .operation imgOp⟩ ::
            (polls (.globalOperationsGet g.projectID imgOp.Name) ops2 ++
              [⟨.globalOperationsGet g.projectID imgOp.Name, .operation done2⟩]) ++
            ⟨.machineImagesList g.projectID, .machineImages images⟩ :: dels) ∧
        done1.Status = "DONE" ∧ done2.Status = "DONE" ∧
        (∀ x ∈ dels, ∃ n o, x = ⟨.machineImagesDelete g.projectID n, .operation o⟩) ∧
        e.req = .instancesDelete g.projectID g.zone inst.Name) ∧
    (∀ (pre : List Event) (e : Event) (post : List Event) (err : String),
      (createMachineImageAndRemoveInstance env g fuel s).trace = pre ++ e :: post →
      e.resp = .failure err →
      post = [] ∧ (createMachineImageAndRemoveInstance env g fuel s).res = .error (.api err)) := by
  have hs := remove_shape env g fuel s
  refine ⟨?_, hs.remove_tidy.failsLast⟩
  revert hs
  generalize (createMachineImageAndRemoveInstance env g fuel s).res = r
  generalize (createMachineImageAndRemoveInstance env g fuel s).trace = t
  intro hs pre e post ht he
  have hmem : e ∈ t := by rw [ht]; simp
  obtain ⟨p, z, n, hreq⟩ := he
  cases hs with
  | listFailed err =>
    rcases List.mem_singleton.mp hmem with rfl
    simp at hreq
  | refused items msg hn =>
    rcases List.mem_singleton.mp hmem with rfl
    simp at hreq
  | stopFailed inst err =>
    simp only [List.mem_cons, List.mem_singleton, List.not_mem_nil, or_false] at hmem
    rcases hmem with rfl | rfl <;> simp at hreq
  | stopping inst op res t1 hw hres =>
    simp only [List.mem_cons] at hmem
    rcases hmem with rfl | rfl | hmem
    · simp at hreq
    · simp at hreq
    · rw [hw.wait_req_eq e hmem] at hreq
      simp at hreq
  | snapshotting inst op t1 res t2 hw hsn hres =>
    simp only [List.cons_append, List.mem_cons, List.mem_append] at hmem
    rcases hmem with rfl | rfl | hmem | hmem
    · simp at hreq
    · simp at hreq
    · rw [hw.wait_req_eq e hmem] at hreq
      simp at hreq
    · exact absurd ⟨p, z, n, hreq⟩ (hsn.no_instance_delete e hmem)
  | deleteFailed inst op t1 t2 err hw hsn =>
    obtain ⟨ops1, done1, img, imgOp, ops2, done2, images, dels, h⟩ :=
      remove_delete_inv hw hsn rfl (by intro x hx; cases hx) ht ⟨p, z, n, hreq⟩
    exact ⟨inst, op, ops1, done1, img, imgOp, ops2, done2, images, dels, h⟩
  | deleting inst op t1 t2 op2 res t3 hw hsn hw3 =>
    obtain ⟨ops1, done1, img, imgOp, ops2, done2, images, dels, h⟩ :=
      remove_delete_inv hw hsn rfl
        (by
          intro x hx
          rw [hw3.wait_req_eq x hx]
          simp) ht ⟨p, z, n, hreq⟩
    exact ⟨inst, op, ops1, done1, img, imgOp, ops2, done2, images, dels, h⟩

/-- Witness for C9 on the simulated provider. With a quota of two calls the
first status lookup fails: it is the last call, the run returns its error,
and the instance is still there. With quota to spare the instance delete is
the twelfth call of the run. -/
theorem instance_delete_comes_last_witness :
    ((createMachineImageAndRemoveInstance (cloudEnv 1) demoGlobals 5
        (scenario [demoInstance] ["a", "b", "c"] 2)).trace =
      (createMachineImageAndRemoveInstance (cloudEnv 1) demoGlobals 5
        (scenario [demoInstance] ["a", "b", "c"] 2)).trace.take 2 ++
      ⟨.zoneOperationsGet "demo" "asia-northeast1-a" "operation-0", .failure "quota exceeded"⟩ ::
        []) ∧
    (([] : List Event) = [] ∧
      (createMachineImageAndRemoveInstance (cloudEnv 1) demoGlobals 5
        (scenario [demoInstance] ["a", "b", "c"] 2)).res = .error (.api "quota exceeded")) ∧
    (createMachineImageAndRemoveInstance (cloudEnv 1) demoGlobals 5
        (scenario [demoInstance] ["a", "b", "c"] 2)).st.instances = [demoInstance] ∧
    ((createMachineImageAndRemoveInstance (cloudEnv 1) demoGlobals 5
        (scenario [demoInstance] ["a", "b", "c"] 100)).trace =
      (createMachineImageAndRemoveInstance (cloudEnv 1) demoGlobals 5
        (scenario [demoInstance] ["a", "b", "c"] 100)).trace.take 11 ++
      ⟨.instancesDelete "demo" "asia-northeast1-a" "instance-1",
        .operation ⟨"operation-5", "RUNNING", 0, none⟩⟩ ::
      (createMachineImageAndRemoveInstance (cloudEnv 1) demoGlobals 5
        (scenario [demoInstance] ["a", "b", "c"] 100)).trace.drop 12) :=
  ⟨by decide,
   (instance_delete_comes_last (cloudEnv 1) demoGlobals 5
      (scenario [demoInstance] ["a", "b", "c"] 2)).2
      ((createMachineImageAndRemoveInstance (cloudEnv 1) demoGlobals 5
        (scenario [demoInstance] ["a", "b", "c"] 2)).trace.take 2)
      ⟨.zoneOperationsGet "demo" "asia-northeast1-a" "operation-0", .failure "quota exceeded"⟩
      [] "quota exceeded" (by decide) rfl,
   by decide, by decide⟩

/-- C10, as amended. In every run of `createInstanceFromMachineImage` and of
`createMachineImageAndRemoveInstance`: after an accepted instance insert,
instance stop, machine-image insert or instance delete, no mutating request
is issued before a status lookup of the returned operation (zonal for the
instance requests, global for the image insert) has been answered DONE.
Machine-image deletes are left out: the source does not poll them. -/
theorem waits_before_next_mutation (env : Env σ) (g : Globals) (fuel : Nat) (s : σ) :
    WaitsBeforeMutating Request.polledWith (createInstanceFromMachineImage env g fuel s).trace ∧
    WaitsBeforeMutating Request.polledWith
      (createMachineImageAndRemoveInstance env g fuel s).trace :=
  ⟨orderly_waits _ none (create_orderly env g fuel s),
   orderly_waits _ none (remove_shape env g fuel s).remove_orderly⟩

/-- Witness for C10, as amended, on the simulated provider: between the
accepted stop (second call) and the machine-image insert (fifth call) the
lookup of the stop operation is answered DONE. -/
theorem waits_before_next_mutation_witness :
    ∃ d ∈ [(⟨.zoneOperationsGet "demo" "asia-northeast1-a" "operation-0",
              .operation ⟨"operation-0", "RUNNING", 50, none⟩⟩ : Event),
            ⟨.zoneOperationsGet "demo" "asia-northeast1-a" "operation-0",
              .operation ⟨"operation-0", "DONE", 100, none⟩⟩],
      d.req = .zoneOperationsGet "demo" "asia-northeast1-a" "operation-0" ∧ d.isDone = true :=
  (waits_before_next_mutation (cloudEnv 1) demoGlobals 5
      (scenario [demoInstance] ["a", "b", "c"] 100)).2
    [⟨.instancesList "demo" "asia-northeast1-a", .instances [demoInstance]⟩]
    ⟨.instancesStop "demo" "asia-northeast1-a" "instance-1",
      .operation ⟨"operation-0", "RUNNING", 0, none⟩⟩
    ((createMachineImageAndRemoveInstance (cloudEnv 1) demoGlobals 5
      (scenario [demoInstance] ["a", "b", "c"] 100)).trace.drop 2)
    (.zoneOperationsGet "demo" "asia-northeast1-a" "operation-0")
    (by decide) (by decide)
    [⟨.zoneOperationsGet "demo" "asia-northeast1-a" "operation-0",
        .operation ⟨"operation-0", "RUNNING", 50, none⟩⟩,
     ⟨.zoneOperationsGet "demo" "asia-northeast1-a" "operation-0",
        .operation ⟨"operation-0", "DONE", 100, none⟩⟩]
    ((createMachineImageAndRemoveInstance (cloudEnv 1) demoGlobals 5
      (scenario [demoInstance] ["a", "b", "c"] 100)).trace.get ⟨4, by decide⟩)
    ((createMachineImageAndRemoveInstance (cloudEnv 1) demoGlobals 5
      (scenario [demoInstance] ["a", "b", "c"] 100)).trace.drop 5)
    (by decide) (by decide)

/-- Counterexample to C10 as stated: on the simulated provider with the
images `a`, `b`, `c`, the accepted delete of image `a` returns
`operation-2`, and the next request of the run is the delete of image `b`,
with no status lookup of `operation-2` in between. -/
theorem image_delete_is_not_waited_for :
    ¬ WaitsBeforeMutating Request.operationLookup
      (createMachineImageAndRemoveInstance (cloudEnv 1) demoGlobals 5
        (scenario [demoInstance] ["a", "b", "c"] 100)).trace := by
  intro h
  have := h
    ((createMachineImageAndRemoveInstance (cloudEnv 1) demoGlobals 5
      (scenario [demoInstance] ["a", "b", "c"] 100)).trace.take 8)
    ⟨.machineImagesDelete "demo" "a", .operation ⟨"operation-2", "RUNNING", 0, none⟩⟩
    ((createMachineImageAndRemoveInstance (cloudEnv 1) demoGlobals 5
      (scenario [demoInstance] ["a", "b", "c"] 100)).trace.drop 9)
    (.globalOperationsGet "demo" "operation-2")
    (by decide) (by decide)
    []
    ⟨.machineImagesDelete "demo" "b", .operation ⟨"operation-3", "RUNNING", 0, none⟩⟩
    ((createMachineImageAndRemoveInstance (cloudEnv 1) demoGlobals 5
      (scenario [demoInstance] ["a", "b", "c"] 100)).trace.drop 10)
    (by decide) (by decide)
  obtain ⟨d, hd, _⟩ := this
  cases hd

end Claims

end CloudGamingOperator
